import Mathlib

/-!
# Spring Boot Startup Analyzer: LLM request orchestration core

A shallow embedding of the JavaScript sources under `src/js/llm/` and of the
parts of `src/js/app/` they are used with, followed by the theorems that
settle the specification's claims against that embedding.

Conventions of the embedding:

* a JavaScript string whose code units matter (`truncateBytes`) is a list of
  UTF-16 code units; every other string is a Lean `String`;
* an absent (`undefined`) string field is the empty string wherever the source
  reads the field through `x || ''` or a truthiness test;
* effects (network, timers, the abort signal, `Math.random`, `localStorage`)
  are explicit: the environment is scripted, the state is passed along and
  every observable action is appended to a trace.
-/

namespace StartupAnalyzer

/-! ## PromptBuilder.js: `truncateBytes` -/

/-- A JavaScript string as its sequence of UTF-16 code units. -/
abbrev JsString := List Nat

/-- High (leading) surrogate code unit. -/
def isHighSurrogate (c : Nat) : Bool := 0xD800 ≤ c && c ≤ 0xDBFF

/-- Low (trailing) surrogate code unit. -/
def isLowSurrogate (c : Nat) : Bool := 0xDC00 ≤ c && c ≤ 0xDFFF

/-- The number of UTF-8 bytes of the code point of a single code unit; a lone
surrogate is encoded as U+FFFD, three bytes. -/
def unitSize (c : Nat) : Nat :=
  if c < 0x80 then 1 else if c < 0x800 then 2 else 3

/-- The value of `new Blob([str]).size`: the length of the UTF-8 encoding of
`str`. A surrogate pair is one code point of four bytes; every other code
unit, a lone surrogate included, is encoded by itself. -/
def blobSize : JsString → Nat
  | [] => 0
  | [c] => unitSize c
  | c :: d :: rest =>
    if isHighSurrogate c && isLowSurrogate d then 4 + blobSize rest
    else unitSize c + blobSize (d :: rest)

/-- The operator `ToInt32` of ECMAScript, applied by `>>` to its left operand. -/
def toInt32 (x : Int) : Int :=
  let m := x % 4294967296
  if 2147483648 ≤ m then m - 4294967296 else m

/-- The expression `x >> 1`. -/
def sar1 (x : Int) : Int := toInt32 x / 2

/-- The call `str.slice(0, end)` for an integer `end`: a negative `end` counts
from the end of the string. -/
def slice0 (str : JsString) (e : Int) : JsString :=
  let len : Int := str.length
  let final : Int := if e < 0 then max (len + e) 0 else min e len
  str.take final.toNat

/-- The text appended to a truncated string. -/
def truncationMarker : JsString :=
  [10, 46, 46, 46, 32, 91, 116, 114, 117, 110, 99, 97, 116, 101, 100, 93]

/-- The `while (low <= high)` loop of `truncateBytes`; the result is the final
value of `ans`. One unit of fuel is spent per evaluation of the loop condition;
`none` means the fuel ran out before the loop ended. -/
def truncateLoop (str : JsString) (maxBytes : Nat) : Nat → Int → Int → Int → Option Int
  | 0, _, _, _ => none
  | fuel + 1, low, high, ans =>
    if low ≤ high then
      let mid := sar1 (low + high)
      let size := blobSize (slice0 str mid)
      if size ≤ maxBytes then
        truncateLoop str maxBytes fuel (mid + 1) high mid
      else
        truncateLoop str maxBytes fuel low (mid - 1) ans
    else some ans

/-- The function `truncateBytes(str, maxBytes)`. The loop is given
`str.length + 2` units of fuel, which is enough: the result is never `none` for a
string shorter than `2 ^ 30` units (shown with the theorems below). -/
def truncateBytes (str : JsString) (maxBytes : Nat) : Option JsString :=
  if str.isEmpty || maxBytes == 0 then some []
  else if blobSize str ≤ maxBytes then some str
  else
    match truncateLoop str maxBytes (str.length + 2) 0 str.length 0 with
    | none => none
    | some ans => some (slice0 str ans ++ truncationMarker)

/-! ## ProviderPresets.js -/

/-- One entry of `ProviderPresets.AI_PROVIDERS`. -/
structure Preset where
  name : String
  baseUrl : String
  model : String
  docs : String
deriving DecidableEq, Repr

/-- The entry `AI_PROVIDERS.openrouter`. -/
def presetOpenrouter : Preset :=
  { name := "OpenRouter (Default)"
    baseUrl := "https://openrouter.ai/api/v1/chat/completions"
    model := "qwen/qwen3-235b-a22b:free"
    docs := "https://openrouter.ai" }

/-- The entry `AI_PROVIDERS.openai`. -/
def presetOpenai : Preset :=
  { name := "OpenAI"
    baseUrl := "https://api.openai.com/v1/chat/completions"
    model := "gpt-4o-mini"
    docs := "https://platform.openai.com/docs" }

/-- The entry `AI_PROVIDERS.anthropic`. -/
def presetAnthropic : Preset :=
  { name := "Anthropic"
    baseUrl := "https://api.anthropic.com/v1/messages"
    model := "anthropic/claude-sonnet-4.5"
    docs := "https://docs.anthropic.com" }

/-- The entry `AI_PROVIDERS.deepseek`. -/
def presetDeepseek : Preset :=
  { name := "DeepSeek"
    baseUrl := "https://api.deepseek.com/v1/chat/completions"
    model := "deepseek/deepseek-chat-v3.1:free"
    docs := "https://platform.deepseek.com" }

/-- The result of a property read `AI_PROVIDERS[key]` on the object literal. -/
inductive PresetLookup where
  /-- An own property: one of the four presets. -/
  | own (p : Preset)
  /-- A property inherited from `Object.prototype`: a truthy value that has no
  `baseUrl`. -/
  | inherited
  /-- No such property: `undefined`. -/
  | absent
deriving DecidableEq, Repr

/-- The property names every object literal inherits from `Object.prototype`. -/
def objectPrototypeKeys : List String :=
  ["constructor", "hasOwnProperty", "isPrototypeOf", "propertyIsEnumerable",
   "toLocaleString", "toString", "valueOf", "__proto__", "__defineGetter__",
   "__defineSetter__", "__lookupGetter__", "__lookupSetter__"]

/-- The property read `AI_PROVIDERS[provider]`. -/
def aiProviders (provider : String) : PresetLookup :=
  if provider = "openrouter" then .own presetOpenrouter
  else if provider = "openai" then .own presetOpenai
  else if provider = "anthropic" then .own presetAnthropic
  else if provider = "deepseek" then .own presetDeepseek
  else if provider ∈ objectPrototypeKeys then .inherited
  else .absent

/-- The constant `DEFAULT_KEYS.openrouter`. -/
def defaultKeyOpenrouter : String :=
  "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"

/-! ## ProfileStore.js and LLMManager.js -/

/-- A profile record as stored in `llm.profiles`. An absent string field is the
empty string, an absent flag is `false`. -/
structure Profile where
  id : String
  name : String
  provider : String
  baseUrl : String
  apiKey : String
  model : String
  isDefault : Bool
  isDraft : Bool
deriving DecidableEq, Repr

/-- The two entries of the durable store, as `ProfileStore` reads them: the
parsed profile list and the active id (the empty string when the entry is
absent). -/
structure Store where
  profiles : List Profile
  activeId : String
deriving DecidableEq, Repr

/-- The method `Array.prototype.findIndex`, with `none` for `-1`. -/
def findIndex {α : Type} (q : α → Bool) : List α → Option Nat
  | [] => none
  | x :: xs => if q x then some 0 else (findIndex q xs).map (· + 1)

/-- The characters of `String.prototype.toLowerCase` on one character, exact for
every character whose lower case contains an ASCII character: the ASCII capital
letters, U+212A (Kelvin sign, lower case `k`) and U+0130 (lower case `i` followed
by U+0307). Every other character is left as it is: its lower case has no ASCII
character, so no search for an ASCII text can tell the difference. -/
def lowerChar (c : Char) : List Char :=
  if c.isUpper then [c.toLower]
  else if c = Char.ofNat 0x212A then ['k']
  else if c = Char.ofNat 0x130 then ['i', Char.ofNat 0x307]
  else [c]

/-- The method `String.prototype.toLowerCase`. -/
def toLowerCase (s : String) : String :=
  String.mk (s.data.flatMap lowerChar)

/-- The method `String.prototype.includes`. -/
def includes (s needle : String) : Bool :=
  decide (needle.data <:+: s.data)

/-- The method `LLMManager._inferProvider`. -/
def inferProvider (baseUrl : String) : String :=
  let u := toLowerCase baseUrl
  if u = "" then "custom"
  else if includes u "openrouter.ai" then "openrouter"
  else if includes u "api.openai.com" then "openai"
  else if includes u "anthropic.com" then "anthropic"
  else if includes u "deepseek.com" then "deepseek"
  else "custom"

/-- The function `_uuid()`: the text `p-` followed by a suffix `r` made of a
random number and the clock, both supplied by the environment. -/
def uuid (r : String) : String := "p-" ++ r

/-- The method `ProfileStore.setActiveId`. -/
def Store.setActiveId (s : Store) (id : String) : Store :=
  if id ≠ "" then { s with activeId := id } else s

/-- The method `LLMManager.setActiveProfileId`. -/
def setActiveProfileId (id : String) (s : Store) : Store :=
  if id ≠ "" then s.setActiveId id else s

/-- The record `def` that `ensureDefaultProfile` synthesizes; `r` is the suffix
of the identifier `_uuid()` generates. -/
def synthesizedDefault (r : String) : Profile :=
  let p := presetOpenrouter
  { id := uuid r
    name := "Default (OpenRouter)"
    provider := "openrouter"
    baseUrl := p.baseUrl
    apiKey := defaultKeyOpenrouter
    model := p.model
    isDefault := true
    isDraft := false }

/-- The method `LLMManager.ensureDefaultProfile`; `r` is the suffix of the
identifier `_uuid()` would generate. -/
def ensureDefaultProfile (r : String) (s : Store) : Store :=
  let profiles := s.profiles
  let hasDefault := profiles.any (·.isDefault)
  if !hasDefault then
    let dflt := synthesizedDefault r
    let s1 : Store := { s with profiles := dflt :: profiles }
    if s1.activeId = "" then setActiveProfileId dflt.id s1 else s1
  else
    match findIndex (·.isDefault) profiles with
    | none => s
    | some idx =>
      match profiles[idx]? with
      | none => s
      | some dflt =>
        if dflt.apiKey = "" ∧ defaultKeyOpenrouter ≠ "" then
          { s with profiles := profiles.set idx { dflt with apiKey := defaultKeyOpenrouter } }
        else s

/-- The method `LLMManager.getActiveProfile`: the profile returned (`none` for
`undefined`) and the store after the call. -/
def getActiveProfile (r : String) (s : Store) : Option Profile × Store :=
  let s1 := ensureDefaultProfile r s
  let id := s1.activeId
  let profiles := s1.profiles
  match profiles.find? (fun p => p.id == id) with
  | some prof => (some prof, s1)
  | none =>
    match profiles with
    | prof :: _ => (some prof, setActiveProfileId prof.id s1)
    | [] => (none, s1)

/-- The method `LLMManager.saveProfile`: the record returned and the store after
the call. The argument `input` is read through the same fields as a record; its
`isDefault` is never read. `existing` is `profiles[existingIdx]` when
`existingIdx >= 0`. -/
def saveProfile (r : String) (input : Profile) (s : Store) : Profile × Store :=
  let profiles := s.profiles
  let existingIdx :=
    if input.id ≠ "" then findIndex (fun p => p.id == input.id) profiles else none
  let existing : Option Profile := existingIdx.bind (fun i => profiles[i]?)
  let provider := if input.provider ≠ "" then input.provider else inferProvider input.baseUrl
  let baseUrlToSave :=
    if provider ≠ "" ∧ provider ≠ "custom" then
      match aiProviders provider with
      | .own p => p.baseUrl
      | .inherited => ""
      | .absent => input.baseUrl
    else input.baseUrl
  let record : Profile :=
    { id := if input.id ≠ "" then input.id else uuid r
      name := if input.name ≠ "" then input.name else "New Profile"
      provider := provider
      baseUrl := baseUrlToSave
      apiKey := input.apiKey
      model := input.model
      isDefault := match existing with
        | some e => e.isDefault
        | none => false
      isDraft := input.isDraft }
  let saved : List Profile :=
    match existingIdx with
    | some i => profiles.set i record
    | none => profiles ++ [record]
  match existing with
  | some e => if e.isDefault then (e, s) else (record, { s with profiles := saved })
  | none => (record, { s with profiles := saved })

/-- The error message of `deleteProfile` for the default profile. -/
def protectedProfileError : String := "Cannot delete default profile"

/-- The method `LLMManager.deleteProfile`: `Except.error` carries the message of
the error thrown; the second component is the store after the call. -/
def deleteProfile (id : String) (s : Store) : Except String Unit × Store :=
  let profiles := s.profiles
  match findIndex (fun p => p.id == id) profiles with
  | none => (.ok (), s)
  | some idx =>
    match profiles[idx]? with
    | none => (.ok (), s)
    | some target =>
      if target.isDefault then (.error protectedProfileError, s)
      else
        let profiles1 := profiles.eraseIdx idx
        let s1 : Store := { s with profiles := profiles1 }
        if s1.activeId = id then
          match profiles1 with
          | next :: _ => (.ok (), setActiveProfileId next.id s1)
          | [] => (.ok (), setActiveProfileId "" s1)
        else (.ok (), s1)

/-- A call of one of the manager's public operations, with its arguments and,
where an identifier may be generated, the suffix the environment supplies. -/
inductive ManagerOp where
  | ensureDefaultProfile (r : String)
  | getActiveProfile (r : String)
  | setActiveProfileId (id : String)
  | saveProfile (r : String) (input : Profile)
  | deleteProfile (id : String)
deriving Repr

/-- The store after one operation; an operation that throws leaves the store as
it was when the error was raised. -/
def ManagerOp.run : ManagerOp → Store → Store
  | .ensureDefaultProfile r, s => StartupAnalyzer.ensureDefaultProfile r s
  | .getActiveProfile r, s => (StartupAnalyzer.getActiveProfile r s).2
  | .setActiveProfileId id, s => StartupAnalyzer.setActiveProfileId id s
  | .saveProfile r input, s => (StartupAnalyzer.saveProfile r input s).2
  | .deleteProfile id, s => (StartupAnalyzer.deleteProfile id s).2

/-- The store after a sequence of operations, run from left to right. -/
def runOps : List ManagerOp → Store → Store
  | [], s => s
  | op :: ops, s => runOps ops (op.run s)

/-- The number of profiles of the collection that carry `isDefault`. -/
def defaultCount (s : Store) : Nat := s.profiles.countP (·.isDefault)

/-! ## LLMClient.js -/

/-- A value produced by `JSON.parse`. A number is an integer literal (one the
engine prints in plain decimal); `null` also stands for `undefined`, from which
no expression of the client tells it apart. -/
inductive Json where
  | null
  | bool (b : Bool)
  | num (n : Int)
  | str (s : String)
  | arr (items : List Json)
  | obj (fields : List (String × Json))
deriving Repr

/-- JavaScript truthiness of a value. -/
def Json.truthy : Json → Bool
  | .null => false
  | .bool b => b
  | .num n => n != 0
  | .str s => s != ""
  | .arr _ => true
  | .obj _ => true

/-- The own property `key` of a parsed object, `none` when there is none: the
last of several fields of the same name wins, as in `JSON.parse`. -/
def lookupField (key : String) : List (String × Json) → Option Json
  | [] => none
  | (k, v) :: rest =>
    match lookupField key rest with
    | some found => some found
    | none => if k = key then some v else none

/-- The property read `v.key` for one of the names the client reads
(`choices`, `message`, `content`, `text`, `error`): only an object has it. -/
def Json.prop (v : Json) (key : String) : Json :=
  match v with
  | .obj fields => (lookupField key fields).getD .null
  | _ => .null

/-- The property read `v[0]`. -/
def Json.index0 (v : Json) : Json :=
  match v with
  | .arr (x :: _) => x
  | .obj fields => (lookupField "0" fields).getD .null
  | .str s =>
    match s.data with
    | [] => .null
    | c :: _ => .str (String.singleton c)
  | _ => .null

mutual
/-- The conversion `String(v)`. -/
def Json.toJsString : Json → String
  | .null => "null"
  | .bool b => if b then "true" else "false"
  | .num n => toString n
  | .str s => s
  | .arr items => Json.joinItems items
  | .obj _ => "[object Object]"

/-- The method `Array.prototype.join` with the separator `,`, as `String(array)`
calls it: `null` and `undefined` items are printed as the empty string. -/
def Json.joinItems : List Json → String
  | [] => ""
  | [x] => Json.itemString x
  | x :: y :: rest => Json.itemString x ++ "," ++ Json.joinItems (y :: rest)

/-- The text of one item inside `Array.prototype.join`. -/
def Json.itemString : Json → String
  | .null => ""
  | .bool b => if b then "true" else "false"
  | .num n => toString n
  | .str s => s
  | .arr items => Json.joinItems items
  | .obj _ => "[object Object]"
end

/-- The method `#extractOpenAIContent`. -/
def extractOpenAIContent (json : Json) : String :=
  if json.truthy && (json.prop "choices").truthy && (json.prop "choices").index0.truthy
      && ((json.prop "choices").index0.prop "message").truthy
      && (((json.prop "choices").index0.prop "message").prop "content").truthy then
    (((json.prop "choices").index0.prop "message").prop "content").toJsString
  else ""

/-- The method `#extractAnthropicContent`. -/
def extractAnthropicContent (json : Json) : String :=
  if json.truthy && (json.prop "content").truthy && (json.prop "content").index0.truthy
      && ((json.prop "content").index0.prop "text").truthy then
    ((json.prop "content").index0.prop "text").toJsString
  else ""

/-- An HTTP response as the client reads it. -/
structure HttpResponse where
  /-- The field `res.status`. -/
  status : Nat
  /-- The body text, as `res.text()` yields it. -/
  body : String
  /-- The body parsed as JSON; `none` when it is not JSON. -/
  json : Option Json
  /-- The value `Number(res.headers.get('retry-after'))` in whole seconds; `0`
  when the header is absent or is not a number. -/
  retryAfter : Int
deriving Repr

/-- The field `res.ok`. -/
def HttpResponse.ok (res : HttpResponse) : Bool := 200 ≤ res.status && res.status ≤ 299

/-- The method `#safeJson`: the parsed body, `{}` when the body is not JSON. -/
def safeJson (res : HttpResponse) : Json :=
  match res.json with
  | some j => j
  | none => .obj []

/-- What a request made by `doFetch()` comes to. -/
inductive FetchOutcome where
  /-- The promise resolves with a response. -/
  | response (res : HttpResponse)
  /-- The promise rejects (transport failure); `errText` is
  `String(err && err.message || err)`. -/
  | failed (errText : String)
  /-- The caller raises the abort signal while the request is in flight and the
  promise rejects; `errText` as above. -/
  | aborted (errText : String)
deriving Repr

/-- The provider family of a request: which adapter builds it. -/
inductive Family where
  | openai
  | anthropic
deriving DecidableEq, Repr

/-- An action of `analyze` that its caller or the network observes. -/
inductive Event where
  /-- The call `adapter.makeRequest(makePayload(model))`. -/
  | request (family : Family) (model : String)
  /-- The call `onStatus(msg)`. -/
  | status (msg : String)
  /-- The timer of `#wait(ms, signal)` is started. -/
  | wait (ms : Nat)
  /-- The caller raises the abort signal. -/
  | abort
deriving DecidableEq, Repr

/-- The scripted surroundings of one `analyze` call. -/
structure Env where
  /-- Whether the signal is already raised when `analyze` is called. -/
  abortedAtStart : Bool
  /-- The outcome of the `n`-th network request of the call, counted from 0. -/
  fetch : Nat → FetchOutcome
  /-- Whether the caller raises the signal during the `n`-th backoff wait of the
  call, counted from 0. -/
  abortInWait : Nat → Bool
  /-- The value `Math.random() * 250` rounded down takes for the `n`-th backoff of
  the call (read modulo 250). -/
  jitter : Nat → Nat

/-- The state threaded through one `analyze` call. -/
structure RunState where
  /-- The number of network requests made so far. -/
  requests : Nat
  /-- The number of backoff waits started so far. -/
  waits : Nat
  /-- The field `signal.aborted`. -/
  aborted : Bool
  /-- The events so far, oldest first. -/
  trace : List Event
deriving DecidableEq, Repr

/-- An error thrown by the client. -/
inductive JsError where
  /-- The object `new Error(message)`. -/
  | error (message : String)
  /-- A `TypeError` raised by the engine; its message depends on the engine and
  does not contain the text `(429)`. -/
  | typeError
deriving DecidableEq, Repr

deriving instance DecidableEq for Except

/-- The error `new Error('Canceled')`. -/
def canceled : JsError := .error "Canceled"

/-- White space and line terminators, as `String.prototype.trim` removes them. -/
def isJsWhitespace (c : Char) : Bool :=
  let n := c.toNat
  n == 0x09 || n == 0x0A || n == 0x0B || n == 0x0C || n == 0x0D || n == 0x20 || n == 0xA0
    || n == 0x1680 || (0x2000 ≤ n && n ≤ 0x200A) || n == 0x2028 || n == 0x2029
    || n == 0x202F || n == 0x205F || n == 0x3000 || n == 0xFEFF

/-- The method `String.prototype.trim`. -/
def jsTrim (s : String) : String :=
  String.mk ((s.data.dropWhile isJsWhitespace).reverse.dropWhile isJsWhitespace).reverse

/-- A test `/needle/i.test(s)` for a `needle` of lower-case ASCII letters and
spaces: without the `u` flag only an ASCII letter matches an ASCII letter. -/
def testIgnoreCase (needle s : String) : Bool :=
  includes (String.mk (s.data.map Char.toLower)) needle

/-- The test `/^5\d\d$/.test(statusStr)`. -/
def isFiveXX (statusStr : String) : Bool :=
  match statusStr.data with
  | [a, b, c] => a == '5' && b.isDigit && c.isDigit
  | _ => false

/-- The method `#friendlyMessage`, for a `providerMsg` that is a string. -/
def friendlyMessage (statusStr providerMsg _provider baseUrl : String) : String :=
  let trimmed := jsTrim providerMsg
  let base := "LLM request failed (" ++ statusStr ++ "): "
    ++ (if trimmed ≠ "" then trimmed else "Unknown error")
  if statusStr = "network" ∨ statusStr = "0" then
    base ++ "\nHint: This may be a network or CORS issue. If opening index.html from disk, serve via a local server and ensure the provider allows requests from your origin."
  else if statusStr = "401" ∨ statusStr = "403" then
    base ++ "\nHint: Check API key/organization permissions and that the selected model is allowed for your account."
  else if statusStr = "404" then
    if testIgnoreCase "openrouter" baseUrl
        && testIgnoreCase "no endpoints found matching your data policy" trimmed then
      "LLM request failed (404): OpenRouter blocked this request due to your data policy. Enable “Free model publication” or pick a non-free model.\nAction: Visit https://openrouter.ai/settings/privacy to adjust your Data Policy.\nProvider message: " ++ trimmed
    else
      base ++ "\nHint: Verify the Base URL and Model. Some providers use different endpoints or model names."
  else if statusStr = "429" then
    base ++ "\nHint: You hit a rate limit. Wait and retry, switch to a lighter model, or try again later."
  else if statusStr = "400" then
    base ++ "\nHint: The provider rejected the request. Check your model name, base URL, and request size (try turning off “Send full JSON”)."
  else if isFiveXX statusStr then
    base ++ "\nHint: Provider error. Try again later; if it persists, change the model or provider."
  else base

/-- The method `#computeBackoff`; `jitter` is the value of
`Math.floor(Math.random() * 250)`. -/
def computeBackoff (attempt : Nat) (retryAfterSec : Int) (jitter : Nat) : Nat :=
  if retryAfterSec ≠ 0 ∧ retryAfterSec > 0 then min 30000 (retryAfterSec * 1000).toNat
  else
    let base := 600
    min 30000 (2 ^ (attempt - 1) * base + jitter)

/-- The expression `Math.ceil(backoffMs / 1000)`. -/
def ceilSeconds (ms : Nat) : Nat := (ms + 999) / 1000

/-- The argument `status || 'network'` of `#friendlyMessage`, as `String` prints
it. -/
def statusString (status : Nat) : String :=
  if status = 0 then "network" else toString status

/-- The value of `providerMsg` after the `try` block of the no-retry path:
`j.error?.message || providerMsg` for `j = JSON.parse(errText)`, and `errText`
itself when the parse or the property read throws. `parsed` is the parse of
`errText`, `none` when it is not JSON. -/
def providerMessage (errText : String) (parsed : Option Json) : Json :=
  match parsed with
  | none => .str errText
  | some .null => .str errText
  | some j =>
    let m := (j.prop "error").prop "message"
    if m.truthy then m else .str errText

/-- The error thrown on the no-retry path: `new Error(friendly)`, or the
`TypeError` of `(providerMsg || '').trim()` when the provider's `error.message`
is a truthy value that is not a string. -/
def terminalError (status : Nat) (errText : String) (parsed : Option Json)
    (provider baseUrl : String) : JsError :=
  match providerMessage errText parsed with
  | .str msg => .error (friendlyMessage (statusString status) msg provider baseUrl)
  | _ => .typeError

/-- The call `doFetch()` with its `catch`: the request is recorded, and a signal
raised in flight is recorded after it. -/
def doFetch (env : Env) (family : Family) (model : String) (st : RunState) :
    FetchOutcome × RunState :=
  let st1 : RunState :=
    { st with requests := st.requests + 1, trace := st.trace ++ [.request family model] }
  match env.fetch st.requests with
  | .aborted t => (.aborted t, { st1 with aborted := true, trace := st1.trace ++ [.abort] })
  | out => (out, st1)

/-- The method `#wait(ms, signal)`: rejects at once when the signal is raised,
otherwise starts the timer; a signal raised during the wait rejects it. -/
def wait (env : Env) (ms : Nat) (st : RunState) : Except JsError Unit × RunState :=
  if st.aborted then (.error canceled, st)
  else
    let st1 : RunState := { st with waits := st.waits + 1, trace := st.trace ++ [.wait ms] }
    if env.abortInWait st.waits then
      (.error canceled, { st1 with aborted := true, trace := st1.trace ++ [.abort] })
    else (.ok (), st1)

/-- The status text of a retry after HTTP 429. -/
def rateLimitedStatus (seconds attempt attempts : Nat) : String :=
  "Rate limited, retrying in " ++ toString seconds ++ "s (attempt " ++ toString (attempt + 1)
    ++ "/" ++ toString attempts ++ ")..."

/-- The status text of a retry after a server error. -/
def serverErrorStatus (status seconds attempt attempts : Nat) : String :=
  "Server error " ++ toString status ++ ", retrying in " ++ toString seconds
    ++ "s (attempt " ++ toString (attempt + 1) ++ "/" ++ toString attempts ++ ")..."

/-- What `#fetchWithRetry` is called with besides the attempt budget. -/
structure Dispatch where
  family : Family
  model : String
  provider : String
  baseUrl : String

/-- The `for` loop of `#fetchWithRetry`, by recursion on the number of
iterations that remain: with `rem + 1` of them left the loop variable `attempt`
is `attempts - rem`, and with none left the loop is over and the statement after
it throws. -/
def fetchLoop (env : Env) (d : Dispatch) (attempts : Nat) :
    Nat → RunState → Except JsError HttpResponse × RunState
  | 0, st => (.error (.error "LLM request failed: retries exhausted"), st)
  | rem + 1, st =>
    let attempt := attempts - rem
    if st.aborted then (.error canceled, st)
    else
      let (out, st1) := doFetch env d.family d.model st
      let res : Option HttpResponse :=
        match out with
        | .response r => some r
        | _ => none
      let lastErrText : String :=
        match out with
        | .failed t => t
        | .aborted t => t
        | .response _ => ""
      match res.filter (·.ok) with
      | some r => (.ok r, st1)
      | none =>
        let status := match res with
          | some r => r.status
          | none => 0
        let errText := match res with
          | some r => r.body
          | none => if lastErrText ≠ "" then lastErrText else "Network error"
        let retryAfterSec : Int := match res with
          | some r => r.retryAfter
          | none => 0
        if status = 429 ∧ attempt < attempts then
          let backoffMs := computeBackoff attempt retryAfterSec (env.jitter st1.waits % 250)
          let seconds := ceilSeconds backoffMs
          let st2 : RunState :=
            { st1 with trace := st1.trace ++ [.status (rateLimitedStatus seconds attempt attempts)] }
          match wait env backoffMs st2 with
          | (.error e, st3) => (.error e, st3)
          | (.ok _, st3) => fetchLoop env d attempts rem st3
        else if status ≥ 500 ∧ attempt < attempts then
          let backoffMs := computeBackoff attempt 0 (env.jitter st1.waits % 250)
          let st2 : RunState :=
            { st1 with trace := st1.trace
                ++ [.status (serverErrorStatus status (ceilSeconds backoffMs) attempt attempts)] }
          match wait env backoffMs st2 with
          | (.error e, st3) => (.error e, st3)
          | (.ok _, st3) => fetchLoop env d attempts rem st3
        else
          let parsed := match res with
            | some r => r.json
            | none => none
          (.error (terminalError status errText parsed d.provider d.baseUrl), st1)

/-- The method `#fetchWithRetry`; an attempt budget of `0` is read as `3`. -/
def fetchWithRetry (env : Env) (d : Dispatch) (attempts : Nat) (st : RunState) :
    Except JsError HttpResponse × RunState :=
  let attempts := if attempts ≠ 0 then attempts else 3
  fetchLoop env d attempts attempts st

/-- The method `#pickFallbackModel`. -/
def pickFallbackModel (provider current : String) : String :=
  if provider = "openrouter" then "gpt-4o-mini"
  else if provider = "openai" then "gpt-4o-mini"
  else if provider = "deepseek" then "deepseek-chat"
  else current

/-- The options of `analyze` that steer its control flow; `onStatus` is the
trace, `signal` is the environment. -/
structure Options where
  /-- The option `fullJson`; it selects the prompt text only. -/
  fullJson : Bool
  /-- The option `attempts`, `0` when it is not given. -/
  attempts : Nat
  /-- The option `allowFallback`. -/
  allowFallback : Bool
deriving DecidableEq, Repr

/-- The result of one `analyze` call. -/
structure Outcome where
  /-- The text returned, or the error the promise rejects with. -/
  result : Except JsError String
  /-- The profile store after the call. -/
  store : Store
  /-- What the call did, oldest first. -/
  trace : List Event

/-- The property `e.message` of an error, as the `catch` of `analyze` tests it
for the text `(429)`. -/
def JsError.mentions429 : JsError → Bool
  | .error message => includes message "(429)"
  | .typeError => false

/-- The status text of the switch to the fallback model. -/
def fallbackStatus (fallbackModel : String) : String :=
  "Rate limited. Trying fallback model: " ++ fallbackModel ++ " ..."

/-- The extractor of a provider family. -/
def extractContent (family : Family) (json : Json) : String :=
  match family with
  | .anthropic => extractAnthropicContent json
  | .openai => extractOpenAIContent json

/-- The error thrown for a success response without content. -/
def unexpectedShapeError (family : Family) : JsError :=
  match family with
  | .anthropic => .error "Unexpected Anthropic response shape"
  | .openai => .error "Unexpected LLM response shape"

/-- The part of `analyze` after `#fetchWithRetry` has resolved: parse, extract,
and reject an empty content. -/
def readContent (family : Family) (res : HttpResponse) : Except JsError String :=
  let content := extractContent family (safeJson res)
  if content = "" then .error (unexpectedShapeError family) else .ok content

/-- One dispatch of `analyze`: `#fetchWithRetry`, then the content of the
response. -/
def dispatch (env : Env) (d : Dispatch) (attempts : Nat) (st : RunState) :
    Except JsError String × RunState :=
  match fetchWithRetry env d attempts st with
  | (.error e, st1) => (.error e, st1)
  | (.ok res, st1) => (readContent d.family res, st1)

/-- The expression `profile.provider || mgr._inferProvider(profile.baseUrl || '')`. -/
def resolvedProvider (profile : Profile) : String :=
  if profile.provider ≠ "" then profile.provider else inferProvider profile.baseUrl

/-- The adapter `analyze` selects for a provider. -/
def familyOf (provider : String) : Family :=
  if provider = "anthropic" then .anthropic else .openai

/-- The model a primary request carries: the profile's, or the built-in default
of the family when the profile has none. -/
def primaryModel (family : Family) (model : String) : String :=
  match family with
  | .anthropic => if model ≠ "" then model else "anthropic/claude-sonnet-4.5"
  | .openai => if model ≠ "" then model else "gpt-4o-mini"

/-- The error of `analyze` for a profile without base URL. -/
def missingBaseUrlError : JsError := .error "Base URL is missing for the active profile"

/-- The error of `analyze` for a profile without API key. -/
def missingApiKeyError : JsError := .error "API Key is missing for the active profile"

/-- The error of `analyze` for a custom provider without model. -/
def missingModelError : JsError :=
  .error "Model is missing for the OpenAI Compatible provider. Please specify a model in LLM Settings."

/-- The state in which `analyze` reaches its first test of the signal. -/
def initialState (env : Env) : RunState :=
  { requests := 0, waits := 0, aborted := env.abortedAtStart,
    trace := if env.abortedAtStart then [.abort] else [] }

/-- The method `LLMClient.analyze`. The prompt texts are built by total, pure
functions and do not steer the control flow; they are left out of the request
events. `r` is the identifier suffix `getActiveProfile` may need. -/
def analyze (env : Env) (r : String) (opts : Options) (store : Store) : Outcome :=
  let (active, store1) := getActiveProfile r store
  match active with
  | none => ⟨.error (.error "No active LLM profile"), store1, []⟩
  | some profile =>
    let provider := resolvedProvider profile
    let baseUrl := profile.baseUrl
    let apiKey := profile.apiKey
    let model := profile.model
    if baseUrl = "" then ⟨.error missingBaseUrlError, store1, []⟩
    else if apiKey = "" then ⟨.error missingApiKeyError, store1, []⟩
    else if model = "" ∧ provider = "custom" then ⟨.error missingModelError, store1, []⟩
    else
      let st0 := initialState env
      if st0.aborted then ⟨.error canceled, store1, st0.trace⟩
      else
        let attempts := if opts.attempts ≠ 0 then opts.attempts else 3
        if provider = "anthropic" then
          let d : Dispatch :=
            { family := .anthropic, model := primaryModel .anthropic model
              provider := provider, baseUrl := baseUrl }
          let (result, st1) := dispatch env d attempts st0
          ⟨result, store1, st1.trace⟩
        else
          let d : Dispatch :=
            { family := .openai, model := primaryModel .openai model
              provider := provider, baseUrl := baseUrl }
          match dispatch env d attempts st0 with
          | (.ok content, st1) => ⟨.ok content, store1, st1.trace⟩
          | (.error e, st1) =>
            let fallbackModel := pickFallbackModel provider model
            if opts.allowFallback ∧ e.mentions429 ∧ fallbackModel ≠ "" ∧ fallbackModel ≠ model then
              let st2 : RunState :=
                { st1 with trace := st1.trace ++ [.status (fallbackStatus fallbackModel)] }
              let (result, st3) := dispatch env { d with model := fallbackModel } 2 st2
              ⟨result, store1, st3.trace⟩
            else ⟨.error e, store1, st1.trace⟩

/-- The outcomes `#fetchWithRetry` retries while attempts remain, as the
specification names them: a response of status 429 or 5xx. -/
def retryable (out : FetchOutcome) : Bool :=
  match out with
  | .response res => res.status == 429 || (500 ≤ res.status && res.status ≤ 599)
  | _ => false

/-- The number of network requests in a trace. -/
def requestCount (t : List Event) : Nat :=
  t.countP (fun e => match e with
    | .request _ _ => true
    | _ => false)

/-- The number of backoff waits in a trace. -/
def waitCount (t : List Event) : Nat :=
  t.countP (fun e => match e with
    | .wait _ => true
    | _ => false)

/-- The number of status notifications in a trace. -/
def statusCount (t : List Event) : Nat :=
  t.countP (fun e => match e with
    | .status _ => true
    | _ => false)

/-! ## LlmSettingsController.js -/

/-- The method `LlmSettingsController.newProfile`, as far as it touches the
store: it saves a draft, makes it active and calls `populate()`, which reads the
active profile through the manager. `r` is the identifier suffix for the new
record, `r2` the one `getActiveProfile` may need. -/
def newProfile (r r2 : String) (s : Store) : Store :=
  let preset := presetOpenrouter
  let saved := saveProfile r
    { id := "", name := "New Profile", provider := "openrouter", baseUrl := preset.baseUrl,
      apiKey := "", model := preset.model, isDefault := false, isDraft := true } s
  let s2 := setActiveProfileId saved.1.id saved.2
  (getActiveProfile r2 s2).2

/-- The number of profiles of the collection that carry `isDraft`. -/
def draftCount (s : Store) : Nat := s.profiles.countP (·.isDraft)

/-- The fields of a default profile that no operation may change. -/
def protectedFields (p : Profile) : String × String × String × String × Bool :=
  (p.provider, p.baseUrl, p.name, p.model, p.isDefault)

/-- A record `a` of the list after `ensureDefaultProfile` against the record `b`
at the same place before: the same, or `b` is a default profile without
credential and `a` is `b` with the embedded credential. -/
def SameOrBackfilled (a b : Profile) : Prop :=
  a = b ∨ (b.isDefault = true ∧ b.apiKey = "" ∧ a = { b with apiKey := defaultKeyOpenrouter })

/-! ## Utils.js, StartupDataProcessor.js and the summary of PromptBuilder.js -/

/-- Rounding to the nearest integer, a tie to the even one. -/
def roundHalfEven (y : ℚ) : Int :=
  if y - ⌊y⌋ < 1 / 2 then ⌊y⌋
  else if 1 / 2 < y - ⌊y⌋ then ⌊y⌋ + 1
  else if ⌊y⌋ % 2 = 0 then ⌊y⌋ else ⌊y⌋ + 1

/-- The double nearest to a positive number: 53 significant bits, a tie to the
even significand. The range of the exponent is not bounded, so there is neither
overflow to infinity nor a subnormal number. -/
def roundPos (x : ℚ) : ℚ :=
  roundHalfEven (x / 2 ^ (Int.log 2 x - 52)) * 2 ^ (Int.log 2 x - 52)

/-- The double nearest to a rational number. -/
def roundDouble (x : ℚ) : ℚ :=
  if 0 < x then roundPos x else if x < 0 then -roundPos (-x) else 0

/-- A JavaScript number: `none` is `NaN`, and a finite number is the rational it
stands for. Every arithmetic operation rounds its exact result to the nearest
double. -/
abbrev JsNum := Option ℚ

/-- The operator `+` on numbers. -/
def jsAdd (a b : JsNum) : JsNum :=
  match a, b with
  | some x, some y => some (roundDouble (x + y))
  | _, _ => none

/-- The operator `-` on numbers. -/
def jsSub (a b : JsNum) : JsNum :=
  match a, b with
  | some x, some y => some (roundDouble (x - y))
  | _, _ => none

/-- The operator `*` on numbers. -/
def jsMul (a b : JsNum) : JsNum :=
  match a, b with
  | some x, some y => some (roundDouble (x * y))
  | _, _ => none

/-- The operator `/` on numbers; a division by zero does not yield a finite
number and is `none` here. -/
def jsDiv (a b : JsNum) : JsNum :=
  match a, b with
  | some x, some y => if y = 0 then none else some (roundDouble (x / y))
  | _, _ => none

/-- The operator `>` on numbers: false when an operand is `NaN`. -/
def jsGt (a b : JsNum) : Bool :=
  match a, b with
  | some x, some y => decide (y < x)
  | _, _ => false

/-- The call `Math.max(0, x)`. -/
def mathMax0 (x : JsNum) : JsNum := x.map (max 0)

/-- The value of a `startTime` or `endTime` property. -/
inductive TimeValue where
  /-- The property is absent. -/
  | undefined
  /-- The JSON value `null`. -/
  | null
  /-- A string, with the time value `Date` parses from it (`none` for an invalid
  date). -/
  | text (s : String) (time : Option Int)
  /-- A number of milliseconds. -/
  | number (n : Int)
deriving DecidableEq, Repr

/-- JavaScript truthiness of a time property. -/
def TimeValue.truthy : TimeValue → Bool
  | .undefined => false
  | .null => false
  | .text s _ => s != ""
  | .number n => n != 0

/-- The expression `new Date(v).getTime()`. -/
def dateTime : TimeValue → JsNum
  | .undefined => none
  | .null => some 0
  | .text s time => if s = "" then none else time.map (fun t => (t : ℚ))
  | .number n => some n

/-- The value of a `duration` property. -/
inductive DurationValue where
  /-- The property is absent, `null`, `false` or the empty string. -/
  | absent
  /-- A number of milliseconds: a double. -/
  | number (q : ℚ)
  /-- A non-empty string. -/
  | text (s : String)
deriving DecidableEq, Repr

/-- An event of the startup timeline. An absent `startupStep`, `id` or
`parentId` is `none` (so is a `null` one), an absent `name` is empty. -/
structure StartupEvent where
  stepId : Option Nat
  parentId : Option Nat
  name : String
  startTime : TimeValue
  endTime : TimeValue
  duration : DurationValue
deriving DecidableEq, Repr

/-- The character class `[\d.]`. -/
def isNumChar (c : Char) : Bool := c.isDigit || c == '.'

/-- A match of `/PT([\d.]+)S/i` that starts at the head of the text: the
captured group. The group is the longest run of `[\d.]`, since `S` ends it. -/
def matchDurationAt : List Char → Option (List Char)
  | p :: t :: rest =>
    if (p == 'P' || p == 'p') && (t == 'T' || t == 't') then
      match rest.dropWhile isNumChar with
      | c :: _ =>
        if (rest.takeWhile isNumChar) ≠ [] ∧ (c == 'S' || c == 's') then
          some (rest.takeWhile isNumChar)
        else none
      | [] => none
    else none
  | _ => none

/-- The leftmost match of `/PT([\d.]+)S/i` in a text: the captured group. -/
def matchDuration : List Char → Option (List Char)
  | [] => none
  | c :: rest =>
    match matchDurationAt (c :: rest) with
    | some g => some g
    | none => matchDuration rest

/-- The number written by a list of decimal digits. -/
def digitsValue (ds : List Char) : Nat :=
  ds.foldl (fun acc c => acc * 10 + (c.toNat - '0'.toNat)) 0

/-- The function `parseFloat` on a text made of digits and dots: the double
nearest to the longest prefix that is a decimal literal, `NaN` when there is
none. -/
def parseFloatRun (run : List Char) : JsNum :=
  let intPart := run.takeWhile Char.isDigit
  let fracPart :=
    match run.dropWhile Char.isDigit with
    | '.' :: rest => rest.takeWhile Char.isDigit
    | _ => []
  if intPart = [] ∧ fracPart = [] then none
  else some (roundDouble
    ((digitsValue intPart : ℚ) + (digitsValue fracPart : ℚ) / 10 ^ fracPart.length))

/-- The function `StartupStepUtils.parseDuration`; `PromptBuilder.js` has its own
copy `parseDuration` with the same body. -/
def parseDuration (duration : DurationValue) : JsNum :=
  match duration with
  | .absent => some 0
  | .number q => some q
  | .text s =>
    match matchDuration s.data with
    | some g => jsMul (parseFloatRun g) (some 1000)
    | none => some 0

/-- The digits of `r` in a field of `f` places, with leading zeros. -/
def fractionDigits (f r : Nat) : String :=
  String.mk (List.replicate (f - (toString r).length) '0') ++ toString r

/-- The method `Number.prototype.toFixed(f)` for a number below `10 ^ 21` in
absolute value: the integer `n` nearest to `x * 10 ^ f` (the larger one of two),
written with `f` digits after the point. -/
def toFixed (f : Nat) (x : ℚ) : String :=
  let n : Nat := (⌊|x| * 10 ^ f + 1 / 2⌋).toNat
  let body :=
    if f = 0 then toString n
    else toString (n / 10 ^ f) ++ "." ++ fractionDigits f (n % 10 ^ f)
  (if x < 0 then "-" else "") ++ body

/-- The function `StartupStepUtils.formatDuration`. -/
def formatDuration (ms : JsNum) : String :=
  match ms with
  | none => "NaN" ++ "s"
  | some q =>
    if q < 1000 then toFixed 0 q ++ "ms" else toFixed 2 (roundDouble (q / 1000)) ++ "s"

/-- The result of `getSeverity`. -/
inductive Severity where
  | fast
  | normal
  | slow
  | critical
deriving DecidableEq, Repr

/-- The function `StartupStepUtils.getSeverity`. -/
def getSeverity (duration avgDuration : JsNum) : Severity :=
  if jsGt duration (jsMul avgDuration (some 3)) then .critical
  else if jsGt duration (jsMul avgDuration (some 2)) then .slow
  else if jsGt duration (some 1000) then .normal
  else .fast

/-- The record `calculateMetrics` returns. -/
structure Metrics where
  totalDuration : JsNum
  totalSteps : Nat
  slowSteps : Nat
  criticalIssues : Nat
  avgDuration : JsNum

/-- The function `StartupDataProcessor.calculateMetrics`; `none` is an argument
that is not an array. -/
def calculateMetrics (events : Option (List StartupEvent)) : Metrics :=
  let list := events.getD []
  let totalDuration : JsNum :=
    match list.head?, list.getLast? with
    | some first, some last =>
      let firstStart := dateTime first.startTime
      let lastEnd := dateTime last.endTime
      mathMax0 (jsSub lastEnd firstStart)
    | _, _ => some 0
  let totalSteps := list.length
  let durations := list.map (fun e => parseDuration e.duration)
  let totalMs := durations.foldl jsAdd (some 0)
  let avgDuration := jsDiv totalMs (some ((max 1 totalSteps : Nat) : ℚ))
  { totalDuration := totalDuration
    totalSteps := totalSteps
    slowSteps := durations.countP (fun d => jsGt d (jsMul avgDuration (some 2)))
    criticalIssues := durations.countP (fun d => jsGt d (jsMul avgDuration (some 3)))
    avgDuration := avgDuration }

/-- The numbers `build` of `PromptBuilder.js` puts in its summary. -/
structure PromptSummary where
  steps : Nat
  totalDuration : JsNum
  avg : JsNum
  slowCnt : Nat
  critCnt : Nat

/-- The part of `build` that computes the summary; `none` is a report whose
`timeline.events` is not an array. -/
def buildSummary (events : Option (List StartupEvent)) : PromptSummary :=
  let events := events.getD []
  let firstStart : JsNum :=
    match events.head? with
    | some e => if e.startTime.truthy then dateTime e.startTime else some 0
    | none => some 0
  let lastEnd : JsNum :=
    match events.getLast? with
    | some e => if e.endTime.truthy then dateTime e.endTime else some 0
    | none => some 0
  let totalDuration := mathMax0 (jsSub lastEnd firstStart)
  let durations := events.map (fun e => parseDuration e.duration)
  let totalMs := durations.foldl jsAdd (some 0)
  let avg := if events.length ≠ 0 then jsDiv totalMs (some (events.length : ℚ)) else some 0
  { steps := events.length
    totalDuration := totalDuration
    avg := avg
    slowCnt := durations.countP (fun ms => jsGt ms (jsMul avg (some 2)))
    critCnt := durations.countP (fun ms => jsGt ms (jsMul avg (some 3))) }

/-- The average of the parsed durations in exact arithmetic. -/
def exactAverage (events : List StartupEvent) : ℚ :=
  (events.map (fun e => (parseDuration e.duration).getD 0)).sum / events.length

/-! ## TimelineRenderer.js -/

/-- The function `TimelineRenderer.buildParentMap`: under each parent id, the
events that name it, in the order of the report. -/
def buildParentMap (events : List StartupEvent) : Nat → List StartupEvent :=
  events.foldl
    (fun map ev =>
      match ev.parentId with
      | some pid => fun k => if k = pid then map k ++ [ev] else map k
      | none => map)
    (fun _ => [])

/-- The test of the filter in `getRootEvents`: the event names no parent, or no
event of the report has the id it names. -/
def isRootEvent (events : List StartupEvent) (e : StartupEvent) : Bool :=
  match e.parentId with
  | none => true
  | some pid => !(events.filterMap (·.stepId)).contains pid

/-- The function `TimelineRenderer.getRootEvents`. -/
def getRootEvents (events : List StartupEvent) : List StartupEvent :=
  events.filter (isRootEvent events)

/-- The items the calls of a `forEach` append, in order; `none` when one of the
calls does not return. -/
def collect {α : Type} : List (Option (List α)) → Option (List α)
  | [] => some []
  | none :: _ => none
  | some a :: xs =>
    match collect xs with
    | some b => some (a ++ b)
    | none => none

/-- The expression `parentMap[step.id] || []` of `renderEvent`. -/
def childrenIn (parentMap : Nat → List StartupEvent) (event : StartupEvent) :
    List StartupEvent :=
  match event.stepId with
  | some id => parentMap id
  | none => []

/-- The function `TimelineRenderer.renderEvent`: the events for which a timeline
item is created, in order, each with its level. The first argument bounds the
depth of the recursion; `none` is a recursion that goes deeper. -/
def renderEvent (parentMap : Nat → List StartupEvent) :
    Nat → StartupEvent → Nat → Option (List (StartupEvent × Nat))
  | 0, _, _ => none
  | fuel + 1, event, level =>
    let children := childrenIn parentMap event
    match collect (children.map (fun child => renderEvent parentMap fuel child (level + 1))) with
    | some below => some ((event, level) :: below)
    | none => none

/-- The function `TimelineRenderer.render` on a report with a container. -/
def render (fuel : Nat) (events : List StartupEvent) : Option (List (StartupEvent × Nat)) :=
  let parentMap := buildParentMap events
  let roots := getRootEvents events
  collect (roots.map (fun e => renderEvent parentMap fuel e 0))

/-- The event of the report that an event names as its parent. -/
def parentOf (events : List StartupEvent) (e : StartupEvent) : Option StartupEvent :=
  match e.parentId with
  | none => none
  | some pid => events.find? (fun x => x.stepId == some pid)

/-- The chain of the existing ancestors of an event: its parent, the parent of
its parent and so on, at most `fuel` of them. -/
def ancestorChain (events : List StartupEvent) : Nat → StartupEvent → List StartupEvent
  | 0, _ => []
  | fuel + 1, e =>
    match parentOf events e with
    | none => []
    | some p => p :: ancestorChain events fuel p

/-- The children of an event in the parent map of the report. -/
def childrenOf (events : List StartupEvent) (e : StartupEvent) : List StartupEvent :=
  childrenIn (buildParentMap events) e

/-- An event has depth `d` when its chain of existing ancestors ends after `d`
events. -/
inductive HasDepth (events : List StartupEvent) : StartupEvent → Nat → Prop where
  | root {e : StartupEvent} : parentOf events e = none → HasDepth events e 0
  | step {e p : StartupEvent} {d : Nat} :
    parentOf events e = some p → HasDepth events p d → HasDepth events e (d + 1)

/-- The number of children of the visited events that are `x`. -/
def childVisits (events : List StartupEvent) (x : StartupEvent)
    (vs : List (StartupEvent × Nat)) : Nat :=
  (vs.map (fun v => (childrenOf events v.1).count x)).sum

/-- The parent relation of a report has no cycle: no event is among its own
ancestors. A cycle has at most as many events as the report. -/
def Acyclic (events : List StartupEvent) : Prop :=
  ∀ e ∈ events, e ∉ ancestorChain events events.length e

/-! ## Example inputs -/

/-- A store whose active profile is a custom endpoint without model. -/
def customStoreNoModel : Store :=
  ⟨[synthesizedDefault "k3x9",
    ⟨"p-c1", "Local", "custom", "http://localhost:8080/v1/chat/completions", "key", "",
      false, false⟩], "p-c1"⟩

/-- A network on which every request is answered `429` with the given body. -/
def always429 (body : String) : Env :=
  { abortedAtStart := false
    fetch := fun _ => .response ⟨429, body, none, 0⟩
    abortInWait := fun _ => false
    jitter := fun _ => 0 }

/-- An OpenAI-style success body whose content is `text`. -/
def openAIBody (text : String) : Json :=
  .obj [("choices", .arr [.obj [("message", .obj [("role", .str "assistant"),
    ("content", .str text)])]])]

/-- The network of the retry scenario: 429, 429, then a success. -/
def retryScenario : Env :=
  { abortedAtStart := false
    fetch := fun n =>
      if n < 2 then .response ⟨429, "slow down", none, 0⟩
      else .response ⟨200, "", some (openAIBody "All good"), 0⟩
    abortInWait := fun _ => false
    jitter := fun _ => 7 }

/-- A store whose active profile is an OpenAI profile without model. -/
def openaiStore : Store :=
  ⟨[synthesizedDefault "k3x9",
    ⟨"p-u1", "Mine", "openai", "https://api.openai.com/v1/chat/completions", "sk-1", "",
      false, false⟩], "p-u1"⟩

/-- What a run has come to with respect to the signal: either the signal has
not been raised, or it has, the result is the `Canceled` error and raising it
is the last thing that happened. -/
def SignalRespected {α : Type} (out : Except JsError α × RunState) : Prop :=
  (out.2.aborted = false ∧ Event.abort ∉ out.2.trace) ∨
    (out.2.aborted = true ∧ out.1 = .error canceled ∧
      ∃ pre, out.2.trace = pre ++ [Event.abort] ∧ Event.abort ∉ pre)

/-- The network of the cancellation scenario: a 429, and the signal is raised
during the first backoff wait. -/
def cancelScenario : Env :=
  { abortedAtStart := false
    fetch := fun _ => .response ⟨429, "slow down", none, 0⟩
    abortInWait := fun n => n == 0
    jitter := fun _ => 0 }

/-- A store whose active profile is an Anthropic profile without model. -/
def anthropicStore : Store :=
  ⟨[synthesizedDefault "k3x9",
    ⟨"p-a1", "Claude", "anthropic", "https://api.anthropic.com/v1/messages", "sk-ant", "",
      false, false⟩], "p-a1"⟩

/-- A store whose active profile is a custom endpoint with a model. -/
def customStore : Store :=
  ⟨[synthesizedDefault "k3x9",
    ⟨"p-c1", "Local", "custom", "http://localhost:8080/v1/chat/completions", "key", "llama3",
      false, false⟩], "p-c1"⟩

/-- A store whose active profile is an OpenRouter profile with its own model. -/
def openrouterStore : Store :=
  ⟨[synthesizedDefault "k3x9"], "p-k3x9"⟩

/-- The value at the place where a success envelope carries its content:
`choices[0].message.content` for the OpenAI family, `content[0].text` for the
Anthropic family. -/
def contentPath (family : Family) (json : Json) : Json :=
  match family with
  | .openai => (((json.prop "choices").index0).prop "message").prop "content"
  | .anthropic => ((json.prop "content").index0).prop "text"

/-- The network of the provider-shape scenario: a success whose body has an
empty `choices`. -/
def emptyChoicesScenario : Env :=
  { abortedAtStart := false
    fetch := fun _ => .response ⟨200, "", some (.obj [("choices", .arr [])]), 0⟩
    abortInWait := fun _ => false
    jitter := fun _ => 0 }

/-- A network whose first request fails at transport level and whose later
requests succeed. -/
def transportScenario : Env :=
  { abortedAtStart := false
    fetch := fun n =>
      if n = 0 then .failed "Failed to fetch"
      else .response ⟨200, "", some (openAIBody "All good"), 0⟩
    abortInWait := fun _ => false
    jitter := fun _ => 0 }

/-- A network whose first request is answered 503 and whose later requests
succeed. -/
def serverErrorScenario : Env :=
  { abortedAtStart := false
    fetch := fun n =>
      if n = 0 then .response ⟨503, "unavailable", none, 0⟩
      else .response ⟨200, "", some (openAIBody "All good"), 0⟩
    abortInWait := fun _ => false
    jitter := fun _ => 0 }

/-- Whether a failure message carries a remediation hint: a line that starts
with `Hint: ` or with `Action: `. -/
def hasHint (message : String) : Bool :=
  includes message "\nHint: " || includes message "\nAction: "

/-- A network that answers 402 throughout. -/
def paymentRequiredScenario : Env :=
  { abortedAtStart := false
    fetch := fun _ => .response ⟨402, "Payment required", none, 0⟩
    abortInWait := fun _ => false
    jitter := fun _ => 0 }

/-- The provider `saveProfile` gives the record: the input's, or the one
inferred from the input's base URL when the input has none. -/
def providerOfInput (input : Profile) : String :=
  if input.provider ≠ "" then input.provider else inferProvider input.baseUrl

/-- The record `saveProfile` builds when its target is not the default profile
(its `isDefault` is then `false`). -/
def savedRecord (r : String) (input : Profile) : Profile :=
  { id := if input.id ≠ "" then input.id else uuid r
    name := if input.name ≠ "" then input.name else "New Profile"
    provider := providerOfInput input
    baseUrl :=
      if providerOfInput input ≠ "" ∧ providerOfInput input ≠ "custom" then
        match aiProviders (providerOfInput input) with
        | .own p => p.baseUrl
        | .inherited => ""
        | .absent => input.baseUrl
      else input.baseUrl
    apiKey := input.apiKey
    model := input.model
    isDefault := false
    isDraft := input.isDraft }

/-- A store with the default profile and one user profile. -/
def twoProfileStore : Store :=
  ⟨[synthesizedDefault "k3x9",
    ⟨"p-u1", "Mine", "openai", "https://api.openai.com/v1/chat/completions", "sk-1", "gpt-4o",
      false, false⟩], "p-u1"⟩

/-- A store that holds one user profile, active, and no default profile. -/
def loneProfileStore : Store :=
  ⟨[⟨"p-u1", "Mine", "openai", "https://api.openai.com/v1/chat/completions", "sk-1", "gpt-4o",
      false, false⟩], "p-u1"⟩

/-- A store whose active profile is an OpenAI profile configured with the
model that is also the fallback of its provider. -/
def openaiMiniStore : Store :=
  ⟨[synthesizedDefault "k3x9",
    ⟨"p-u2", "Mini", "openai", "https://api.openai.com/v1/chat/completions", "sk-1",
      "gpt-4o-mini", false, false⟩], "p-u2"⟩

/-- The store a first run leaves: the synthesized default profile, active. -/
def firstRunStore : Store := ensureDefaultProfile "k3x9" ⟨[], ""⟩

/-- A network that answers 400 throughout, with a provider text that mentions
`(429)`. -/
def badRequestScenario : Env :=
  { abortedAtStart := false
    fetch := fun _ => .response ⟨400, "upstream said (429), try later", none, 0⟩
    abortInWait := fun _ => false
    jitter := fun _ => 0 }

/-- A store whose default profile has lost its credential, next to a user
profile. -/
def keylessDefaultStore : Store :=
  ⟨[{ synthesizedDefault "k3x9" with apiKey := "" },
    ⟨"p-u1", "Mine", "openai", "https://api.openai.com/v1/chat/completions", "sk-1", "gpt-4o",
      false, false⟩], "p-u1"⟩

/-- An event that carries a duration and neither `startTime` nor `endTime`. -/
def untimedEvent : StartupEvent :=
  { stepId := some 0, parentId := none, name := "spring.boot.application.starting",
    startTime := .undefined, endTime := .undefined, duration := .number 5 }

/-- The double nearest to `1.4`. -/
def d14 : ℚ := 6305039478318694 / 2 ^ 52

/-- Six root events: three last `1.4` ms, three last `0` ms. -/
def roundingEvents : List StartupEvent :=
  [⟨some 0, none, "a", .undefined, .undefined, .number d14⟩,
   ⟨some 1, none, "b", .undefined, .undefined, .number d14⟩,
   ⟨some 2, none, "c", .undefined, .undefined, .number d14⟩,
   ⟨some 3, none, "d", .undefined, .undefined, .number 0⟩,
   ⟨some 4, none, "e", .undefined, .undefined, .number 0⟩,
   ⟨some 5, none, "f", .undefined, .undefined, .number 0⟩]

/-- Four root events: one lasts a second, three last `0` ms. -/
def mildEvents : List StartupEvent :=
  [⟨some 0, none, "a", .undefined, .undefined, .number 1000⟩,
   ⟨some 1, none, "b", .undefined, .undefined, .number 0⟩,
   ⟨some 2, none, "c", .undefined, .undefined, .number 0⟩,
   ⟨some 3, none, "d", .undefined, .undefined, .number 0⟩]

/-- A report of four events: a root, its two children and a grandchild. -/
def treeEvents : List StartupEvent :=
  [⟨some 0, none, "root", .undefined, .undefined, .absent⟩,
   ⟨some 1, some 0, "left", .undefined, .undefined, .absent⟩,
   ⟨some 2, some 1, "leaf", .undefined, .undefined, .absent⟩,
   ⟨some 3, some 0, "right", .undefined, .undefined, .absent⟩]

/-- A report with a root and two events that name each other as parent. -/
def cyclicEvents : List StartupEvent :=
  [⟨some 0, none, "root", .undefined, .undefined, .absent⟩,
   ⟨some 1, some 2, "ping", .undefined, .undefined, .absent⟩,
   ⟨some 2, some 1, "pong", .undefined, .undefined, .absent⟩]

/-! ## Theorems -/

set_option maxRecDepth 20000

theorem unitSize_pos (c : Nat) : 0 < unitSize c := by
  unfold unitSize
  split_ifs <;> omega

theorem unitSize_le (c : Nat) : unitSize c ≤ 3 := by
  unfold unitSize
  split_ifs <;> omega

theorem blobSize_cons_cons (c d : Nat) (rest : JsString) :
    blobSize (c :: d :: rest) =
      if isHighSurrogate c && isLowSurrogate d then 4 + blobSize rest
      else unitSize c + blobSize (d :: rest) := by
  rw [blobSize]

theorem blobSize_take_lt (n : Nat) : ∀ (s : JsString) (m : Nat), s.length ≤ n →
    m < s.length → blobSize (s.take m) < blobSize (s.take (m + 1)) := by
  induction n with
  | zero =>
    intro s m hs hm
    omega
  | succ n ih =>
    intro s m hs hm
    match s, m with
    | [], _ => simp at hm
    | [c], 0 =>
      simpa [blobSize] using unitSize_pos c
    | [c], m + 1 => simp at hm
    | c :: d :: rest, 0 =>
      simpa [blobSize] using unitSize_pos c
    | c :: d :: rest, 1 =>
      have hc := unitSize_pos c
      have hc3 := unitSize_le c
      have hd := unitSize_pos d
      simp only [List.take_succ_cons, List.take_zero, blobSize]
      split_ifs <;> omega
    | c :: d :: rest, k + 2 =>
      have h1 : (d :: rest).length ≤ n := by simpa using hs
      have h2 : rest.length ≤ n := by
        simp at hs; omega
      have hk : k < rest.length := by
        simp at hm; omega
      have ih1 := ih (d :: rest) (k + 1) h1 (by simpa using hk)
      have ih2 := ih rest k h2 hk
      simp only [List.take_succ_cons] at ih1 ⊢
      rw [blobSize_cons_cons c d (rest.take k), blobSize_cons_cons c d (rest.take (k + 1))]
      split_ifs <;> omega

theorem blobSize_take_mono (s : JsString) (m n : Nat) (hmn : m ≤ n) (hn : n ≤ s.length) :
    blobSize (s.take m) ≤ blobSize (s.take n) := by
  induction n with
  | zero =>
    have : m = 0 := by omega
    subst this
    exact Nat.le_refl _
  | succ n ih =>
    rcases Nat.eq_or_lt_of_le hmn with h | h
    · subst h
      exact Nat.le_refl _
    · have h1 := ih (by omega) (by omega)
      have h2 := blobSize_take_lt s.length s n (Nat.le_refl _) (by omega)
      omega

theorem sar1_eq (x : Int) (h0 : 0 ≤ x) (h1 : x < 2147483648) : sar1 x = x / 2 := by
  unfold sar1 toInt32
  have hm : x % 4294967296 = x := Int.emod_eq_of_lt h0 (by omega)
  simp only [hm]
  rw [if_neg (by omega)]

theorem slice0_natCast (str : JsString) (m : Nat) (hm : m ≤ str.length) :
    slice0 str (m : Int) = str.take m := by
  unfold slice0
  have h1 : ¬ ((m : Int) < 0) := by omega
  simp only [h1, if_false]
  have h2 : min (m : Int) (str.length : Int) = (m : Int) := by
    apply min_eq_left
    exact_mod_cast hm
  rw [h2, Int.toNat_natCast]

theorem truncateLoop_spec (str : JsString) (maxBytes : Nat) (hlen : str.length < 2 ^ 30) :
    ∀ (fuel : Nat) (low high ans : Int), 0 ≤ low → high ≤ (str.length : Int) →
      low ≤ high + 1 → high + 2 - low ≤ (fuel : Int) →
      (∀ n : Nat, (n : Int) < low → blobSize (str.take n) ≤ maxBytes) →
      (∀ n : Nat, high < (n : Int) → n ≤ str.length → maxBytes < blobSize (str.take n)) →
      ((low = 0 ∧ ans = 0) ∨ ans = low - 1) →
      ∃ r : Nat, truncateLoop str maxBytes fuel low high ans = some (r : Int) ∧
        r ≤ str.length ∧ blobSize (str.take r) ≤ maxBytes ∧
        ∀ n : Nat, r < n → n ≤ str.length → maxBytes < blobSize (str.take n) := by
  intro fuel
  induction fuel with
  | zero =>
    intro low high ans h0 hh hl hf _ _ _
    simp at hf
    omega
  | succ fuel ih =>
    intro low high ans h0 hh hl hf hlo hhi hans
    have hlen' : (str.length : Int) < 1073741824 := by
      have : str.length < 1073741824 := by simpa using hlen
      exact_mod_cast this
    unfold truncateLoop
    by_cases hc : low ≤ high
    · rw [if_pos hc]
      have hmid : sar1 (low + high) = (low + high) / 2 :=
        sar1_eq _ (by omega) (by omega)
      obtain ⟨m, hm⟩ : ∃ m : Nat, (low + high) / 2 = (m : Int) :=
        ⟨((low + high) / 2).toNat, (Int.toNat_of_nonneg (by omega)).symm⟩
      have hmlen : m ≤ str.length := by
        have : (m : Int) ≤ (str.length : Int) := by omega
        exact_mod_cast this
      simp only [hmid, hm, slice0_natCast str m hmlen]
      by_cases hs : blobSize (str.take m) ≤ maxBytes
      · rw [if_pos hs]
        apply ih
        · omega
        · exact hh
        · omega
        · push_cast at hf ⊢
          omega
        · intro n hn
          have hnm : n ≤ m := by
            have : (n : Int) ≤ (m : Int) := by omega
            exact_mod_cast this
          exact Nat.le_trans (blobSize_take_mono str n m hnm hmlen) hs
        · exact hhi
        · right
          omega
      · rw [if_neg hs]
        apply ih
        · exact h0
        · omega
        · omega
        · push_cast at hf ⊢
          omega
        · exact hlo
        · intro n hn hnl
          have hmn : m ≤ n := by
            have : (m : Int) ≤ (n : Int) := by omega
            exact_mod_cast this
          have := blobSize_take_mono str m n hmn hnl
          omega
        · exact hans
    · rw [if_neg hc]
      have hlh : low = high + 1 := by omega
      rcases hans with ⟨hl0, ha0⟩ | ha
      · exfalso
        have h1 := hhi 0 (by simp; omega) (Nat.zero_le _)
        simp [blobSize] at h1
      · have hr : 0 ≤ ans := by
          by_contra hneg
          have hl0 : low = 0 := by omega
          have h1 := hhi 0 (by simp; omega) (Nat.zero_le _)
          simp [blobSize] at h1
        refine ⟨ans.toNat, ?_, ?_, ?_, ?_⟩
        · rw [Int.toNat_of_nonneg hr]
        · have : ((ans.toNat : Nat) : Int) ≤ (str.length : Int) := by
            rw [Int.toNat_of_nonneg hr]; omega
          exact_mod_cast this
        · apply hlo
          rw [Int.toNat_of_nonneg hr]; omega
        · intro n hn hnl
          apply hhi n _ hnl
          have : ((ans.toNat : Nat) : Int) < (n : Int) := by exact_mod_cast hn
          rw [Int.toNat_of_nonneg hr] at this
          omega

/-- C1: for every text of fewer than `2 ^ 30` code units and every budget
`B ≥ 1` smaller than the text's encoded size, `truncateBytes` returns a prefix
of the text followed by the truncation marker; the prefix has encoded size at
most `B` and every longer prefix of the text has encoded size above `B`. -/
theorem truncateBytes_longest_prefix (str : JsString) (B : Nat) (hB : 1 ≤ B)
    (hsize : B < blobSize str) (hlen : str.length < 2 ^ 30) :
    ∃ ans : Nat, ans ≤ str.length ∧
      truncateBytes str B = some (str.take ans ++ truncationMarker) ∧
      blobSize (str.take ans) ≤ B ∧
      ∀ n : Nat, ans < n → n ≤ str.length → B < blobSize (str.take n) := by
  have hne : str ≠ [] := by
    intro h
    subst h
    simp [blobSize] at hsize
  obtain ⟨r, hr, hrl, hrs, hrmax⟩ :=
    truncateLoop_spec str B hlen (str.length + 2) 0 str.length 0
      (Int.le_refl _) (Int.le_refl _) (by omega) (by push_cast; omega)
      (fun n hn => by omega)
      (fun n hn hnl => by omega)
      (Or.inl ⟨rfl, rfl⟩)
  refine ⟨r, hrl, ?_, hrs, hrmax⟩
  unfold truncateBytes
  have h1 : (str.isEmpty || B == 0) = false := by
    have hB0 : (B == 0) = false := by
      simp only [beq_eq_false_iff_ne, ne_eq]
      omega
    have he : str.isEmpty = false := by
      cases str with
      | nil => exact absurd rfl hne
      | cons a t => rfl
    rw [he, hB0]
    rfl
  rw [h1]
  simp only [Bool.false_eq_true, if_false]
  rw [if_neg (by omega), hr]
  simp only [slice0_natCast str r hrl]

/-- Witness of `truncateBytes_longest_prefix`: the text `A😀B` (six bytes) with
a budget of three bytes. -/
theorem truncateBytes_longest_prefix_witness :
    ∃ ans : Nat, ans ≤ [0x41, 0xD83D, 0xDE00, 0x42].length ∧
      truncateBytes [0x41, 0xD83D, 0xDE00, 0x42] 3
        = some ([0x41, 0xD83D, 0xDE00, 0x42].take ans ++ truncationMarker) ∧
      blobSize ([0x41, 0xD83D, 0xDE00, 0x42].take ans) ≤ 3 ∧
      ∀ n : Nat, ans < n → n ≤ [0x41, 0xD83D, 0xDE00, 0x42].length →
        3 < blobSize ([0x41, 0xD83D, 0xDE00, 0x42].take n) :=
  truncateBytes_longest_prefix [0x41, 0xD83D, 0xDE00, 0x42] 3 (by decide) (by decide)
    (by decide)

/-! ### Profile manager -/

theorem findIndex_some {α : Type} (q : α → Bool) :
    ∀ (l : List α) (i : Nat), findIndex q l = some i →
      ∃ y, l[i]? = some y ∧ q y = true ∧ l.find? q = some y := by
  intro l
  induction l with
  | nil => intro i h; simp [findIndex] at h
  | cons x xs ih =>
    intro i h
    unfold findIndex at h
    by_cases hq : q x = true
    · rw [if_pos hq] at h
      cases h
      exact ⟨x, by simp, hq, by simp [List.find?, hq]⟩
    · rw [if_neg hq] at h
      cases hf : findIndex q xs with
      | none => rw [hf] at h; simp at h
      | some j =>
        rw [hf] at h
        simp at h
        subst h
        obtain ⟨y, h1, h2, h3⟩ := ih j hf
        refine ⟨y, by simpa using h1, h2, ?_⟩
        have hq' : q x = false := by simpa using hq
        simp [List.find?, hq', h3]

theorem findIndex_none {α : Type} (q : α → Bool) :
    ∀ (l : List α), findIndex q l = none → ∀ y ∈ l, q y = false := by
  intro l
  induction l with
  | nil => intro _ y hy; simp at hy
  | cons x xs ih =>
    intro h y hy
    unfold findIndex at h
    by_cases hq : q x = true
    · rw [if_pos hq] at h; simp at h
    · rw [if_neg hq] at h
      have hf : findIndex q xs = none := by
        cases hf : findIndex q xs with
        | none => rfl
        | some j => rw [hf] at h; simp at h
      rcases List.mem_cons.mp hy with rfl | hy'
      · simpa using hq
      · exact ih hf y hy'

theorem findIndex_of_find {α : Type} (q : α → Bool) (l : List α) (y : α)
    (h : l.find? q = some y) : ∃ i, findIndex q l = some i ∧ l[i]? = some y := by
  cases hf : findIndex q l with
  | none =>
    have h1 := findIndex_none q l hf y (List.mem_of_find?_eq_some h)
    have h2 := List.find?_some h
    rw [h1] at h2
    exact absurd h2 (by simp)
  | some i =>
    obtain ⟨z, h1, _, h3⟩ := findIndex_some q l i hf
    rw [h] at h3
    cases h3
    exact ⟨i, rfl, h1⟩

theorem countP_set_same {α : Type} (q : α → Bool) :
    ∀ (l : List α) (i : Nat) (x y : α), l[i]? = some y → q x = q y →
      (l.set i x).countP q = l.countP q := by
  intro l
  induction l with
  | nil => intro i x y h; simp at h
  | cons a t ih =>
    intro i x y h hq
    cases i with
    | zero =>
      simp at h
      subst h
      simp [List.countP_cons, hq]
    | succ j =>
      simp at h
      simp [List.countP_cons, ih j x y h hq]

theorem countP_eraseIdx_false {α : Type} (q : α → Bool) :
    ∀ (l : List α) (i : Nat) (y : α), l[i]? = some y → q y = false →
      (l.eraseIdx i).countP q = l.countP q := by
  intro l
  induction l with
  | nil => intro i y h; simp at h
  | cons a t ih =>
    intro i y h hq
    cases i with
    | zero =>
      simp at h
      subst h
      simp [List.countP_cons, hq]
    | succ j =>
      simp at h
      simp [List.countP_cons, ih j y h hq]

/-- C5: when the lookup of `id` resolves to a profile with `isDefault`,
`deleteProfile(id)` throws the protected-profile error and the stored profile
list and active id are what they were. -/
theorem deleteProfile_default_protected (s : Store) (id : String) (p : Profile)
    (hres : s.profiles.find? (fun q => q.id == id) = some p) (hdef : p.isDefault = true) :
    deleteProfile id s = (.error protectedProfileError, s) := by
  obtain ⟨i, hi, hp⟩ := findIndex_of_find _ _ _ hres
  unfold deleteProfile
  simp only [hi, hp, hdef, if_true]

/-- Witness of `deleteProfile_default_protected`: the store a first run leaves,
and the id of its default profile. -/
theorem deleteProfile_default_protected_witness :
    deleteProfile "p-k3x9" (ensureDefaultProfile "k3x9" ⟨[], ""⟩)
      = (.error protectedProfileError, ensureDefaultProfile "k3x9" ⟨[], ""⟩) :=
  deleteProfile_default_protected (ensureDefaultProfile "k3x9" ⟨[], ""⟩) "p-k3x9"
    (synthesizedDefault "k3x9") (by decide) (by decide)

theorem find_of_unique {α : Type} (q : α → Bool) (l : List α) (d : α) (hmem : d ∈ l)
    (hq : q d = true) (huniq : ∀ p ∈ l, q p = true → p = d) : l.find? q = some d := by
  cases hf : l.find? q with
  | none =>
    have := List.find?_eq_none.mp hf d hmem
    exact absurd hq this
  | some y =>
    have h1 := List.mem_of_find?_eq_some hf
    have h2 := List.find?_some hf
    rw [huniq y h1 h2]

/-- C6: in a store where the default profile `d` has a non-empty id that no
other profile carries, `saveProfile` with an input of that id returns `d` as
stored, whatever the other fields of the input, and leaves the store (profile
list and active id) as it was. -/
theorem saveProfile_default_unchanged (s : Store) (r : String) (input d : Profile)
    (hmem : d ∈ s.profiles) (hdef : d.isDefault = true) (hid : input.id = d.id)
    (hne : d.id ≠ "") (huniq : ∀ p ∈ s.profiles, p.id = d.id → p = d) :
    saveProfile r input s = (d, s) := by
  have hfind : s.profiles.find? (fun p => p.id == input.id) = some d := by
    apply find_of_unique _ _ _ hmem
    · simp [hid]
    · intro p hp hq
      apply huniq p hp
      simpa [hid] using hq
  obtain ⟨i, hi, hp⟩ := findIndex_of_find _ _ _ hfind
  have hne' : input.id ≠ "" := by rw [hid]; exact hne
  unfold saveProfile
  simp only [hne', ne_eq, not_false_eq_true, if_true, hi, Option.bind, hp, hdef]

/-- Witness of `saveProfile_default_unchanged`: an input that tries to rename the
default profile of a first-run store and to replace its credential. -/
theorem saveProfile_default_unchanged_witness :
    saveProfile "zz" { synthesizedDefault "k3x9" with name := "Mine", apiKey := "other" }
        (ensureDefaultProfile "k3x9" ⟨[], ""⟩)
      = (synthesizedDefault "k3x9", ensureDefaultProfile "k3x9" ⟨[], ""⟩) :=
  saveProfile_default_unchanged (ensureDefaultProfile "k3x9" ⟨[], ""⟩) "zz"
    { synthesizedDefault "k3x9" with name := "Mine", apiKey := "other" }
    (synthesizedDefault "k3x9") (by decide) (by decide) (by decide) (by decide) (by decide)

theorem any_isDefault_false (l : List Profile) (h : ∀ p ∈ l, p.isDefault = false) :
    l.any (·.isDefault) = false := by
  rw [List.any_eq_false]
  intro p hp
  simp [h p hp]

theorem countP_isDefault_zero (l : List Profile) (h : ∀ p ∈ l, p.isDefault = false) :
    l.countP (·.isDefault) = 0 := by
  rw [List.countP_eq_zero]
  intro p hp
  simp [h p hp]

theorem defaultKeyOpenrouter_ne : defaultKeyOpenrouter ≠ "" := by decide

theorem uuid_ne (r : String) : uuid r ≠ "" := by
  intro h
  have h1 := congrArg String.length h
  simp only [uuid, String.length_append] at h1
  have h2 : "p-".length = 2 := by decide
  have h3 : "".length = 0 := by decide
  omega

/-- C7: on a store with no default profile, one call of `ensureDefaultProfile`
leaves exactly one profile with `isDefault`, and a second call (whatever
identifier it would generate) leaves the store, profile list and active id, as
the first call left it. -/
theorem ensureDefaultProfile_idempotent (s : Store) (r r2 : String)
    (hno : ∀ p ∈ s.profiles, p.isDefault = false) :
    defaultCount (ensureDefaultProfile r s) = 1 ∧
      ensureDefaultProfile r2 (ensureDefaultProfile r s) = ensureDefaultProfile r s := by
  have hany := any_isDefault_false s.profiles hno
  have hcnt := countP_isDefault_zero s.profiles hno
  have hprof : (ensureDefaultProfile r s).profiles = synthesizedDefault r :: s.profiles := by
    unfold ensureDefaultProfile setActiveProfileId Store.setActiveId
    simp only [hany, Bool.not_false, if_true]
    split_ifs <;> rfl
  constructor
  · unfold defaultCount
    rw [hprof, List.countP_cons, hcnt]
    rfl
  · generalize hs1 : ensureDefaultProfile r s = s1 at hprof
    unfold ensureDefaultProfile
    have hany1 : s1.profiles.any (·.isDefault) = true := by
      rw [hprof]
      simp [synthesizedDefault]
    have hidx : findIndex (·.isDefault) s1.profiles = some 0 := by
      rw [hprof]
      simp [findIndex, synthesizedDefault]
    have hget : s1.profiles[0]? = some (synthesizedDefault r) := by
      rw [hprof]
      simp
    simp only [hany1, Bool.not_true, Bool.false_eq_true, if_false, hidx, hget]
    have hkey : (synthesizedDefault r).apiKey ≠ "" := defaultKeyOpenrouter_ne
    rw [if_neg]
    intro hc
    exact hkey hc.1

/-- Witness of `ensureDefaultProfile_idempotent`: a store that holds one user
profile and no default. -/
theorem ensureDefaultProfile_idempotent_witness :
    defaultCount (ensureDefaultProfile "k3x9"
        ⟨[⟨"p-u1", "Mine", "openai", presetOpenai.baseUrl, "sk-1", "", false, false⟩], "p-u1"⟩) = 1 ∧
      ensureDefaultProfile "q7" (ensureDefaultProfile "k3x9"
        ⟨[⟨"p-u1", "Mine", "openai", presetOpenai.baseUrl, "sk-1", "", false, false⟩], "p-u1"⟩)
      = ensureDefaultProfile "k3x9"
        ⟨[⟨"p-u1", "Mine", "openai", presetOpenai.baseUrl, "sk-1", "", false, false⟩], "p-u1"⟩ :=
  ensureDefaultProfile_idempotent _ "k3x9" "q7" (by decide)

theorem setActiveProfileId_profiles (id : String) (s : Store) :
    (setActiveProfileId id s).profiles = s.profiles := by
  unfold setActiveProfileId Store.setActiveId
  split_ifs <;> rfl

theorem any_isDefault_iff (l : List Profile) :
    l.any (·.isDefault) = true ↔ 0 < l.countP (·.isDefault) := by
  rw [List.countP_pos_iff, List.any_eq_true]

theorem ensureDefaultProfile_count (r : String) (s : Store) (h : defaultCount s ≤ 1) :
    defaultCount (ensureDefaultProfile r s) = 1 := by
  unfold defaultCount at h ⊢
  unfold ensureDefaultProfile
  by_cases hany : s.profiles.any (·.isDefault) = true
  · have hpos := (any_isDefault_iff s.profiles).mp hany
    simp only [hany, Bool.not_true, Bool.false_eq_true, if_false]
    cases hidx : findIndex (·.isDefault) s.profiles with
    | none => simp only; omega
    | some idx =>
      simp only
      cases hget : s.profiles[idx]? with
      | none => simp only; omega
      | some dflt =>
        simp only
        split_ifs
        · simp only
          have hset := countP_set_same (fun x : Profile => x.isDefault) s.profiles idx
            { dflt with apiKey := defaultKeyOpenrouter } dflt hget rfl
          rw [hset]
          omega
        · omega
  · have hany' : s.profiles.any (·.isDefault) = false := by simpa using hany
    have hz : s.profiles.countP (·.isDefault) = 0 := by
      by_contra hne
      have := (any_isDefault_iff s.profiles).mpr (Nat.pos_of_ne_zero hne)
      rw [hany'] at this
      exact absurd this (by simp)
    simp only [hany', Bool.not_false, if_true]
    have hcons : (synthesizedDefault r :: s.profiles).countP (·.isDefault) = 1 := by
      rw [List.countP_cons, hz]
      rfl
    split_ifs
    · rw [setActiveProfileId_profiles]
      exact hcons
    · exact hcons

theorem getActiveProfile_profiles (r : String) (s : Store) :
    (getActiveProfile r s).2.profiles = (ensureDefaultProfile r s).profiles := by
  unfold getActiveProfile
  simp only
  cases (ensureDefaultProfile r s).profiles.find?
      (fun p => p.id == (ensureDefaultProfile r s).activeId) with
  | some prof => rfl
  | none =>
    simp only
    cases hl : (ensureDefaultProfile r s).profiles with
    | nil => simp only [hl]
    | cons a t =>
      simp only
      rw [setActiveProfileId_profiles, hl]

theorem saveProfile_count (r : String) (input : Profile) (s : Store) :
    defaultCount (saveProfile r input s).2 = defaultCount s := by
  unfold defaultCount saveProfile
  simp only
  cases hidx : (if input.id ≠ "" then findIndex (fun p => p.id == input.id) s.profiles
      else none) with
  | none =>
    simp only [Option.bind]
    rw [List.countP_append]
    simp
  | some i =>
    have hfi : findIndex (fun p => p.id == input.id) s.profiles = some i := by
      by_cases hne : input.id ≠ ""
      · rw [if_pos hne] at hidx
        exact hidx
      · rw [if_neg hne] at hidx
        cases hidx
    obtain ⟨e, he, _, _⟩ := findIndex_some _ _ _ hfi
    simp only [Option.bind, he]
    by_cases hd : e.isDefault = true
    · simp only [hd, if_true]
    · simp only [hd, Bool.false_eq_true, if_false]
      have hd' : e.isDefault = false := by simpa using hd
      exact countP_set_same (fun x : Profile => x.isDefault) _ _ _ e he (by simp [hd'])

theorem deleteProfile_count (id : String) (s : Store) :
    defaultCount (deleteProfile id s).2 = defaultCount s := by
  unfold defaultCount deleteProfile
  simp only
  cases hidx : findIndex (fun p => p.id == id) s.profiles with
  | none => rfl
  | some idx =>
    simp only
    cases hget : s.profiles[idx]? with
    | none => rfl
    | some target =>
      simp only
      by_cases hd : target.isDefault = true
      · simp only [hd, if_true]
      · have hd' : target.isDefault = false := by simpa using hd
        simp only [hd, Bool.false_eq_true, if_false]
        have hc := countP_eraseIdx_false (fun p : Profile => p.isDefault) s.profiles idx target
          hget hd'
        split_ifs
        · cases hl : s.profiles.eraseIdx idx with
          | nil =>
            simp only
            rw [setActiveProfileId_profiles]
            simp only
            rw [hl] at hc
            exact hc
          | cons a t =>
            simp only
            rw [setActiveProfileId_profiles]
            simp only
            rw [hl] at hc
            exact hc
        · exact hc

theorem ManagerOp.run_count (op : ManagerOp) (s : Store) (h : defaultCount s = 1) :
    defaultCount (op.run s) = 1 := by
  cases op with
  | ensureDefaultProfile r => exact ensureDefaultProfile_count r s (by omega)
  | getActiveProfile r =>
    have h1 := ensureDefaultProfile_count r s (by omega)
    unfold ManagerOp.run defaultCount at *
    rw [getActiveProfile_profiles]
    exact h1
  | setActiveProfileId id =>
    unfold ManagerOp.run defaultCount at *
    rw [setActiveProfileId_profiles]
    exact h
  | saveProfile r input =>
    unfold ManagerOp.run
    rw [saveProfile_count]
    exact h
  | deleteProfile id =>
    unfold ManagerOp.run
    rw [deleteProfile_count]
    exact h

theorem runOps_count (ops : List ManagerOp) : ∀ (s : Store), defaultCount s = 1 →
    defaultCount (runOps ops s) = 1 := by
  induction ops with
  | nil => intro s h; exact h
  | cons op ops ih =>
    intro s h
    exact ih (op.run s) (op.run_count s h)

/-- C8: from a store with at most one default profile, once
`ensureDefaultProfile` has run, every sequence of `ensureDefaultProfile`,
`getActiveProfile`, `setActiveProfileId`, `saveProfile` (any input, its
`isDefault` included) and `deleteProfile` ends in a store whose collection is
non-empty and holds exactly one profile with `isDefault`. -/
theorem default_profile_invariant (s0 : Store) (r0 : String) (ops : List ManagerOp)
    (h : defaultCount s0 ≤ 1) :
    (runOps ops (ensureDefaultProfile r0 s0)).profiles ≠ [] ∧
      defaultCount (runOps ops (ensureDefaultProfile r0 s0)) = 1 := by
  have h1 := runOps_count ops _ (ensureDefaultProfile_count r0 s0 h)
  refine ⟨?_, h1⟩
  intro hnil
  unfold defaultCount at h1
  rw [hnil] at h1
  simp at h1

/-- Witness of `default_profile_invariant`: from the empty store, an attempt to
save a second default, to delete the default and to overwrite it. -/
theorem default_profile_invariant_witness :
    (runOps [.saveProfile "a1" ⟨"", "X", "custom", "http://h", "k", "m", true, false⟩,
             .deleteProfile "p-k3x9",
             .saveProfile "a2" ⟨"p-k3x9", "Y", "openai", "", "", "", true, true⟩,
             .getActiveProfile "a3"]
        (ensureDefaultProfile "k3x9" ⟨[], ""⟩)).profiles ≠ [] ∧
      defaultCount
        (runOps [.saveProfile "a1" ⟨"", "X", "custom", "http://h", "k", "m", true, false⟩,
             .deleteProfile "p-k3x9",
             .saveProfile "a2" ⟨"p-k3x9", "Y", "openai", "", "", "", true, true⟩,
             .getActiveProfile "a3"]
        (ensureDefaultProfile "k3x9" ⟨[], ""⟩)) = 1 :=
  default_profile_invariant ⟨[], ""⟩ "k3x9" _ (by decide)

theorem ensureDefaultProfile_ids (r : String) (s : Store)
    (hids : ∀ q ∈ s.profiles, q.id ≠ "") :
    ∀ q ∈ (ensureDefaultProfile r s).profiles, q.id ≠ "" := by
  unfold ensureDefaultProfile
  by_cases hany : s.profiles.any (·.isDefault) = true
  · simp only [hany, Bool.not_true, Bool.false_eq_true, if_false]
    cases hidx : findIndex (·.isDefault) s.profiles with
    | none => exact hids
    | some idx =>
      simp only
      cases hget : s.profiles[idx]? with
      | none => exact hids
      | some dflt =>
        simp only
        split_ifs
        · intro q hq
          rcases List.mem_or_eq_of_mem_set hq with h | h
          · exact hids q h
          · rw [h]
            exact hids dflt (List.getElem?_mem hget)
        · exact hids
  · have hany' : s.profiles.any (·.isDefault) = false := by simpa using hany
    simp only [hany', Bool.not_false, if_true]
    have hcons : ∀ q ∈ synthesizedDefault r :: s.profiles, q.id ≠ "" := by
      intro q hq
      rcases List.mem_cons.mp hq with h | h
      · rw [h]
        exact uuid_ne r
      · exact hids q h
    split_ifs
    · rw [setActiveProfileId_profiles]
      exact hcons
    · exact hcons

theorem ensureDefaultProfile_active (r : String) (s : Store) :
    (ensureDefaultProfile r s).activeId = s.activeId ∨
      (s.activeId = "" ∧ (ensureDefaultProfile r s).activeId = uuid r ∧
        (ensureDefaultProfile r s).profiles = synthesizedDefault r :: s.profiles) := by
  unfold ensureDefaultProfile
  by_cases hany : s.profiles.any (·.isDefault) = true
  · left
    simp only [hany, Bool.not_true, Bool.false_eq_true, if_false]
    cases findIndex (·.isDefault) s.profiles with
    | none => rfl
    | some idx =>
      simp only
      cases s.profiles[idx]? with
      | none => rfl
      | some dflt =>
        simp only
        split_ifs <;> rfl
  · have hany' : s.profiles.any (·.isDefault) = false := by simpa using hany
    simp only [hany', Bool.not_false, if_true]
    by_cases ha : s.activeId = ""
    · right
      refine ⟨ha, ?_, ?_⟩
      · rw [if_pos ha]
        unfold setActiveProfileId Store.setActiveId
        have hne : (synthesizedDefault r).id ≠ "" := uuid_ne r
        simp only [hne, ne_eq, not_false_eq_true, if_true]
        rfl
      · rw [if_pos ha, setActiveProfileId_profiles]
    · left
      rw [if_neg ha]

theorem ensureDefaultProfile_nonempty (r : String) (s : Store) :
    (ensureDefaultProfile r s).profiles ≠ [] := by
  by_cases hany : s.profiles.any (·.isDefault) = true
  · have hpos := (any_isDefault_iff s.profiles).mp hany
    have hle : defaultCount s ≤ 1 ∨ 1 < defaultCount s := by omega
    intro hnil
    unfold ensureDefaultProfile at hnil
    simp only [hany, Bool.not_true, Bool.false_eq_true, if_false] at hnil
    have hne : s.profiles ≠ [] := by
      intro h
      rw [h] at hpos
      simp at hpos
    revert hnil
    cases findIndex (·.isDefault) s.profiles with
    | none => exact hne
    | some idx =>
      simp only
      cases s.profiles[idx]? with
      | none => exact hne
      | some dflt =>
        simp only
        split_ifs
        · intro h
          have hl := congrArg List.length h
          simp at hl
          exact hne hl
        · exact hne
  · have hany' : s.profiles.any (·.isDefault) = false := by simpa using hany
    unfold ensureDefaultProfile
    simp only [hany', Bool.not_false, if_true]
    split_ifs
    · rw [setActiveProfileId_profiles]
      simp
    · simp

/-- C9: on a store whose profiles have non-empty ids, `getActiveProfile` returns
a profile `p` of the collection it leaves: the first profile whose id is the
stored active id when there is one, otherwise the first profile of the
collection; after the call the stored active id is `p.id`. -/
theorem getActiveProfile_resolves (s : Store) (r : String)
    (hids : ∀ q ∈ s.profiles, q.id ≠ "") :
    ∃ p, (getActiveProfile r s).1 = some p ∧
      p ∈ (getActiveProfile r s).2.profiles ∧
      (getActiveProfile r s).2.activeId = p.id ∧
      (∀ q, (getActiveProfile r s).2.profiles.find? (fun x => x.id == s.activeId) = some q →
        p = q) ∧
      ((getActiveProfile r s).2.profiles.find? (fun x => x.id == s.activeId) = none →
        (getActiveProfile r s).2.profiles.head? = some p) := by
  have hprofs := getActiveProfile_profiles r s
  have hids1 := ensureDefaultProfile_ids r s hids
  have hact := ensureDefaultProfile_active r s
  have hne := ensureDefaultProfile_nonempty r s
  rw [hprofs]
  generalize hs1 : ensureDefaultProfile r s = s1 at *
  have hnoempty : s1.profiles.find? (fun x => x.id == "") = none := by
    rw [List.find?_eq_none]
    intro q hq
    simpa using hids1 q hq
  unfold getActiveProfile
  simp only [hs1]
  cases hfind : s1.profiles.find? (fun p => p.id == s1.activeId) with
  | some prof =>
    have hmem := List.mem_of_find?_eq_some hfind
    have hid : prof.id = s1.activeId := by simpa using List.find?_some hfind
    refine ⟨prof, rfl, hmem, hid.symm, ?_, ?_⟩
    · intro q hq
      rcases hact with h | ⟨h0, h1, h2⟩
      · rw [← h, hfind] at hq
        exact Option.some.inj hq
      · rw [h0, hnoempty] at hq
        cases hq
    · intro hq
      rcases hact with h | ⟨h0, h1, h2⟩
      · rw [← h, hfind] at hq
        cases hq
      · rw [h1, h2] at hfind
        have hd : (synthesizedDefault r).id = uuid r := rfl
        simp [List.find?, hd] at hfind
        rw [h2, ← hfind]
        rfl
  | none =>
    cases hl : s1.profiles with
    | nil => exact absurd hl hne
    | cons prof t =>
      have hmem : prof ∈ s1.profiles := by rw [hl]; simp
      have hpid : prof.id ≠ "" := hids1 prof hmem
      have hset : (setActiveProfileId prof.id s1).activeId = prof.id := by
        unfold setActiveProfileId Store.setActiveId
        simp only [hpid, ne_eq, not_false_eq_true, if_true]
      refine ⟨prof, rfl, by simp, hset, ?_, ?_⟩
      · intro q hq
        rw [← hl] at hq
        rcases hact with h | ⟨h0, h1, h2⟩
        · rw [← h, hfind] at hq
          cases hq
        · rw [h0, hnoempty] at hq
          cases hq
      · intro _
        rfl

/-- Witness of `getActiveProfile_resolves`: a store whose active id is stale. -/
theorem getActiveProfile_resolves_witness :
    ∃ p, (getActiveProfile "k3x9" ⟨[⟨"p-u1", "Mine", "openai", "", "sk-1", "", false, false⟩],
        "p-gone"⟩).1 = some p ∧
      p ∈ (getActiveProfile "k3x9" ⟨[⟨"p-u1", "Mine", "openai", "", "sk-1", "", false, false⟩],
        "p-gone"⟩).2.profiles ∧
      (getActiveProfile "k3x9" ⟨[⟨"p-u1", "Mine", "openai", "", "sk-1", "", false, false⟩],
        "p-gone"⟩).2.activeId = p.id ∧
      (∀ q, (getActiveProfile "k3x9"
          ⟨[⟨"p-u1", "Mine", "openai", "", "sk-1", "", false, false⟩], "p-gone"⟩).2.profiles.find?
            (fun x => x.id == "p-gone") = some q → p = q) ∧
      ((getActiveProfile "k3x9"
          ⟨[⟨"p-u1", "Mine", "openai", "", "sk-1", "", false, false⟩], "p-gone"⟩).2.profiles.find?
            (fun x => x.id == "p-gone") = none →
        (getActiveProfile "k3x9"
          ⟨[⟨"p-u1", "Mine", "openai", "", "sk-1", "", false, false⟩], "p-gone"⟩).2.profiles.head?
            = some p) :=
  getActiveProfile_resolves
    ⟨[⟨"p-u1", "Mine", "openai", "", "sk-1", "", false, false⟩], "p-gone"⟩ "k3x9" (by decide)

/-! ### Request orchestration -/

/-- C3: for the active profile `p`, when `baseUrl` is empty, or `apiKey` is
empty, or the provider is `custom` and `model` is empty, `analyze` rejects with
the missing-base-URL error in the first case, otherwise with the missing-API-key
error in the second, otherwise with the missing-model error; it makes no
request, starts no wait and sends no notification. -/
theorem analyze_precondition_errors (env : Env) (r : String) (opts : Options) (store : Store)
    (p : Profile) (hp : (getActiveProfile r store).1 = some p)
    (hbad : p.baseUrl = "" ∨ p.apiKey = "" ∨ (p.model = "" ∧ resolvedProvider p = "custom")) :
    (analyze env r opts store).result
        = .error (if p.baseUrl = "" then missingBaseUrlError
            else if p.apiKey = "" then missingApiKeyError else missingModelError) ∧
      (analyze env r opts store).trace = [] ∧
      requestCount (analyze env r opts store).trace = 0 := by
  unfold analyze
  cases hg : getActiveProfile r store with
  | mk active store1 =>
    rw [hg] at hp
    simp only at hp
    subst hp
    simp only
    by_cases h1 : p.baseUrl = ""
    · simp [h1, requestCount]
    · by_cases h2 : p.apiKey = ""
      · simp [h1, h2, requestCount]
      · rcases hbad with h | h | h
        · exact absurd h h1
        · exact absurd h h2
        · simp [h1, h2, h.1, h.2, requestCount]

/-- Witness of `analyze_precondition_errors`: a custom endpoint without model. -/
theorem analyze_precondition_errors_witness :
    (analyze (always429 "") "zz" ⟨false, 3, true⟩ customStoreNoModel).result
        = .error missingModelError ∧
      (analyze (always429 "") "zz" ⟨false, 3, true⟩ customStoreNoModel).trace = [] ∧
      requestCount (analyze (always429 "") "zz" ⟨false, 3, true⟩ customStoreNoModel).trace = 0 :=
  analyze_precondition_errors (always429 "") "zz" ⟨false, 3, true⟩ customStoreNoModel
    ⟨"p-c1", "Local", "custom", "http://localhost:8080/v1/chat/completions", "key", "",
      false, false⟩ (by decide) (by decide)

theorem retryable_response (out : FetchOutcome) (h : retryable out = true) :
    ∃ res, out = .response res ∧ (res.status = 429 ∨ (500 ≤ res.status ∧ res.status ≤ 599)) := by
  cases out with
  | response res =>
    refine ⟨res, rfl, ?_⟩
    simpa [retryable] using h
  | failed t => simp [retryable] at h
  | aborted t => simp [retryable] at h

theorem requestCount_append (a b : List Event) :
    requestCount (a ++ b) = requestCount a + requestCount b := by
  simp [requestCount, List.countP_append]

theorem waitCount_append (a b : List Event) :
    waitCount (a ++ b) = waitCount a + waitCount b := by
  simp [waitCount, List.countP_append]

theorem statusCount_append (a b : List Event) :
    statusCount (a ++ b) = statusCount a + statusCount b := by
  simp [statusCount, List.countP_append]

/-- One retried attempt: a response of status 429 or 5xx while attempts remain
costs one request, one notification and one wait, and the loop goes on. -/
theorem fetchLoop_retry_step (env : Env) (d : Dispatch) (attempts rem : Nat) (st : RunState)
    (hab : st.aborted = false) (hrem1 : 1 ≤ rem) (hrem : rem < attempts)
    (hretry : retryable (env.fetch st.requests) = true)
    (hwait : env.abortInWait st.waits = false) :
    ∃ st2 : RunState, fetchLoop env d attempts (rem + 1) st = fetchLoop env d attempts rem st2 ∧
      st2.aborted = false ∧ st2.requests = st.requests + 1 ∧ st2.waits = st.waits + 1 ∧
      requestCount st2.trace = requestCount st.trace + 1 ∧
      waitCount st2.trace = waitCount st.trace + 1 ∧
      statusCount st2.trace = statusCount st.trace + 1 := by
  obtain ⟨res, hres, hstatus⟩ := retryable_response _ hretry
  have hok : res.ok = false := by
    unfold HttpResponse.ok
    rcases hstatus with h | h
    · rw [h]; rfl
    · simp only [Bool.and_eq_false_iff, decide_eq_false_iff_not]
      right
      omega
  have hatt : attempts - rem < attempts := by omega
  rw [fetchLoop]
  simp only [hab, Bool.false_eq_true, if_false, doFetch, hres, Option.filter, hok]
  by_cases h429 : res.status = 429
  · simp only [h429, hatt, and_self, if_true, wait, hab, Bool.false_eq_true, if_false, hwait]
    refine ⟨_, rfl, rfl, rfl, rfl, ?_, ?_, ?_⟩
    · simp [requestCount_append, requestCount]
    · simp [waitCount_append, waitCount]
    · simp [statusCount_append, statusCount]
  · have h500 : res.status ≥ 500 := by
      rcases hstatus with h | h
      · exact absurd h h429
      · exact h.1
    simp only [h429, false_and, if_false, h500, hatt, and_self, if_true, wait, hab,
      Bool.false_eq_true, hwait]
    refine ⟨_, rfl, rfl, rfl, rfl, ?_, ?_, ?_⟩
    · simp [requestCount_append, requestCount]
    · simp [waitCount_append, waitCount]
    · simp [statusCount_append, statusCount]

theorem fetchLoop_retries (env : Env) (d : Dispatch) (attempts : Nat) :
    ∀ (k rem : Nat) (st : RunState), st.aborted = false → k ≤ rem → rem < attempts →
      (∀ i, i < k → retryable (env.fetch (st.requests + i)) = true) →
      (∀ i, i < k → env.abortInWait (st.waits + i) = false) →
      ∃ st2 : RunState,
        fetchLoop env d attempts (rem + 1) st = fetchLoop env d attempts (rem + 1 - k) st2 ∧
        st2.aborted = false ∧ st2.requests = st.requests + k ∧ st2.waits = st.waits + k ∧
        requestCount st2.trace = requestCount st.trace + k ∧
        waitCount st2.trace = waitCount st.trace + k ∧
        statusCount st2.trace = statusCount st.trace + k := by
  intro k
  induction k with
  | zero =>
    intro rem st hab _ _ _ _
    exact ⟨st, rfl, hab, rfl, rfl, rfl, rfl, rfl⟩
  | succ k ih =>
    intro rem st hab hk hrem hretry hwait
    obtain ⟨st1, h1, hab1, hreq1, hw1, hc1, hc2, hc3⟩ :=
      fetchLoop_retry_step env d attempts rem st hab (by omega) hrem
        (by simpa using hretry 0 (by omega)) (by simpa using hwait 0 (by omega))
    obtain ⟨rem1, hrem1⟩ : ∃ rem1, rem = rem1 + 1 := ⟨rem - 1, by omega⟩
    subst hrem1
    obtain ⟨st2, h2, hab2, hreq2, hw2, hd1, hd2, hd3⟩ :=
      ih rem1 st1 hab1 (by omega) (by omega)
        (fun i hi => by
          have := hretry (i + 1) (by omega)
          rw [hreq1]
          rwa [show st.requests + 1 + i = st.requests + (i + 1) by omega])
        (fun i hi => by
          have := hwait (i + 1) (by omega)
          rw [hw1]
          rwa [show st.waits + 1 + i = st.waits + (i + 1) by omega])
    refine ⟨st2, ?_, hab2, by omega, by omega, by omega, by omega, by omega⟩
    rw [h1, h2]
    congr 1
    omega

theorem fetchLoop_success (env : Env) (d : Dispatch) (attempts rem : Nat) (st : RunState)
    (res : HttpResponse) (hab : st.aborted = false)
    (hres : env.fetch st.requests = .response res) (hok : res.ok = true) :
    ∃ st2 : RunState, fetchLoop env d attempts (rem + 1) st = (.ok res, st2) ∧
      requestCount st2.trace = requestCount st.trace + 1 ∧
      waitCount st2.trace = waitCount st.trace ∧
      statusCount st2.trace = statusCount st.trace := by
  rw [fetchLoop]
  simp only [hab, Bool.false_eq_true, if_false, doFetch, hres, Option.filter, hok, if_true]
  refine ⟨_, rfl, ?_, ?_, ?_⟩
  · simp [requestCount_append, requestCount]
  · simp [waitCount_append, waitCount]
  · simp [statusCount_append, statusCount]

theorem dispatch_retry_success (env : Env) (d : Dispatch) (attempts k : Nat)
    (res : HttpResponse) (content : String) (hk : k < attempts)
    (hstart : env.abortedAtStart = false)
    (hretry : ∀ i, i < k → retryable (env.fetch i) = true)
    (hwait : ∀ i, i < k → env.abortInWait i = false)
    (hres : env.fetch k = .response res) (hok : res.ok = true)
    (hcontent : extractContent d.family (safeJson res) = content) (hne : content ≠ "") :
    ∃ st2 : RunState, dispatch env d attempts (initialState env) = (.ok content, st2) ∧
      requestCount st2.trace = k + 1 ∧ waitCount st2.trace = k ∧ statusCount st2.trace = k := by
  have hinit : initialState env = ⟨0, 0, false, []⟩ := by
    simp [initialState, hstart]
  obtain ⟨a, ha⟩ : ∃ a, attempts = a + 1 := ⟨attempts - 1, by omega⟩
  subst ha
  obtain ⟨st1, h1, hab1, hreq1, _, hc1, hc2, hc3⟩ :=
    fetchLoop_retries env d (a + 1) k a ⟨0, 0, false, []⟩ rfl (by omega) (by omega)
      (fun i hi => by simpa using hretry i hi) (fun i hi => by simpa using hwait i hi)
  have hn : a + 1 - k = (a - k) + 1 := by omega
  rw [hn] at h1
  have hreq1b : st1.requests = k := by simpa using hreq1
  obtain ⟨st2, h2, hd1, hd2, hd3⟩ :=
    fetchLoop_success env d (a + 1) (a - k) st1 res hab1 (by rw [hreq1b]; exact hres) hok
  have e1 : requestCount st1.trace = k := by simpa [requestCount] using hc1
  have e2 : waitCount st1.trace = k := by simpa [waitCount] using hc2
  have e3 : statusCount st1.trace = k := by simpa [statusCount] using hc3
  refine ⟨st2, ?_, by omega, by omega, by omega⟩
  unfold dispatch fetchWithRetry
  simp only [hinit, ne_eq, Nat.add_one_ne_zero, not_false_eq_true, if_true]
  rw [h1, h2]
  simp only [readContent, hcontent, hne, if_false]

/-- C2: when the preconditions hold, the signal is not raised, the first `k`
responses have status 429 or 5xx and response `k + 1` is a 2xx whose content the
family's extractor finds non-empty, then with an attempt budget above `k`,
`analyze` returns that content after exactly `k + 1` requests, `k` backoff waits
and `k` status notifications. -/
theorem analyze_retry_then_success (env : Env) (r : String) (opts : Options) (store : Store)
    (p : Profile) (k : Nat) (res : HttpResponse) (content : String)
    (hp : (getActiveProfile r store).1 = some p)
    (hbase : p.baseUrl ≠ "") (hkey : p.apiKey ≠ "")
    (hmodel : ¬ (p.model = "" ∧ resolvedProvider p = "custom"))
    (hk : k < opts.attempts)
    (hstart : env.abortedAtStart = false)
    (hwait : ∀ i, i < k → env.abortInWait i = false)
    (hretry : ∀ i, i < k → retryable (env.fetch i) = true)
    (hres : env.fetch k = .response res) (hok : res.ok = true)
    (hcontent : extractContent (familyOf (resolvedProvider p)) (safeJson res) = content)
    (hne : content ≠ "") :
    (analyze env r opts store).result = .ok content ∧
      requestCount (analyze env r opts store).trace = k + 1 ∧
      waitCount (analyze env r opts store).trace = k ∧
      statusCount (analyze env r opts store).trace = k := by
  have hatt : (if opts.attempts ≠ 0 then opts.attempts else 3) = opts.attempts := by
    rw [if_pos (by omega)]
  have hst0 : (initialState env).aborted = false := by simp [initialState, hstart]
  unfold analyze
  cases hg : getActiveProfile r store with
  | mk active store1 =>
    rw [hg] at hp
    simp only at hp
    subst hp
    simp only [hbase, hkey, hmodel, if_false, hst0, Bool.false_eq_true, hatt]
    by_cases hprov : resolvedProvider p = "anthropic"
    · have hfam : familyOf (resolvedProvider p) = .anthropic := by simp [familyOf, hprov]
      rw [hfam] at hcontent
      obtain ⟨st2, h2, c1, c2, c3⟩ :=
        dispatch_retry_success env
          { family := .anthropic, model := primaryModel .anthropic p.model,
            provider := resolvedProvider p, baseUrl := p.baseUrl }
          opts.attempts k res content hk hstart hretry hwait hres hok hcontent hne
      simp only [hprov, if_true] at h2 ⊢
      rw [h2]
      exact ⟨rfl, c1, c2, c3⟩
    · have hfam : familyOf (resolvedProvider p) = .openai := by simp [familyOf, hprov]
      rw [hfam] at hcontent
      obtain ⟨st2, h2, c1, c2, c3⟩ :=
        dispatch_retry_success env
          { family := .openai, model := primaryModel .openai p.model,
            provider := resolvedProvider p, baseUrl := p.baseUrl }
          opts.attempts k res content hk hstart hretry hwait hres hok hcontent hne
      simp only [hprov, if_false]
      rw [h2]
      exact ⟨rfl, c1, c2, c3⟩

/-- Witness of `analyze_retry_then_success`: the responses 429, 429, 200 with an
attempt budget of 3. -/
theorem analyze_retry_then_success_witness :
    (analyze retryScenario "zz" ⟨false, 3, false⟩ openaiStore).result = .ok "All good" ∧
      requestCount (analyze retryScenario "zz" ⟨false, 3, false⟩ openaiStore).trace = 2 + 1 ∧
      waitCount (analyze retryScenario "zz" ⟨false, 3, false⟩ openaiStore).trace = 2 ∧
      statusCount (analyze retryScenario "zz" ⟨false, 3, false⟩ openaiStore).trace = 2 :=
  analyze_retry_then_success retryScenario "zz" ⟨false, 3, false⟩ openaiStore
    ⟨"p-u1", "Mine", "openai", "https://api.openai.com/v1/chat/completions", "sk-1", "",
      false, false⟩ 2 ⟨200, "", some (openAIBody "All good"), 0⟩ "All good"
    (by decide) (by decide) (by decide) (by decide) (by decide) (by decide) (by decide)
    (by decide) rfl (by decide) (by decide) (by decide)

/-- The state after the request of one loop iteration has been recorded. -/
theorem doFetch_response (env : Env) (fam : Family) (model : String) (st : RunState)
    (res : HttpResponse) (hres : env.fetch st.requests = .response res) :
    doFetch env fam model st
      = (.response res, { st with requests := st.requests + 1,
                                  trace := st.trace ++ [.request fam model] }) := by
  simp only [doFetch, hres]

/-- One iteration of the loop on a response, in closed form: a 2xx ends the
loop, a 429 or a status of 500 and above is retried while attempts remain (one
notification, one wait, which the signal may cut short), anything else is the
terminal error. -/
theorem fetchLoop_response (env : Env) (d : Dispatch) (attempts rem : Nat) (st : RunState)
    (res : HttpResponse) (hab : st.aborted = false)
    (hres : env.fetch st.requests = .response res) :
    fetchLoop env d attempts (rem + 1) st =
      if res.ok = true then
        (.ok res, { st with requests := st.requests + 1,
                            trace := st.trace ++ [.request d.family d.model] })
      else if (res.status = 429 ∨ res.status ≥ 500) ∧ attempts - rem < attempts then
        if env.abortInWait st.waits = true then
          (.error canceled,
            { requests := st.requests + 1, waits := st.waits + 1, aborted := true,
              trace := st.trace ++ [.request d.family d.model] ++
                [.status (if res.status = 429 then
                    rateLimitedStatus (ceilSeconds (computeBackoff (attempts - rem) res.retryAfter
                      (env.jitter st.waits % 250))) (attempts - rem) attempts
                  else serverErrorStatus res.status (ceilSeconds (computeBackoff (attempts - rem) 0
                      (env.jitter st.waits % 250))) (attempts - rem) attempts)] ++
                [.wait (computeBackoff (attempts - rem)
                  (if res.status = 429 then res.retryAfter else 0) (env.jitter st.waits % 250))]
                ++ [.abort] })
        else
          fetchLoop env d attempts rem
            { requests := st.requests + 1, waits := st.waits + 1, aborted := false,
              trace := st.trace ++ [.request d.family d.model] ++
                [.status (if res.status = 429 then
                    rateLimitedStatus (ceilSeconds (computeBackoff (attempts - rem) res.retryAfter
                      (env.jitter st.waits % 250))) (attempts - rem) attempts
                  else serverErrorStatus res.status (ceilSeconds (computeBackoff (attempts - rem) 0
                      (env.jitter st.waits % 250))) (attempts - rem) attempts)] ++
                [.wait (computeBackoff (attempts - rem)
                  (if res.status = 429 then res.retryAfter else 0) (env.jitter st.waits % 250))] }
      else
        (.error (terminalError res.status res.body res.json d.provider d.baseUrl),
          { st with requests := st.requests + 1,
                    trace := st.trace ++ [.request d.family d.model] }) := by
  rw [fetchLoop]
  simp only [hab, Bool.false_eq_true, if_false, doFetch_response env _ _ st res hres,
    Option.filter]
  by_cases hok : res.ok = true
  · simp only [hok, if_true]
  · have hok' : res.ok = false := by simpa using hok
    simp only [hok', Bool.false_eq_true, if_false]
    by_cases hatt : attempts - rem < attempts
    · by_cases h429 : res.status = 429
      · simp only [h429, hatt, and_self, true_or, if_true, wait, Bool.false_eq_true, if_false]
        by_cases hw : env.abortInWait st.waits = true
        · simp only [hw, if_true, hab]
        · have hw' : env.abortInWait st.waits = false := by simpa using hw
          simp only [hw', Bool.false_eq_true, if_false, hab]
      · by_cases h500 : res.status ≥ 500
        · simp only [h429, false_and, if_false, h500, hatt, and_self, or_true, if_true, wait,
            Bool.false_eq_true]
          by_cases hw : env.abortInWait st.waits = true
          · simp only [hw, if_true, hab]
          · have hw' : env.abortInWait st.waits = false := by simpa using hw
            simp only [hw', Bool.false_eq_true, if_false, hab]
        · simp only [h429, h500, false_and, if_false, false_or]
    · simp only [hatt, and_false, if_false]

/-- One iteration of the loop on a transport failure: it is the terminal error
of status `network`, whatever the number of attempts that remain. -/
theorem fetchLoop_failed (env : Env) (d : Dispatch) (attempts rem : Nat) (st : RunState)
    (t : String) (hab : st.aborted = false) (hres : env.fetch st.requests = .failed t) :
    fetchLoop env d attempts (rem + 1) st =
      (.error (terminalError 0 (if t ≠ "" then t else "Network error") none d.provider d.baseUrl),
        { st with requests := st.requests + 1,
                  trace := st.trace ++ [.request d.family d.model] }) := by
  rw [fetchLoop]
  simp only [hab, Bool.false_eq_true, if_false, doFetch, hres, Option.filter]
  simp

theorem fetchLoop_signal (env : Env) (d : Dispatch) (attempts : Nat)
    (hflight : ∀ n t, env.fetch n ≠ .aborted t) :
    ∀ (rem : Nat) (st : RunState), st.aborted = false → Event.abort ∉ st.trace →
      SignalRespected (fetchLoop env d attempts rem st) := by
  intro rem
  induction rem with
  | zero =>
    intro st hab hno
    left
    exact ⟨hab, hno⟩
  | succ rem ih =>
    intro st hab hno
    cases hf : env.fetch st.requests with
    | aborted t => exact absurd hf (hflight _ t)
    | failed t =>
      rw [fetchLoop_failed env d attempts rem st t hab hf]
      left
      refine ⟨hab, ?_⟩
      simp [hno]
    | response res =>
      rw [fetchLoop_response env d attempts rem st res hab hf]
      by_cases h1 : res.ok = true
      · rw [if_pos h1]
        left
        refine ⟨hab, ?_⟩
        simp [hno]
      · rw [if_neg h1]
        by_cases h2 : (res.status = 429 ∨ res.status ≥ 500) ∧ attempts - rem < attempts
        · rw [if_pos h2]
          by_cases h3 : env.abortInWait st.waits = true
          · rw [if_pos h3]
            right
            refine ⟨rfl, rfl, _, rfl, ?_⟩
            simp [hno]
          · rw [if_neg h3]
            apply ih
            · rfl
            · simp [hno]
        · rw [if_neg h2]
          left
          refine ⟨hab, ?_⟩
          simp [hno]

theorem dispatch_signal (env : Env) (d : Dispatch) (attempts : Nat) (st : RunState)
    (hflight : ∀ n t, env.fetch n ≠ .aborted t)
    (hab : st.aborted = false) (hno : Event.abort ∉ st.trace) :
    SignalRespected (dispatch env d attempts st) := by
  have h := fetchLoop_signal env d (if attempts ≠ 0 then attempts else 3) hflight
    (if attempts ≠ 0 then attempts else 3) st hab hno
  unfold dispatch fetchWithRetry
  simp only
  cases hl : fetchLoop env d (if attempts ≠ 0 then attempts else 3)
      (if attempts ≠ 0 then attempts else 3) st with
  | mk res st1 =>
    rw [hl] at h
    cases res with
    | error e =>
      simp only
      rcases h with h | ⟨h1, h2, h3⟩
      · left
        exact h
      · right
        refine ⟨h1, ?_, h3⟩
        simp only [Except.error.injEq] at h2 ⊢
        exact h2
    | ok v =>
      simp only
      rcases h with h | ⟨_, h2, _⟩
      · left
        exact h
      · simp at h2

/-- C4: when the preconditions hold and the signal is raised before the first
attempt or during a backoff wait (never while a request is in flight), a call
in which the signal is raised rejects with `Canceled`, and raising the signal is
the last event of the call: no request, retry or fallback follows it. -/
theorem analyze_canceled (env : Env) (r : String) (opts : Options) (store : Store)
    (p : Profile) (hp : (getActiveProfile r store).1 = some p)
    (hbase : p.baseUrl ≠ "") (hkey : p.apiKey ≠ "")
    (hmodel : ¬ (p.model = "" ∧ resolvedProvider p = "custom"))
    (hflight : ∀ n t, env.fetch n ≠ .aborted t)
    (hraised : Event.abort ∈ (analyze env r opts store).trace) :
    (analyze env r opts store).result = .error canceled ∧
      ∃ pre, (analyze env r opts store).trace = pre ++ [Event.abort] ∧ Event.abort ∉ pre := by
  unfold analyze at hraised ⊢
  cases hg : getActiveProfile r store with
  | mk active store1 =>
    rw [hg] at hp hraised
    simp only at hp
    subst hp
    simp only [hbase, hkey, hmodel, if_false] at hraised ⊢
    by_cases hstart : env.abortedAtStart = true
    · have hinit : initialState env = ⟨0, 0, true, [Event.abort]⟩ := by
        simp [initialState, hstart]
      rw [hinit]
      exact ⟨rfl, [], rfl, by simp⟩
    · have hstart' : env.abortedAtStart = false := by simpa using hstart
      have hinit : initialState env = ⟨0, 0, false, []⟩ := by simp [initialState, hstart']
      simp only [hinit, Bool.false_eq_true, if_false] at hraised ⊢
      by_cases hprov : resolvedProvider p = "anthropic"
      · simp only [hprov, if_true] at hraised ⊢
        have h := dispatch_signal env
          { family := .anthropic, model := primaryModel .anthropic p.model,
            provider := "anthropic", baseUrl := p.baseUrl }
          (if opts.attempts ≠ 0 then opts.attempts else 3) ⟨0, 0, false, []⟩ hflight rfl (by simp)
        rcases h with ⟨_, h2⟩ | ⟨_, h2, pre, h3, h4⟩
        · exact absurd hraised h2
        · exact ⟨h2, pre, h3, h4⟩
      · simp only [hprov, if_false] at hraised ⊢
        have h := dispatch_signal env
          { family := .openai, model := primaryModel .openai p.model,
            provider := resolvedProvider p, baseUrl := p.baseUrl }
          (if opts.attempts ≠ 0 then opts.attempts else 3) ⟨0, 0, false, []⟩ hflight rfl (by simp)
        cases hd : dispatch env
            { family := .openai, model := primaryModel .openai p.model,
              provider := resolvedProvider p, baseUrl := p.baseUrl }
            (if opts.attempts ≠ 0 then opts.attempts else 3) ⟨0, 0, false, []⟩ with
        | mk res st1 =>
          rw [hd] at h hraised
          cases res with
          | ok content =>
            simp only at hraised ⊢
            rcases h with ⟨_, h2⟩ | ⟨_, h2, _⟩
            · exact absurd hraised h2
            · simp at h2
          | error e =>
            simp only at hraised ⊢
            rcases h with ⟨h1, h2⟩ | ⟨_, h2, pre, h3, h4⟩
            · simp only at h1 h2
              split_ifs at hraised ⊢ with hfb
              · have hf := dispatch_signal env
                  { family := .openai, model := pickFallbackModel (resolvedProvider p) p.model,
                    provider := resolvedProvider p, baseUrl := p.baseUrl } 2
                  { st1 with trace := st1.trace
                      ++ [.status (fallbackStatus (pickFallbackModel (resolvedProvider p) p.model))] }
                  hflight h1 (by simp [h2])
                rcases hf with ⟨_, g2⟩ | ⟨_, g2, pre, g3, g4⟩
                · exact absurd hraised g2
                · exact ⟨g2, pre, g3, g4⟩
              · exact absurd hraised h2
            · simp only [Except.error.injEq] at h2 h3
              subst h2
              have hm : canceled.mentions429 = false := by decide
              have hcond : ¬ (opts.allowFallback = true ∧ canceled.mentions429 = true ∧
                  pickFallbackModel (resolvedProvider p) p.model ≠ "" ∧
                  pickFallbackModel (resolvedProvider p) p.model ≠ p.model) := by
                intro hc
                rw [hm] at hc
                exact absurd hc.2.1 (by simp)
              rw [if_neg hcond]
              exact ⟨rfl, pre, h3, h4⟩

/-- Witness of `analyze_canceled`: a 429, then the signal during the backoff
wait, with retries and fallback both available. -/
theorem analyze_canceled_witness :
    (analyze cancelScenario "zz" ⟨false, 3, true⟩ openaiStore).result = .error canceled ∧
      ∃ pre, (analyze cancelScenario "zz" ⟨false, 3, true⟩ openaiStore).trace
          = pre ++ [Event.abort] ∧ Event.abort ∉ pre :=
  analyze_canceled cancelScenario "zz" ⟨false, 3, true⟩ openaiStore
    ⟨"p-u1", "Mine", "openai", "https://api.openai.com/v1/chat/completions", "sk-1", "",
      false, false⟩ (by decide) (by decide) (by decide) (by decide)
    (fun _ _ h => FetchOutcome.noConfusion h) (by decide)

theorem includes_iff (s needle : String) :
    includes s needle = true ↔ needle.data <:+: s.data := by
  simp [includes]

theorem includes_mid (a needle b : String) : includes (a ++ needle ++ b) needle = true := by
  rw [includes_iff]
  exact ⟨a.data, b.data, by simp [String.data_append]⟩

theorem includes_append_right (s t needle : String) (h : includes s needle = true) :
    includes (s ++ t) needle = true := by
  rw [includes_iff] at h ⊢
  obtain ⟨a, b, hab⟩ := h
  exact ⟨a, b ++ t.data, by simp [String.data_append, ← hab]⟩

theorem includes_append_left (s t needle : String) (h : includes t needle = true) :
    includes (s ++ t) needle = true := by
  rw [includes_iff] at h ⊢
  obtain ⟨a, b, hab⟩ := h
  exact ⟨s.data ++ a, b, by simp [String.data_append, ← hab]⟩

/-- The friendly message of status `429` contains the text `(429)`, which is
what the `catch` of `analyze` looks for. -/
theorem friendly429_mentions (msg provider baseUrl : String) :
    (JsError.error (friendlyMessage "429" msg provider baseUrl)).mentions429 = true := by
  have hbase : ∀ t : String, "LLM request failed (" ++ "429" ++ "): " ++ t
      = "LLM request failed " ++ "(429)" ++ (": " ++ t) := by
    intro t
    apply String.ext
    simp [String.data_append]
  unfold JsError.mentions429 friendlyMessage
  simp only [show ¬ ("429" = "network" ∨ "429" = "0") by decide,
    show ¬ ("429" = "401" ∨ "429" = "403") by decide, show ¬ ("429" = "404") by decide,
    if_false, if_true]
  rw [hbase]
  apply includes_append_right
  exact includes_mid _ _ _

/-- C10, counterexample: with `allowFallback` set and a primary loop that ends
with the HTTP 429 failure, an Anthropic profile, a custom profile and an OpenAI
profile already set to `gpt-4o-mini` get no fallback: the call makes its one
request, sends no notification and rejects. -/
theorem fallback_not_for_every_provider :
    (analyze (always429 "slow down") "zz" ⟨false, 1, true⟩ anthropicStore).trace
        = [.request .anthropic "anthropic/claude-sonnet-4.5"] ∧
      (analyze (always429 "slow down") "zz" ⟨false, 1, true⟩ anthropicStore).result
        = .error (.error (friendlyMessage "429" "slow down" "anthropic"
            "https://api.anthropic.com/v1/messages")) ∧
      (analyze (always429 "slow down") "zz" ⟨false, 1, true⟩ customStore).trace
        = [.request .openai "llama3"] ∧
      (analyze (always429 "slow down") "zz" ⟨false, 1, true⟩ customStore).result
        = .error (.error (friendlyMessage "429" "slow down" "custom"
            "http://localhost:8080/v1/chat/completions")) ∧
      (analyze (always429 "slow down") "zz" ⟨false, 1, true⟩ openaiMiniStore).trace
        = [.request .openai "gpt-4o-mini"] ∧
      (analyze (always429 "slow down") "zz" ⟨false, 1, true⟩ openaiMiniStore).result
        = .error (.error (friendlyMessage "429" "slow down" "openai"
            "https://api.openai.com/v1/chat/completions")) := by
  decide

/-- One iteration of the loop on a request during which the signal is raised:
the rejection is handled as a transport failure. -/
theorem fetchLoop_inflight (env : Env) (d : Dispatch) (attempts rem : Nat) (st : RunState)
    (t : String) (hab : st.aborted = false) (hres : env.fetch st.requests = .aborted t) :
    fetchLoop env d attempts (rem + 1) st =
      (.error (terminalError 0 (if t ≠ "" then t else "Network error") none d.provider d.baseUrl),
        { requests := st.requests + 1, waits := st.waits, aborted := true,
          trace := st.trace ++ [.request d.family d.model] ++ [.abort] }) := by
  rw [fetchLoop]
  simp only [hab, Bool.false_eq_true, if_false, doFetch, hres, Option.filter]
  simp

/-- The loop only adds to the trace, and unless the signal is up or no
iteration remains the first thing it adds is its request. -/
theorem fetchLoop_trace (env : Env) (d : Dispatch) (attempts : Nat) :
    ∀ (rem : Nat) (st : RunState),
      ∃ rest, (fetchLoop env d attempts rem st).2.trace = st.trace ++ rest ∧
        (st.aborted = false → 1 ≤ rem → ∃ rest2, rest = .request d.family d.model :: rest2) := by
  intro rem
  induction rem with
  | zero =>
    intro st
    exact ⟨[], by simp [fetchLoop], fun _ h => absurd h (by omega)⟩
  | succ rem ih =>
    intro st
    by_cases hab : st.aborted = false
    · cases hf : env.fetch st.requests with
      | aborted t =>
        rw [fetchLoop_inflight env d attempts rem st t hab hf]
        exact ⟨[.request d.family d.model] ++ [.abort], by simp, fun _ _ => ⟨_, rfl⟩⟩
      | failed t =>
        rw [fetchLoop_failed env d attempts rem st t hab hf]
        exact ⟨[.request d.family d.model], by simp, fun _ _ => ⟨_, rfl⟩⟩
      | response res =>
        rw [fetchLoop_response env d attempts rem st res hab hf]
        by_cases h1 : res.ok = true
        · rw [if_pos h1]
          exact ⟨[.request d.family d.model], by simp, fun _ _ => ⟨_, rfl⟩⟩
        · rw [if_neg h1]
          by_cases h2 : (res.status = 429 ∨ res.status ≥ 500) ∧ attempts - rem < attempts
          · rw [if_pos h2]
            by_cases h3 : env.abortInWait st.waits = true
            · rw [if_pos h3]
              exact ⟨_, by simp only [List.append_assoc]; rfl, fun _ _ => ⟨_, rfl⟩⟩
            · rw [if_neg h3]
              obtain ⟨rest, hrest, _⟩ := ih
                { requests := st.requests + 1, waits := st.waits + 1, aborted := false,
                  trace := st.trace ++ [.request d.family d.model] ++
                    [.status (if res.status = 429 then
                        rateLimitedStatus (ceilSeconds (computeBackoff (attempts - rem)
                          res.retryAfter (env.jitter st.waits % 250))) (attempts - rem) attempts
                      else serverErrorStatus res.status (ceilSeconds (computeBackoff
                          (attempts - rem) 0 (env.jitter st.waits % 250))) (attempts - rem)
                          attempts)] ++
                    [.wait (computeBackoff (attempts - rem)
                      (if res.status = 429 then res.retryAfter else 0)
                      (env.jitter st.waits % 250))] }
              rw [hrest]
              exact ⟨_, by simp only [List.append_assoc]; rfl, fun _ _ => ⟨_, rfl⟩⟩
          · rw [if_neg h2]
            exact ⟨[.request d.family d.model], by simp, fun _ _ => ⟨_, rfl⟩⟩
    · have hab' : st.aborted = true := by simpa using hab
      refine ⟨[], ?_, fun h => absurd h hab⟩
      rw [fetchLoop]
      simp [hab']

theorem dispatch_trace (env : Env) (d : Dispatch) (attempts : Nat) (st : RunState) :
    ∃ rest, (dispatch env d attempts st).2.trace = st.trace ++ rest ∧
      (st.aborted = false → ∃ rest2, rest = .request d.family d.model :: rest2) := by
  obtain ⟨rest, h1, h2⟩ := fetchLoop_trace env d (if attempts ≠ 0 then attempts else 3)
    (if attempts ≠ 0 then attempts else 3) st
  refine ⟨rest, ?_, fun hab => h2 hab (by split_ifs <;> omega)⟩
  unfold dispatch fetchWithRetry
  simp only
  cases hl : fetchLoop env d (if attempts ≠ 0 then attempts else 3)
      (if attempts ≠ 0 then attempts else 3) st with
  | mk res st1 =>
    rw [hl] at h1
    cases res <;> exact h1

theorem pickFallbackModel_ne (provider model : String)
    (hsel : pickFallbackModel provider model ≠ model) :
    pickFallbackModel provider model ≠ "" ∧ provider ≠ "anthropic" ∧ provider ≠ "custom" := by
  unfold pickFallbackModel at hsel ⊢
  by_cases h1 : provider = "openrouter"
  · subst h1
    simp only [if_true]
    decide
  · by_cases h2 : provider = "openai"
    · subst h2
      simp only [if_true]
      decide
    · by_cases h3 : provider = "deepseek"
      · subst h3
        simp only [if_true]
        decide
      · simp only [h1, h2, h3, if_false] at hsel
        exact absurd rfl hsel

/-- C10, amended: for a profile whose provider has a fallback model other than
the profile's own model (`openrouter`, `openai`, `deepseek`), when the signal is
not raised before the call or in flight, the caller set `allowFallback` and the
primary dispatch ends with the error of HTTP 429, `analyze` sends the status
notification of the switch and runs the dispatch once more, with the fallback
model and an attempt budget of 2: that dispatch begins with a request carrying
the fallback model, and its result is the result of the call. -/
theorem analyze_fallback_dispatch (env : Env) (r : String) (opts : Options) (store : Store)
    (p : Profile) (msg : String) (st1 : RunState)
    (hp : (getActiveProfile r store).1 = some p)
    (hbase : p.baseUrl ≠ "") (hkey : p.apiKey ≠ "")
    (hsel : pickFallbackModel (resolvedProvider p) p.model ≠ p.model)
    (hstart : env.abortedAtStart = false)
    (hflight : ∀ n t, env.fetch n ≠ .aborted t)
    (hfb : opts.allowFallback = true)
    (hprim : dispatch env
        { family := .openai, model := primaryModel .openai p.model,
          provider := resolvedProvider p, baseUrl := p.baseUrl }
        (if opts.attempts ≠ 0 then opts.attempts else 3) (initialState env)
      = (.error (.error (friendlyMessage "429" msg (resolvedProvider p) p.baseUrl)), st1)) :
    ∃ rest,
      (analyze env r opts store).result
        = (dispatch env
            { family := .openai, model := pickFallbackModel (resolvedProvider p) p.model,
              provider := resolvedProvider p, baseUrl := p.baseUrl } 2
            { st1 with trace := st1.trace
                ++ [.status (fallbackStatus (pickFallbackModel (resolvedProvider p) p.model))] }).1 ∧
      (analyze env r opts store).trace
        = (dispatch env
            { family := .openai, model := pickFallbackModel (resolvedProvider p) p.model,
              provider := resolvedProvider p, baseUrl := p.baseUrl } 2
            { st1 with trace := st1.trace
                ++ [.status (fallbackStatus (pickFallbackModel (resolvedProvider p) p.model))] }).2.trace ∧
      (analyze env r opts store).trace
        = st1.trace ++ .status (fallbackStatus (pickFallbackModel (resolvedProvider p) p.model))
            :: .request .openai (pickFallbackModel (resolvedProvider p) p.model) :: rest := by
  obtain ⟨hne, hnanth, hncustom⟩ := pickFallbackModel_ne _ _ hsel
  have hinit : initialState env = ⟨0, 0, false, []⟩ := by simp [initialState, hstart]
  have hst1 : st1.aborted = false := by
    have h := dispatch_signal env
      { family := .openai, model := primaryModel .openai p.model,
        provider := resolvedProvider p, baseUrl := p.baseUrl }
      (if opts.attempts ≠ 0 then opts.attempts else 3) (initialState env) hflight
      (by simp [hinit]) (by simp [hinit])
    rw [hprim] at h
    rcases h with ⟨h1, _⟩ | ⟨_, h2, _⟩
    · exact h1
    · simp only [Except.error.injEq] at h2
      have hm := friendly429_mentions msg (resolvedProvider p) p.baseUrl
      rw [h2] at hm
      exact absurd hm (by decide)
  obtain ⟨rest, hrest, hfirst⟩ := dispatch_trace env
    { family := .openai, model := pickFallbackModel (resolvedProvider p) p.model,
      provider := resolvedProvider p, baseUrl := p.baseUrl } 2
    { st1 with trace := st1.trace
        ++ [.status (fallbackStatus (pickFallbackModel (resolvedProvider p) p.model))] }
  obtain ⟨rest2, hrest2⟩ := hfirst hst1
  have hcond : opts.allowFallback = true ∧
      (JsError.error (friendlyMessage "429" msg (resolvedProvider p) p.baseUrl)).mentions429 = true ∧
      pickFallbackModel (resolvedProvider p) p.model ≠ "" ∧
      pickFallbackModel (resolvedProvider p) p.model ≠ p.model :=
    ⟨hfb, friendly429_mentions _ _ _, hne, hsel⟩
  have hmodel : ¬ (p.model = "" ∧ resolvedProvider p = "custom") := fun h => hncustom h.2
  have hst0 : (initialState env).aborted = false := by simp [hinit]
  have hA : analyze env r opts store =
      ⟨(dispatch env
          { family := .openai, model := pickFallbackModel (resolvedProvider p) p.model,
            provider := resolvedProvider p, baseUrl := p.baseUrl } 2
          { st1 with trace := st1.trace
              ++ [.status (fallbackStatus (pickFallbackModel (resolvedProvider p) p.model))] }).1,
        (getActiveProfile r store).2,
        (dispatch env
          { family := .openai, model := pickFallbackModel (resolvedProvider p) p.model,
            provider := resolvedProvider p, baseUrl := p.baseUrl } 2
          { st1 with trace := st1.trace
              ++ [.status (fallbackStatus (pickFallbackModel (resolvedProvider p) p.model))] }).2.trace⟩ := by
    unfold analyze
    cases hg : getActiveProfile r store with
    | mk active store1 =>
      rw [hg] at hp
      simp only at hp
      subst hp
      simp only [hbase, hkey, hmodel, if_false, hst0, Bool.false_eq_true, hnanth, hprim]
      rw [if_pos hcond]
  rw [hA]
  refine ⟨rest2, rfl, rfl, ?_⟩
  simp only
  rw [hrest, hrest2]
  simp

/-- Witness of `analyze_fallback_dispatch`: the default OpenRouter profile on a
network that answers 429 throughout, with an attempt budget of 1. -/
theorem analyze_fallback_dispatch_witness :
    ∃ rest,
      (analyze (always429 "slow down") "zz" ⟨false, 1, true⟩ openrouterStore).result
        = (dispatch (always429 "slow down")
            { family := .openai, model := "gpt-4o-mini", provider := "openrouter",
              baseUrl := presetOpenrouter.baseUrl } 2
            ⟨1, 0, false, [.request .openai "qwen/qwen3-235b-a22b:free",
              .status (fallbackStatus "gpt-4o-mini")]⟩).1 ∧
      (analyze (always429 "slow down") "zz" ⟨false, 1, true⟩ openrouterStore).trace
        = (dispatch (always429 "slow down")
            { family := .openai, model := "gpt-4o-mini", provider := "openrouter",
              baseUrl := presetOpenrouter.baseUrl } 2
            ⟨1, 0, false, [.request .openai "qwen/qwen3-235b-a22b:free",
              .status (fallbackStatus "gpt-4o-mini")]⟩).2.trace ∧
      (analyze (always429 "slow down") "zz" ⟨false, 1, true⟩ openrouterStore).trace
        = [.request .openai "qwen/qwen3-235b-a22b:free"] ++ .status (fallbackStatus "gpt-4o-mini")
            :: .request .openai "gpt-4o-mini" :: rest :=
  analyze_fallback_dispatch (always429 "slow down") "zz" ⟨false, 1, true⟩ openrouterStore
    (synthesizedDefault "k3x9") "slow down"
    ⟨1, 0, false, [.request .openai "qwen/qwen3-235b-a22b:free"]⟩
    (by decide) (by decide) (by decide) (by decide) (by decide)
    (fun _ _ h => FetchOutcome.noConfusion h) (by decide) (by decide)

/-- C11, the code at the failing input: an OpenAI profile without model, on a
network that answers 429 throughout, with `allowFallback` and an attempt budget
of 1. The primary request carries the built-in default `gpt-4o-mini`, and so do
the two requests of the fallback dispatch. -/
theorem fallback_repeats_default_model :
    (analyze (always429 "slow down") "zz" ⟨false, 1, true⟩ openaiStore).trace
      = [.request .openai "gpt-4o-mini",
         .status (fallbackStatus "gpt-4o-mini"),
         .request .openai "gpt-4o-mini",
         .status (rateLimitedStatus 1 1 2),
         .wait 600,
         .request .openai "gpt-4o-mini"] := by
  decide

/-- The last attempt of the loop on a response that is not a success: the
terminal error, whatever the status. -/
theorem fetchLoop_last (env : Env) (d : Dispatch) (attempts : Nat) (st : RunState)
    (res : HttpResponse) (hab : st.aborted = false)
    (hres : env.fetch st.requests = .response res) (hok : res.ok = false) :
    fetchLoop env d attempts 1 st =
      (.error (terminalError res.status res.body res.json d.provider d.baseUrl),
        { st with requests := st.requests + 1,
                  trace := st.trace ++ [.request d.family d.model] }) := by
  rw [fetchLoop_response env d attempts 0 st res hab hres]
  rw [if_neg (by simp [hok]), if_neg (by omega)]

/-- The whole loop on a network that answers 429 throughout with a textual
provider message and on which the signal is not raised: `attempts` requests,
one notification and one wait fewer, and the error of the last response. -/
theorem fetchLoop_all429 (env : Env) (d : Dispatch) (a : Nat) (st : RunState)
    (hab : st.aborted = false)
    (hall : ∀ n, ∃ res, env.fetch n = .response res ∧ res.status = 429 ∧
      ∃ msg, providerMessage res.body res.json = .str msg)
    (hwait : ∀ n, env.abortInWait n = false) :
    ∃ res msg st2, env.fetch (st.requests + a) = .response res ∧
      providerMessage res.body res.json = .str msg ∧
      fetchLoop env d (a + 1) (a + 1) st
        = (.error (.error (friendlyMessage "429" msg d.provider d.baseUrl)), st2) ∧
      st2.aborted = false ∧ st2.requests = st.requests + (a + 1) ∧ st2.waits = st.waits + a ∧
      requestCount st2.trace = requestCount st.trace + (a + 1) ∧
      waitCount st2.trace = waitCount st.trace + a ∧
      statusCount st2.trace = statusCount st.trace + a := by
  obtain ⟨st1, h1, hab1, hreq1, hw1, hc1, hc2, hc3⟩ :=
    fetchLoop_retries env d (a + 1) a a st hab (Nat.le_refl _) (by omega)
      (fun i _ => by
        obtain ⟨res, hr, hs, _⟩ := hall (st.requests + i)
        simp [retryable, hr, hs])
      (fun i _ => hwait _)
  obtain ⟨res, hr, hs, msg, hm⟩ := hall (st.requests + a)
  have hok : res.ok = false := by
    unfold HttpResponse.ok
    rw [hs]
    rfl
  have hlast := fetchLoop_last env d (a + 1) st1 res hab1 (by rw [hreq1]; exact hr) hok
  refine ⟨res, msg,
    (⟨st1.requests + 1, st1.waits, st1.aborted, st1.trace ++ [.request d.family d.model]⟩ :
      RunState), hr, hm, ?_, hab1, ?_, hw1, ?_, ?_, ?_⟩
  · rw [h1, show a + 1 - a = 1 by omega, hlast]
    simp only [terminalError, hm, hs]
    rfl
  · simp only [hreq1]
    omega
  · simp only [requestCount_append, hc1]
    simp [requestCount]
    omega
  · simp only [waitCount_append, hc2]
    simp [waitCount]
  · simp only [statusCount_append, hc3]
    simp [statusCount]

theorem dispatch_all429 (env : Env) (d : Dispatch) (a : Nat) (st : RunState)
    (hab : st.aborted = false)
    (hall : ∀ n, ∃ res, env.fetch n = .response res ∧ res.status = 429 ∧
      ∃ msg, providerMessage res.body res.json = .str msg)
    (hwait : ∀ n, env.abortInWait n = false) :
    ∃ res msg st2, env.fetch (st.requests + a) = .response res ∧
      providerMessage res.body res.json = .str msg ∧
      dispatch env d (a + 1) st
        = (.error (.error (friendlyMessage "429" msg d.provider d.baseUrl)), st2) ∧
      st2.aborted = false ∧ st2.requests = st.requests + (a + 1) ∧ st2.waits = st.waits + a ∧
      requestCount st2.trace = requestCount st.trace + (a + 1) ∧
      waitCount st2.trace = waitCount st.trace + a ∧
      statusCount st2.trace = statusCount st.trace + a := by
  obtain ⟨res, msg, st2, h1, h2, h3, h4⟩ := fetchLoop_all429 env d a st hab hall hwait
  refine ⟨res, msg, st2, h1, h2, ?_, h4⟩
  unfold dispatch fetchWithRetry
  simp only [ne_eq, Nat.add_one_ne_zero, not_false_eq_true, if_true, h3]

/-- C12: for an attempt budget of at least 1, a profile for which a fallback
model is selected, `allowFallback` set, no signal raised and a network that
answers 429 throughout (each provider message being text), `analyze` makes
`attempts` primary requests and the 2 requests of one fallback dispatch,
`attempts + 2` in all, with `attempts` waits and `attempts + 1` notifications,
and rejects with the friendly error of status 429 built from the last response
received. -/
theorem analyze_sustained_429 (env : Env) (r : String) (opts : Options) (store : Store)
    (p : Profile) (hp : (getActiveProfile r store).1 = some p)
    (hbase : p.baseUrl ≠ "") (hkey : p.apiKey ≠ "")
    (hsel : pickFallbackModel (resolvedProvider p) p.model ≠ p.model)
    (hatt : 1 ≤ opts.attempts) (hfb : opts.allowFallback = true)
    (hstart : env.abortedAtStart = false)
    (hwait : ∀ n, env.abortInWait n = false)
    (hall : ∀ n, ∃ res, env.fetch n = .response res ∧ res.status = 429 ∧
      ∃ msg, providerMessage res.body res.json = .str msg) :
    ∃ res msg, env.fetch (opts.attempts + 1) = .response res ∧
      providerMessage res.body res.json = .str msg ∧
      (analyze env r opts store).result
        = .error (.error (friendlyMessage "429" msg (resolvedProvider p) p.baseUrl)) ∧
      requestCount (analyze env r opts store).trace = opts.attempts + 2 ∧
      waitCount (analyze env r opts store).trace = opts.attempts ∧
      statusCount (analyze env r opts store).trace = opts.attempts + 1 := by
  obtain ⟨hne, hnanth, hncustom⟩ := pickFallbackModel_ne _ _ hsel
  have hinit : initialState env = ⟨0, 0, false, []⟩ := by simp [initialState, hstart]
  obtain ⟨a, ha⟩ : ∃ a, opts.attempts = a + 1 := ⟨opts.attempts - 1, by omega⟩
  obtain ⟨res1, msg1, st1, _, _, hd1, hab1, hreq1, hw1, c1, c2, c3⟩ :=
    dispatch_all429 env
      { family := .openai, model := primaryModel .openai p.model,
        provider := resolvedProvider p, baseUrl := p.baseUrl } a ⟨0, 0, false, []⟩ rfl hall hwait
  obtain ⟨res2, msg2, st2, hr2, hm2, hd2, _, _, _, e1, e2, e3⟩ :=
    dispatch_all429 env
      { family := .openai, model := pickFallbackModel (resolvedProvider p) p.model,
        provider := resolvedProvider p, baseUrl := p.baseUrl } 1
      { st1 with trace := st1.trace
          ++ [.status (fallbackStatus (pickFallbackModel (resolvedProvider p) p.model))] }
      hab1 hall hwait
  have hcond : opts.allowFallback = true ∧
      (JsError.error (friendlyMessage "429" msg1 (resolvedProvider p) p.baseUrl)).mentions429
        = true ∧
      pickFallbackModel (resolvedProvider p) p.model ≠ "" ∧
      pickFallbackModel (resolvedProvider p) p.model ≠ p.model :=
    ⟨hfb, friendly429_mentions _ _ _, hne, hsel⟩
  have hmodel : ¬ (p.model = "" ∧ resolvedProvider p = "custom") := fun h => hncustom h.2
  have hA : analyze env r opts store =
      ⟨.error (.error (friendlyMessage "429" msg2 (resolvedProvider p) p.baseUrl)),
        (getActiveProfile r store).2, st2.trace⟩ := by
    unfold analyze
    cases hg : getActiveProfile r store with
    | mk active store1 =>
      rw [hg] at hp
      simp only at hp
      subst hp
      simp only [hbase, hkey, hmodel, if_false, hinit, Bool.false_eq_true, hnanth, ha,
        ne_eq, Nat.add_one_ne_zero, not_false_eq_true, if_true, hd1]
      rw [if_pos hcond]
      simp only [show (2 : Nat) = 1 + 1 from rfl, hd2]
  rw [hA]
  refine ⟨res2, msg2, ?_, hm2, rfl, ?_, ?_, ?_⟩
  · rw [← hr2]
    simp only [hreq1, ha]
    congr 1
    omega
  · simp only [requestCount_append] at e1
    simp [requestCount] at c1 e1 ⊢
    omega
  · simp only [waitCount_append] at e2
    simp [waitCount] at c2 e2 ⊢
    omega
  · simp only [statusCount_append] at e3
    simp [statusCount] at c3 e3 ⊢
    omega

/-- Witness of `analyze_sustained_429`: the default OpenRouter profile, an
attempt budget of 1 and a network that answers 429 throughout. -/
theorem analyze_sustained_429_witness :
    ∃ res msg, (always429 "slow down").fetch (1 + 1) = .response res ∧
      providerMessage res.body res.json = .str msg ∧
      (analyze (always429 "slow down") "zz" ⟨false, 1, true⟩ openrouterStore).result
        = .error (.error (friendlyMessage "429" msg "openrouter" presetOpenrouter.baseUrl)) ∧
      requestCount (analyze (always429 "slow down") "zz" ⟨false, 1, true⟩ openrouterStore).trace
        = 1 + 2 ∧
      waitCount (analyze (always429 "slow down") "zz" ⟨false, 1, true⟩ openrouterStore).trace
        = 1 ∧
      statusCount (analyze (always429 "slow down") "zz" ⟨false, 1, true⟩ openrouterStore).trace
        = 1 + 1 :=
  analyze_sustained_429 (always429 "slow down") "zz" ⟨false, 1, true⟩ openrouterStore
    (synthesizedDefault "k3x9") (by decide) (by decide) (by decide) (by decide) (by decide)
    (by decide) (by decide) (fun _ => rfl)
    (fun _ => ⟨⟨429, "slow down", none, 0⟩, rfl, rfl, "slow down", rfl⟩)

theorem extractContent_of_path (family : Family) (json : Json)
    (h : (contentPath family json).truthy = false) : extractContent family json = "" := by
  cases family with
  | openai =>
    simp only [contentPath] at h
    simp [extractContent, extractOpenAIContent, h]
  | anthropic =>
    simp only [contentPath] at h
    simp [extractContent, extractAnthropicContent, h]

theorem dispatch_first_success (env : Env) (d : Dispatch) (attempts : Nat)
    (res : HttpResponse) (hstart : env.abortedAtStart = false)
    (hres : env.fetch 0 = .response res) (hok : res.ok = true) :
    dispatch env d attempts (initialState env)
      = (readContent d.family res, ⟨1, 0, false, [.request d.family d.model]⟩) := by
  have hinit : initialState env = ⟨0, 0, false, []⟩ := by simp [initialState, hstart]
  obtain ⟨a, ha⟩ : ∃ a, (if attempts ≠ 0 then attempts else 3) = a + 1 := by
    split_ifs with h
    · exact ⟨attempts - 1, by omega⟩
    · exact ⟨2, rfl⟩
  unfold dispatch fetchWithRetry
  simp only [hinit, ha]
  rw [fetchLoop_response env d (a + 1) a ⟨0, 0, false, []⟩ res rfl hres, if_pos hok]
  simp

/-- C13: when the preconditions hold, the signal is not raised and the first
response is a 2xx whose envelope has nothing (or a falsy value) at
`choices[0].message.content`, respectively `content[0].text`, the extractor of
the family yields the empty string and `analyze` rejects with the
unexpected-response-shape error after exactly one request, without wait,
notification or fallback. -/
theorem analyze_unexpected_shape (env : Env) (r : String) (opts : Options) (store : Store)
    (p : Profile) (res : HttpResponse)
    (hp : (getActiveProfile r store).1 = some p)
    (hbase : p.baseUrl ≠ "") (hkey : p.apiKey ≠ "")
    (hmodel : ¬ (p.model = "" ∧ resolvedProvider p = "custom"))
    (hstart : env.abortedAtStart = false)
    (hres : env.fetch 0 = .response res) (hok : res.ok = true)
    (hshape : (contentPath (familyOf (resolvedProvider p)) (safeJson res)).truthy = false) :
    extractContent (familyOf (resolvedProvider p)) (safeJson res) = "" ∧
      (analyze env r opts store).result
        = .error (unexpectedShapeError (familyOf (resolvedProvider p))) ∧
      (analyze env r opts store).trace
        = [.request (familyOf (resolvedProvider p))
            (primaryModel (familyOf (resolvedProvider p)) p.model)] ∧
      requestCount (analyze env r opts store).trace = 1 := by
  have hex := extractContent_of_path _ _ hshape
  have hst0 : (initialState env).aborted = false := by simp [initialState, hstart]
  have hA : (analyze env r opts store).result
        = .error (unexpectedShapeError (familyOf (resolvedProvider p))) ∧
      (analyze env r opts store).trace
        = [.request (familyOf (resolvedProvider p))
            (primaryModel (familyOf (resolvedProvider p)) p.model)] := by
    unfold analyze
    cases hg : getActiveProfile r store with
    | mk active store1 =>
      rw [hg] at hp
      simp only at hp
      subst hp
      simp only [hbase, hkey, hmodel, if_false, hst0, Bool.false_eq_true]
      by_cases hprov : resolvedProvider p = "anthropic"
      · have hfam : familyOf (resolvedProvider p) = .anthropic := by simp [familyOf, hprov]
        rw [hfam] at hex ⊢
        simp only [hprov, if_true]
        rw [dispatch_first_success env _ _ res hstart hres hok]
        simp only [readContent, hex, if_true, and_self]
      · have hfam : familyOf (resolvedProvider p) = .openai := by simp [familyOf, hprov]
        rw [hfam] at hex ⊢
        simp only [hprov, if_false]
        rw [dispatch_first_success env _ _ res hstart hres hok]
        simp only [readContent, hex, if_true]
        have hm : (unexpectedShapeError .openai).mentions429 = false := by decide
        simp only [hm, Bool.false_eq_true, false_and, and_false, if_false, and_self]
  refine ⟨hex, hA.1, hA.2, ?_⟩
  rw [hA.2]
  rfl

/-- Witness of `analyze_unexpected_shape`: an OpenAI-style success envelope with
empty `choices`. -/
theorem analyze_unexpected_shape_witness :
    extractContent .openai (.obj [("choices", .arr [])]) = "" ∧
      (analyze emptyChoicesScenario "zz" ⟨false, 3, true⟩ openaiStore).result
        = .error (unexpectedShapeError .openai) ∧
      (analyze emptyChoicesScenario "zz" ⟨false, 3, true⟩ openaiStore).trace
        = [.request .openai "gpt-4o-mini"] ∧
      requestCount (analyze emptyChoicesScenario "zz" ⟨false, 3, true⟩ openaiStore).trace = 1 :=
  analyze_unexpected_shape emptyChoicesScenario "zz" ⟨false, 3, true⟩ openaiStore
    ⟨"p-u1", "Mine", "openai", "https://api.openai.com/v1/chat/completions", "sk-1", "",
      false, false⟩ ⟨200, "", some (.obj [("choices", .arr [])]), 0⟩
    (by decide) (by decide) (by decide) (by decide) (by decide) rfl (by decide) (by decide)

/-- C14, counterexample: with an attempt budget of 3, a first request that
fails at transport level ends the call with the network error after one
request, although the second request would have succeeded; the same network
with a 503 in place of the transport failure is retried and succeeds. -/
theorem transport_failure_not_retried :
    (analyze transportScenario "zz" ⟨false, 3, true⟩ openaiStore).result
        = .error (.error (friendlyMessage "network" "Failed to fetch" "openai"
            "https://api.openai.com/v1/chat/completions")) ∧
      (analyze transportScenario "zz" ⟨false, 3, true⟩ openaiStore).trace
        = [.request .openai "gpt-4o-mini"] ∧
      (analyze serverErrorScenario "zz" ⟨false, 3, true⟩ openaiStore).result = .ok "All good" ∧
      (analyze serverErrorScenario "zz" ⟨false, 3, true⟩ openaiStore).trace
        = [.request .openai "gpt-4o-mini", .status (serverErrorStatus 503 1 1 3), .wait 600,
           .request .openai "gpt-4o-mini"] := by
  decide

theorem dispatch_first_failed (env : Env) (d : Dispatch) (attempts : Nat) (t : String)
    (hstart : env.abortedAtStart = false) (hres : env.fetch 0 = .failed t) :
    dispatch env d attempts (initialState env)
      = (.error (terminalError 0 (if t ≠ "" then t else "Network error") none d.provider
            d.baseUrl), ⟨1, 0, false, [.request d.family d.model]⟩) := by
  have hinit : initialState env = ⟨0, 0, false, []⟩ := by simp [initialState, hstart]
  obtain ⟨a, ha⟩ : ∃ a, (if attempts ≠ 0 then attempts else 3) = a + 1 := by
    split_ifs with h
    · exact ⟨attempts - 1, by omega⟩
    · exact ⟨2, rfl⟩
  unfold dispatch fetchWithRetry
  simp only [hinit, ha]
  rw [fetchLoop_failed env d (a + 1) a ⟨0, 0, false, []⟩ t rfl hres]
  simp

/-- C14, amended: a transport failure is not retried. When the preconditions
hold, the signal is not raised and the first request fails at transport level,
then whatever the attempt budget `analyze` makes that one request, sends no
notification, starts no wait and rejects with the friendly error of status
`network` built from the failure's text (provided that text does not make the
message contain `(429)` while `allowFallback` is set). -/
theorem analyze_transport_failure (env : Env) (r : String) (opts : Options) (store : Store)
    (p : Profile) (t : String)
    (hp : (getActiveProfile r store).1 = some p)
    (hbase : p.baseUrl ≠ "") (hkey : p.apiKey ≠ "")
    (hmodel : ¬ (p.model = "" ∧ resolvedProvider p = "custom"))
    (hstart : env.abortedAtStart = false)
    (hres : env.fetch 0 = .failed t)
    (hno : ¬ (opts.allowFallback = true ∧
      (JsError.error (friendlyMessage "network" (if t ≠ "" then t else "Network error")
        (resolvedProvider p) p.baseUrl)).mentions429 = true)) :
    (analyze env r opts store).result
        = .error (.error (friendlyMessage "network" (if t ≠ "" then t else "Network error")
            (resolvedProvider p) p.baseUrl)) ∧
      (analyze env r opts store).trace
        = [.request (familyOf (resolvedProvider p))
            (primaryModel (familyOf (resolvedProvider p)) p.model)] := by
  have hst0 : (initialState env).aborted = false := by simp [initialState, hstart]
  have hterm : ∀ prov base : String,
      terminalError 0 (if t ≠ "" then t else "Network error") none prov base
        = .error (friendlyMessage "network" (if t ≠ "" then t else "Network error") prov base) := by
    intro prov base
    rfl
  unfold analyze
  cases hg : getActiveProfile r store with
  | mk active store1 =>
    rw [hg] at hp
    simp only at hp
    subst hp
    simp only [hbase, hkey, hmodel, if_false, hst0, Bool.false_eq_true]
    by_cases hprov : resolvedProvider p = "anthropic"
    · have hfam : familyOf (resolvedProvider p) = .anthropic := by simp [familyOf, hprov]
      rw [hfam]
      simp only [hprov, if_true]
      rw [dispatch_first_failed env _ _ t hstart hres]
      simp only [hterm, and_self]
    · have hfam : familyOf (resolvedProvider p) = .openai := by simp [familyOf, hprov]
      rw [hfam]
      simp only [hprov, if_false]
      rw [dispatch_first_failed env _ _ t hstart hres]
      simp only [hterm]
      rw [if_neg (fun hc => hno ⟨hc.1, hc.2.1⟩)]
      exact ⟨rfl, rfl⟩

/-- Witness of `analyze_transport_failure`: the network whose first request
fails with `Failed to fetch`. -/
theorem analyze_transport_failure_witness :
    (analyze transportScenario "zz" ⟨false, 3, true⟩ openaiStore).result
        = .error (.error (friendlyMessage "network" "Failed to fetch" "openai"
            "https://api.openai.com/v1/chat/completions")) ∧
      (analyze transportScenario "zz" ⟨false, 3, true⟩ openaiStore).trace
        = [.request .openai "gpt-4o-mini"] :=
  analyze_transport_failure transportScenario "zz" ⟨false, 3, true⟩ openaiStore
    ⟨"p-u1", "Mine", "openai", "https://api.openai.com/v1/chat/completions", "sk-1", "",
      false, false⟩ "Failed to fetch"
    (by decide) (by decide) (by decide) (by decide) (by decide) rfl (by decide)

/-! ### Backoff and failure messages -/

/-- C15: for every attempt number from 1, every jitter below 250 and every
retry-after `r` in whole seconds, the backoff delay is `min(30000, r * 1000)`
when `r > 0` and `min(30000, 600 * 2^(attempt-1) + jitter)` otherwise; it is
positive and never above 30000. -/
theorem computeBackoff_spec (attempt jitter : Nat) (r : Int) (ha : 1 ≤ attempt)
    (hj : jitter < 250) :
    ((computeBackoff attempt r jitter : Nat) : Int)
        = (if 0 < r then min 30000 (r * 1000)
            else min 30000 (600 * 2 ^ (attempt - 1) + (jitter : Int))) ∧
      0 < computeBackoff attempt r jitter ∧ computeBackoff attempt r jitter ≤ 30000 := by
  have _ := ha
  have _ := hj
  unfold computeBackoff
  by_cases hr : 0 < r
  · have hne : r ≠ 0 ∧ r > 0 := ⟨by omega, hr⟩
    rw [if_pos hne, if_pos hr]
    have hnn : 0 ≤ r * 1000 := by omega
    refine ⟨?_, ?_, ?_⟩
    · rcases le_total 30000 (r * 1000).toNat with h | h
      · rw [min_eq_left h, min_eq_left (by omega)]
        rfl
      · rw [min_eq_right h, min_eq_right (by omega)]
        omega
    · rcases le_total 30000 (r * 1000).toNat with h | h
      · rw [min_eq_left h]
        omega
      · rw [min_eq_right h]
        omega
    · exact min_le_left _ _
  · have hne : ¬ (r ≠ 0 ∧ r > 0) := fun h => hr h.2
    rw [if_neg hne, if_neg hr]
    have hpow : 1 ≤ 2 ^ (attempt - 1) := Nat.one_le_two_pow
    refine ⟨?_, ?_, ?_⟩
    · simp only
      rcases le_total 30000 (2 ^ (attempt - 1) * 600 + jitter) with h | h
      · rw [min_eq_left h, min_eq_left (by exact_mod_cast (by omega : 30000 ≤ 600 * 2 ^ (attempt - 1) + jitter))]
        rfl
      · rw [min_eq_right h, min_eq_right (by exact_mod_cast (by omega : 600 * 2 ^ (attempt - 1) + jitter ≤ 30000))]
        push_cast
        ring
    · simp only
      rcases le_total 30000 (2 ^ (attempt - 1) * 600 + jitter) with h | h
      · rw [min_eq_left h]
        omega
      · rw [min_eq_right h]
        omega
    · exact min_le_left _ _

/-- Witness of `computeBackoff_spec`: third attempt, a server that asks for 60
seconds. -/
theorem computeBackoff_spec_witness :
    ((computeBackoff 3 60 100 : Nat) : Int)
        = (if (0 : Int) < 60 then min 30000 (60 * 1000)
            else min 30000 (600 * 2 ^ (3 - 1) + ((100 : Nat) : Int))) ∧
      0 < computeBackoff 3 60 100 ∧ computeBackoff 3 60 100 ≤ 30000 :=
  computeBackoff_spec 3 100 60 (by decide) (by decide)

/-- C16, counterexample: the error raised for a 402 carries the status and the
provider's text and no remediation hint. -/
theorem no_hint_for_402 :
    (analyze paymentRequiredScenario "zz" ⟨false, 3, true⟩ openaiStore).result
        = .error (.error "LLM request failed (402): Payment required") ∧
      hasHint "LLM request failed (402): Payment required" = false := by
  decide

theorem includes_self (s : String) : includes s s = true := by
  rw [includes_iff]

theorem includes_empty (s : String) : includes s "" = true := by
  rw [includes_iff]
  exact ⟨[], s.data, by simp⟩

theorem fiveXX_status (n : Nat) (h1 : 500 ≤ n) (h2 : n ≤ 599) :
    isFiveXX (toString n) = true := by
  interval_cases n <;> decide

/-- The first line of every message: it contains the status and the trimmed
provider text. -/
theorem base_contents (statusStr trimmed : String) :
    includes ("LLM request failed (" ++ statusStr ++ "): "
        ++ (if trimmed ≠ "" then trimmed else "Unknown error")) statusStr = true ∧
      includes ("LLM request failed (" ++ statusStr ++ "): "
        ++ (if trimmed ≠ "" then trimmed else "Unknown error")) trimmed = true := by
  constructor
  · apply includes_append_right
    apply includes_append_right
    apply includes_append_left
    exact includes_self _
  · by_cases h : trimmed = ""
    · rw [h]
      exact includes_empty _
    · apply includes_append_left
      simp only [ne_eq, h, not_false_eq_true, if_true]
      exact includes_self _

theorem hasHint_append_hint (base hint : String) (h : includes hint "\nHint: " = true) :
    hasHint (base ++ hint) = true := by
  unfold hasHint
  rw [includes_append_left base hint _ h]
  rfl

/-- C16, amended: for every HTTP status other than 0 and every provider text,
the message of the terminal error contains the numeric status and the trimmed
provider text; it contains a remediation hint when the status is 400, 401, 403,
404, 429 or 500 to 599 (for any other status the message ends after the
provider text). -/
theorem friendlyMessage_contents (status : Nat) (msg provider baseUrl : String)
    (hst : status ≠ 0) :
    includes (friendlyMessage (statusString status) msg provider baseUrl) (toString status)
        = true ∧
      includes (friendlyMessage (statusString status) msg provider baseUrl) (jsTrim msg)
        = true ∧
      ((status ∈ [400, 401, 403, 404, 429] ∨ (500 ≤ status ∧ status ≤ 599)) →
        hasHint (friendlyMessage (statusString status) msg provider baseUrl) = true) := by
  have hs : statusString status = toString status := by simp [statusString, hst]
  rw [hs]
  have hb := base_contents (toString status) (jsTrim msg)
  unfold friendlyMessage
  simp only
  by_cases h1 : toString status = "network" ∨ toString status = "0"
  · rw [if_pos h1]
    exact ⟨includes_append_right _ _ _ hb.1, includes_append_right _ _ _ hb.2,
      fun _ => hasHint_append_hint _ _ (by decide)⟩
  rw [if_neg h1]
  by_cases h2 : toString status = "401" ∨ toString status = "403"
  · rw [if_pos h2]
    exact ⟨includes_append_right _ _ _ hb.1, includes_append_right _ _ _ hb.2,
      fun _ => hasHint_append_hint _ _ (by decide)⟩
  rw [if_neg h2]
  by_cases h3 : toString status = "404"
  · rw [if_pos h3]
    by_cases hpol : (testIgnoreCase "openrouter" baseUrl
        && testIgnoreCase "no endpoints found matching your data policy" (jsTrim msg)) = true
    · rw [if_pos hpol]
      refine ⟨?_, includes_append_left _ _ _ (includes_self _), fun _ => ?_⟩
      · rw [h3]
        exact includes_append_right _ _ _ (by decide)
      · unfold hasHint
        rw [includes_append_right _ _ "\nAction: " (by decide)]
        simp
    · rw [if_neg hpol]
      exact ⟨includes_append_right _ _ _ hb.1, includes_append_right _ _ _ hb.2,
        fun _ => hasHint_append_hint _ _ (by decide)⟩
  rw [if_neg h3]
  by_cases h4 : toString status = "429"
  · rw [if_pos h4]
    exact ⟨includes_append_right _ _ _ hb.1, includes_append_right _ _ _ hb.2,
      fun _ => hasHint_append_hint _ _ (by decide)⟩
  rw [if_neg h4]
  by_cases h5 : toString status = "400"
  · rw [if_pos h5]
    exact ⟨includes_append_right _ _ _ hb.1, includes_append_right _ _ _ hb.2,
      fun _ => hasHint_append_hint _ _ (by decide)⟩
  rw [if_neg h5]
  by_cases h6 : isFiveXX (toString status) = true
  · rw [if_pos h6]
    exact ⟨includes_append_right _ _ _ hb.1, includes_append_right _ _ _ hb.2,
      fun _ => hasHint_append_hint _ _ (by decide)⟩
  rw [if_neg h6]
  refine ⟨hb.1, hb.2, fun hh => ?_⟩
  exfalso
  rcases hh with hl | ⟨hlo, hhi⟩
  · simp only [List.mem_cons, List.mem_singleton, List.not_mem_nil, or_false] at hl
    rcases hl with h | h | h | h | h <;> subst h
    · exact h5 (by decide)
    · exact h2 (Or.inl (by decide))
    · exact h2 (Or.inr (by decide))
    · exact h3 (by decide)
    · exact h4 (by decide)
  · exact h6 (fiveXX_status status hlo hhi)

/-- Witness of `friendlyMessage_contents`: a 429 with a provider text padded
with white space. -/
theorem friendlyMessage_contents_witness :
    includes (friendlyMessage (statusString 429) "  slow down\n" "openai" "u") (toString 429)
        = true ∧
      includes (friendlyMessage (statusString 429) "  slow down\n" "openai" "u")
        (jsTrim "  slow down\n") = true ∧
      (((429 : Nat) ∈ [400, 401, 403, 404, 429] ∨ (500 ≤ 429 ∧ 429 ≤ 599)) →
        hasHint (friendlyMessage (statusString 429) "  slow down\n" "openai" "u") = true) :=
  friendlyMessage_contents 429 "  slow down\n" "openai" "u" (by decide)

/-! ### Saving and deleting profiles -/

theorem findIndex_min {α : Type} (q : α → Bool) :
    ∀ (l : List α) (i : Nat), findIndex q l = some i →
      ∀ (j : Nat) (y : α), j < i → l[j]? = some y → q y = false := by
  intro l
  induction l with
  | nil => intro i h; simp [findIndex] at h
  | cons x xs ih =>
    intro i h j y hj hy
    unfold findIndex at h
    by_cases hq : q x = true
    · rw [if_pos hq] at h
      cases h
      omega
    · rw [if_neg hq] at h
      cases hf : findIndex q xs with
      | none => rw [hf] at h; simp at h
      | some k =>
        rw [hf] at h
        simp at h
        subst h
        cases j with
        | zero =>
          simp at hy
          subst hy
          simpa using hq
        | succ j =>
          simp at hy
          exact ih k hf j y (by omega) hy

/-- What `saveProfile` does when its target is not the default profile: it
returns the record it builds and writes the list with that record put at the
place of the first profile of the input's id, or appended when the input has no
id or no profile has it. -/
theorem saveProfile_nondefault (s : Store) (r : String) (input : Profile)
    (hnd : ∀ e ∈ s.profiles, e.id = input.id → e.isDefault = false) :
    saveProfile r input s =
      (savedRecord r input,
        { s with profiles :=
            match (if input.id ≠ "" then findIndex (fun q => q.id == input.id) s.profiles
                else none) with
            | some i => s.profiles.set i (savedRecord r input)
            | none => s.profiles ++ [savedRecord r input] }) := by
  unfold saveProfile
  simp only
  cases hidx : (if input.id ≠ "" then findIndex (fun p => p.id == input.id) s.profiles
      else none) with
  | none =>
    simp only [Option.bind]
    rfl
  | some i =>
    have hfi : findIndex (fun p => p.id == input.id) s.profiles = some i := by
      by_cases hne : input.id ≠ ""
      · rw [if_pos hne] at hidx
        exact hidx
      · rw [if_neg hne] at hidx
        cases hidx
    obtain ⟨e, he, hq, _⟩ := findIndex_some _ _ _ hfi
    have hd : e.isDefault = false :=
      hnd e (List.getElem?_mem he) (by simpa using hq)
    simp only [Option.bind, he, hd, Bool.false_eq_true, if_false]
    rfl

/-- C17: for an input saved to a profile that is not the default, whose provider
(given, or inferred from `baseUrl`) is one of the four of the catalog or is
`custom`, the record returned is stored in the list, carries that provider, and
its `baseUrl` is the catalog's for a catalog provider, whatever the input
carried, and the input's for `custom`. -/
theorem saveProfile_baseUrl (s : Store) (r : String) (input : Profile)
    (hnd : ∀ e ∈ s.profiles, e.id = input.id → e.isDefault = false)
    (hprov : (∃ q, aiProviders (providerOfInput input) = .own q) ∨
      providerOfInput input = "custom") :
    (saveProfile r input s).1 ∈ (saveProfile r input s).2.profiles ∧
      (saveProfile r input s).1.provider = providerOfInput input ∧
      (saveProfile r input s).1.baseUrl =
        (match aiProviders (providerOfInput input) with
          | .own q => q.baseUrl
          | _ => input.baseUrl) := by
  rw [saveProfile_nondefault s r input hnd]
  refine ⟨?_, rfl, ?_⟩
  · simp only
    cases hidx : (if input.id ≠ "" then findIndex (fun q => q.id == input.id) s.profiles
        else none) with
    | none => simp
    | some i =>
      have hfi : findIndex (fun p => p.id == input.id) s.profiles = some i := by
        by_cases hne : input.id ≠ ""
        · rw [if_pos hne] at hidx
          exact hidx
        · rw [if_neg hne] at hidx
          cases hidx
      obtain ⟨e, he, _, _⟩ := findIndex_some _ _ _ hfi
      have hlt : i < s.profiles.length := by
        rcases List.getElem?_eq_some.mp he with ⟨h, _⟩
        exact h
      exact List.mem_set _ _ hlt _
  · simp only [savedRecord]
    rcases hprov with ⟨q, hq⟩ | hc
    · have hne : providerOfInput input ≠ "" ∧ providerOfInput input ≠ "custom" := by
        constructor
        · intro h
          rw [h] at hq
          have h0 : aiProviders "" = .absent := by decide
          rw [h0] at hq
          cases hq
        · intro h
          rw [h] at hq
          have h0 : aiProviders "custom" = .absent := by decide
          rw [h0] at hq
          cases hq
      rw [if_pos hne, hq]
    · have hne : ¬ (providerOfInput input ≠ "" ∧ providerOfInput input ≠ "custom") :=
        fun h => h.2 hc
      rw [if_neg hne, hc]
      rfl

/-- Witness of `saveProfile_baseUrl`: an OpenAI profile saved with a foreign
base URL. -/
theorem saveProfile_baseUrl_witness :
    (saveProfile "n1" ⟨"p-u1", "Mine", "openai", "https://evil.example/v1", "sk-1", "gpt-4o",
        false, false⟩ twoProfileStore).1
      ∈ (saveProfile "n1" ⟨"p-u1", "Mine", "openai", "https://evil.example/v1", "sk-1", "gpt-4o",
        false, false⟩ twoProfileStore).2.profiles ∧
      (saveProfile "n1" ⟨"p-u1", "Mine", "openai", "https://evil.example/v1", "sk-1", "gpt-4o",
        false, false⟩ twoProfileStore).1.provider = "openai" ∧
      (saveProfile "n1" ⟨"p-u1", "Mine", "openai", "https://evil.example/v1", "sk-1", "gpt-4o",
        false, false⟩ twoProfileStore).1.baseUrl = presetOpenai.baseUrl :=
  saveProfile_baseUrl twoProfileStore "n1"
    ⟨"p-u1", "Mine", "openai", "https://evil.example/v1", "sk-1", "gpt-4o", false, false⟩
    (by decide) (Or.inl ⟨presetOpenai, by decide⟩)

/-- C18: `saveProfile` upserts by id. In a store whose profiles have non-empty
ids, for an input whose target is not the default profile: if a stored profile
has the input's id, the returned record takes the place of the first such
profile, the length of the list and every other position are unchanged;
otherwise the returned record is appended at the end and the earlier records
keep value and position. The active id is not touched. -/
theorem saveProfile_upsert (s : Store) (r : String) (input : Profile)
    (hnd : ∀ e ∈ s.profiles, e.id = input.id → e.isDefault = false)
    (hids : ∀ e ∈ s.profiles, e.id ≠ "") :
    ((∃ (i : Nat) (e : Profile), s.profiles[i]? = some e ∧ e.id = input.id ∧
          (∀ (j : Nat) (e2 : Profile), j < i → s.profiles[j]? = some e2 → e2.id ≠ input.id) ∧
          (saveProfile r input s).2.profiles.length = s.profiles.length ∧
          (saveProfile r input s).2.profiles[i]? = some (saveProfile r input s).1 ∧
          ∀ j, j ≠ i → (saveProfile r input s).2.profiles[j]? = s.profiles[j]?) ∨
      ((∀ e ∈ s.profiles, e.id ≠ input.id) ∧
          (saveProfile r input s).2.profiles = s.profiles ++ [(saveProfile r input s).1] ∧
          (saveProfile r input s).2.profiles.length = s.profiles.length + 1 ∧
          ∀ j, j < s.profiles.length →
            (saveProfile r input s).2.profiles[j]? = s.profiles[j]?)) ∧
      (saveProfile r input s).2.activeId = s.activeId := by
  rw [saveProfile_nondefault s r input hnd]
  refine ⟨?_, rfl⟩
  simp only
  by_cases hne : input.id ≠ ""
  · rw [if_pos hne]
    cases hfi : findIndex (fun q => q.id == input.id) s.profiles with
    | none =>
      right
      have hnone := findIndex_none _ _ hfi
      refine ⟨fun e he h => ?_, rfl, by simp, fun j hj => ?_⟩
      · have := hnone e he
        simp [h] at this
      · simp only
        exact List.getElem?_append_left hj
    | some i =>
      left
      obtain ⟨e, he, hq, _⟩ := findIndex_some _ _ _ hfi
      have hlt : i < s.profiles.length := by
        rcases List.getElem?_eq_some.mp he with ⟨h, _⟩
        exact h
      refine ⟨i, e, he, by simpa using hq, fun j e2 hj he2 => ?_, by simp, ?_, fun j hj => ?_⟩
      · have := findIndex_min _ _ _ hfi j e2 hj he2
        simpa using this
      · simp only
        exact List.getElem?_set_self hlt
      · simp only
        exact List.getElem?_set_ne (Ne.symm hj)
  · have hid : input.id = "" := by simpa using hne
    rw [if_neg hne]
    right
    refine ⟨fun e he h => hids e he (h.trans hid), rfl, by simp, fun j hj => ?_⟩
    simp only
    exact List.getElem?_append_left hj

/-- Witness of `saveProfile_upsert`: an update of the user profile of a store
that also holds the default profile. -/
theorem saveProfile_upsert_witness :
    ((∃ (i : Nat) (e : Profile), twoProfileStore.profiles[i]? = some e ∧ e.id = "p-u1" ∧
          (∀ (j : Nat) (e2 : Profile), j < i → twoProfileStore.profiles[j]? = some e2 →
            e2.id ≠ "p-u1") ∧
          (saveProfile "n1" ⟨"p-u1", "Renamed", "openai", "", "sk-2", "gpt-4o", false, false⟩
            twoProfileStore).2.profiles.length = twoProfileStore.profiles.length ∧
          (saveProfile "n1" ⟨"p-u1", "Renamed", "openai", "", "sk-2", "gpt-4o", false, false⟩
            twoProfileStore).2.profiles[i]?
            = some (saveProfile "n1" ⟨"p-u1", "Renamed", "openai", "", "sk-2", "gpt-4o", false,
                false⟩ twoProfileStore).1 ∧
          ∀ j, j ≠ i →
            (saveProfile "n1" ⟨"p-u1", "Renamed", "openai", "", "sk-2", "gpt-4o", false, false⟩
              twoProfileStore).2.profiles[j]? = twoProfileStore.profiles[j]?) ∨
      ((∀ e ∈ twoProfileStore.profiles, e.id ≠ "p-u1") ∧
          (saveProfile "n1" ⟨"p-u1", "Renamed", "openai", "", "sk-2", "gpt-4o", false, false⟩
            twoProfileStore).2.profiles
            = twoProfileStore.profiles
              ++ [(saveProfile "n1" ⟨"p-u1", "Renamed", "openai", "", "sk-2", "gpt-4o", false,
                  false⟩ twoProfileStore).1] ∧
          (saveProfile "n1" ⟨"p-u1", "Renamed", "openai", "", "sk-2", "gpt-4o", false, false⟩
            twoProfileStore).2.profiles.length = twoProfileStore.profiles.length + 1 ∧
          ∀ j, j < twoProfileStore.profiles.length →
            (saveProfile "n1" ⟨"p-u1", "Renamed", "openai", "", "sk-2", "gpt-4o", false, false⟩
              twoProfileStore).2.profiles[j]? = twoProfileStore.profiles[j]?)) ∧
      (saveProfile "n1" ⟨"p-u1", "Renamed", "openai", "", "sk-2", "gpt-4o", false, false⟩
        twoProfileStore).2.activeId = twoProfileStore.activeId :=
  saveProfile_upsert twoProfileStore "n1"
    ⟨"p-u1", "Renamed", "openai", "", "sk-2", "gpt-4o", false, false⟩ (by decide) (by decide)

/-- C19, the code at the failing input: deleting the only profile of a store,
which is the active one, empties the list and leaves the stored active id at
the id of the deleted profile, because `setActiveProfileId('')` writes
nothing. -/
theorem deleteProfile_last_keeps_active :
    deleteProfile "p-u1" loneProfileStore = (.ok (), ⟨[], "p-u1"⟩) ∧
      (deleteProfile "p-u1" loneProfileStore).2.activeId ≠ "" := by
  decide

/-! ### Provider inference -/

/-- C20, counterexample: a base URL whose host is `example.com`, a host that
contains none of the four provider names, and whose path contains
`openrouter.ai` is inferred as `openrouter`, not as `custom`. -/
theorem inferProvider_matches_path :
    inferProvider ("https://" ++ "example.com" ++ "/openrouter.ai/v1") = "openrouter" ∧
      includes (toLowerCase "example.com") "openrouter.ai" = false ∧
      includes (toLowerCase "example.com") "api.openai.com" = false ∧
      includes (toLowerCase "example.com") "anthropic.com" = false ∧
      includes (toLowerCase "example.com") "deepseek.com" = false := by
  decide

/-- C20, amended: `inferProvider` is total and returns one of the five provider
names; it returns `custom` exactly when the lower-cased base URL contains none
of `openrouter.ai`, `api.openai.com`, `anthropic.com`, `deepseek.com` anywhere in
its text, and otherwise the provider of the first of these, in that order, that
it contains. -/
theorem inferProvider_spec (baseUrl : String) :
    inferProvider baseUrl ∈ ["openrouter", "openai", "anthropic", "deepseek", "custom"] ∧
      (inferProvider baseUrl = "custom" ↔
        (includes (toLowerCase baseUrl) "openrouter.ai" = false ∧
          includes (toLowerCase baseUrl) "api.openai.com" = false ∧
          includes (toLowerCase baseUrl) "anthropic.com" = false ∧
          includes (toLowerCase baseUrl) "deepseek.com" = false)) ∧
      (includes (toLowerCase baseUrl) "openrouter.ai" = true →
        inferProvider baseUrl = "openrouter") ∧
      (includes (toLowerCase baseUrl) "openrouter.ai" = false →
        includes (toLowerCase baseUrl) "api.openai.com" = true →
        inferProvider baseUrl = "openai") ∧
      (includes (toLowerCase baseUrl) "openrouter.ai" = false →
        includes (toLowerCase baseUrl) "api.openai.com" = false →
        includes (toLowerCase baseUrl) "anthropic.com" = true →
        inferProvider baseUrl = "anthropic") ∧
      (includes (toLowerCase baseUrl) "openrouter.ai" = false →
        includes (toLowerCase baseUrl) "api.openai.com" = false →
        includes (toLowerCase baseUrl) "anthropic.com" = false →
        includes (toLowerCase baseUrl) "deepseek.com" = true →
        inferProvider baseUrl = "deepseek") := by
  unfold inferProvider
  simp only
  by_cases h0 : toLowerCase baseUrl = ""
  · rw [h0]
    decide
  · rw [if_neg h0]
    cases h1 : includes (toLowerCase baseUrl) "openrouter.ai"
    · cases h2 : includes (toLowerCase baseUrl) "api.openai.com"
      · cases h3 : includes (toLowerCase baseUrl) "anthropic.com"
        · cases h4 : includes (toLowerCase baseUrl) "deepseek.com"
          · simp
          · simp
        · simp
      · simp
    · simp

/-! ### Drafts, persistence and write protection -/

/-- C24, the code at the failing input: two new-profile actions on the store of
a first run leave two profiles with `isDraft`. -/
theorem newProfile_twice_two_drafts :
    draftCount (newProfile "b2" "y" (newProfile "a1" "x" firstRunStore)) = 2 ∧
      (newProfile "b2" "y" (newProfile "a1" "x" firstRunStore)).profiles.map (·.id)
        = ["p-k3x9", "p-a1", "p-b2"] := by
  decide

/-- C25, counterexample: `analyze` on the empty store of a first run (here it
then fails on the rate limit) leaves the synthesized default profile in the
list and its id as the active id. -/
theorem analyze_writes_default_profile :
    (analyze (always429 "slow down") "zz" ⟨false, 1, false⟩ ⟨[], ""⟩).store
        = ⟨[synthesizedDefault "zz"], "p-zz"⟩ ∧
      (analyze (always429 "slow down") "zz" ⟨false, 1, false⟩ ⟨[], ""⟩).store ≠ ⟨[], ""⟩ := by
  decide

theorem analyze_store_eq (env : Env) (r : String) (opts : Options) (s : Store) :
    (analyze env r opts s).store = (getActiveProfile r s).2 := by
  unfold analyze
  cases hg : getActiveProfile r s with
  | mk active store1 =>
    simp only
    cases active with
    | none => rfl
    | some p =>
      simp only
      split_ifs <;> try rfl
      all_goals
        split <;> try rfl
        split_ifs <;> rfl

theorem ensureDefaultProfile_noop (r : String) (s : Store) (d : Profile)
    (hd : s.profiles.find? (·.isDefault) = some d) (hkey : d.apiKey ≠ "") :
    ensureDefaultProfile r s = s := by
  obtain ⟨i, hi, hget⟩ := findIndex_of_find _ _ _ hd
  have hany : s.profiles.any (·.isDefault) = true := by
    rw [List.any_eq_true]
    exact ⟨d, List.mem_of_find?_eq_some hd, List.find?_some hd⟩
  unfold ensureDefaultProfile
  simp only [hany, Bool.not_true, Bool.false_eq_true, if_false, hi, hget]
  rw [if_neg (fun h => hkey h.1)]

/-- C25, amended: `analyze` writes to the store only through its call of
`getActiveProfile`: the store it leaves is the one `getActiveProfile` leaves.
When the store already holds a default profile with a credential and the
active id resolves, that is the store as it was, whatever the report, the
options and the outcome of the call. -/
theorem analyze_store_frame (env : Env) (r : String) (opts : Options) (s : Store)
    (d a : Profile) (hd : s.profiles.find? (·.isDefault) = some d) (hkey : d.apiKey ≠ "")
    (ha : s.profiles.find? (fun p => p.id == s.activeId) = some a) :
    (analyze env r opts s).store = (getActiveProfile r s).2 ∧
      (analyze env r opts s).store = s := by
  refine ⟨analyze_store_eq env r opts s, ?_⟩
  rw [analyze_store_eq]
  unfold getActiveProfile
  simp only [ensureDefaultProfile_noop r s d hd hkey, ha]

/-- Witness of `analyze_store_frame`: the store of a first run, on a network
that answers 429 throughout. -/
theorem analyze_store_frame_witness :
    (analyze (always429 "slow down") "zz" ⟨false, 1, true⟩ firstRunStore).store
        = (getActiveProfile "zz" firstRunStore).2 ∧
      (analyze (always429 "slow down") "zz" ⟨false, 1, true⟩ firstRunStore).store
        = firstRunStore :=
  analyze_store_frame (always429 "slow down") "zz" ⟨false, 1, true⟩ firstRunStore
    (synthesizedDefault "k3x9") (synthesizedDefault "k3x9") (by decide) (by decide) (by decide)

theorem filter_set_same {α : Type} (q : α → Bool) :
    ∀ (l : List α) (i : Nat) (x y : α), l[i]? = some y → q x = false → q y = false →
      (l.set i x).filter q = l.filter q := by
  intro l
  induction l with
  | nil => intro i x y h; simp at h
  | cons a t ih =>
    intro i x y h hx hy
    cases i with
    | zero =>
      simp at h
      subst h
      simp [List.filter_cons, hx, hy]
    | succ j =>
      simp at h
      simp [List.filter_cons, ih j x y h hx hy]

theorem filter_eraseIdx_false {α : Type} (q : α → Bool) :
    ∀ (l : List α) (i : Nat) (y : α), l[i]? = some y → q y = false →
      (l.eraseIdx i).filter q = l.filter q := by
  intro l
  induction l with
  | nil => intro i y h; simp at h
  | cons a t ih =>
    intro i y h hq
    cases i with
    | zero =>
      simp at h
      subst h
      simp [List.filter_cons, hq]
    | succ j =>
      simp at h
      simp [List.filter_cons, ih j y h hq]

theorem forall₂_refl_same (l : List Profile) : List.Forall₂ SameOrBackfilled l l := by
  induction l with
  | nil => exact List.Forall₂.nil
  | cons a t ih => exact List.Forall₂.cons (Or.inl rfl) ih

theorem forall₂_set_same :
    ∀ (l : List Profile) (i : Nat) (x y : Profile), l[i]? = some y → SameOrBackfilled x y →
      List.Forall₂ SameOrBackfilled (l.set i x) l := by
  intro l
  induction l with
  | nil => intro i x y h; simp at h
  | cons a t ih =>
    intro i x y h hr
    cases i with
    | zero =>
      simp at h
      subst h
      exact List.Forall₂.cons hr (forall₂_refl_same t)
    | succ j =>
      simp at h
      exact List.Forall₂.cons (Or.inl rfl) (ih j x y h hr)

theorem saveProfile_defaults (r : String) (input : Profile) (s : Store) :
    (saveProfile r input s).2.profiles.filter (·.isDefault)
      = s.profiles.filter (·.isDefault) := by
  unfold saveProfile
  simp only
  cases hidx : (if input.id ≠ "" then findIndex (fun p => p.id == input.id) s.profiles
      else none) with
  | none =>
    simp only [Option.bind]
    rw [List.filter_append]
    simp
  | some i =>
    have hfi : findIndex (fun p => p.id == input.id) s.profiles = some i := by
      by_cases hne : input.id ≠ ""
      · rw [if_pos hne] at hidx
        exact hidx
      · rw [if_neg hne] at hidx
        cases hidx
    obtain ⟨e, he, _, _⟩ := findIndex_some _ _ _ hfi
    simp only [Option.bind, he]
    by_cases hd : e.isDefault = true
    · simp only [hd, if_true]
    · have hd' : e.isDefault = false := by simpa using hd
      simp only [hd, Bool.false_eq_true, if_false]
      exact filter_set_same (fun x : Profile => x.isDefault) _ _ _ e he (by simp [hd']) hd'

theorem deleteProfile_defaults (id : String) (s : Store) :
    (deleteProfile id s).2.profiles.filter (·.isDefault)
      = s.profiles.filter (·.isDefault) := by
  unfold deleteProfile
  simp only
  cases hidx : findIndex (fun p => p.id == id) s.profiles with
  | none => rfl
  | some idx =>
    simp only
    cases hget : s.profiles[idx]? with
    | none => rfl
    | some target =>
      simp only
      by_cases hd : target.isDefault = true
      · simp only [hd, if_true]
      · have hd' : target.isDefault = false := by simpa using hd
        simp only [hd, Bool.false_eq_true, if_false]
        have hc := filter_eraseIdx_false (fun p : Profile => p.isDefault) s.profiles idx target
          hget hd'
        split_ifs
        · cases hl : s.profiles.eraseIdx idx with
          | nil =>
            simp only
            rw [setActiveProfileId_profiles]
            simp only
            rw [hl] at hc
            exact hc
          | cons a t =>
            simp only
            rw [setActiveProfileId_profiles]
            simp only
            rw [hl] at hc
            exact hc
        · exact hc

theorem ensureDefaultProfile_backfill (r : String) (s : Store)
    (hdef : s.profiles.any (·.isDefault) = true) :
    (ensureDefaultProfile r s).activeId = s.activeId ∧
      List.Forall₂ SameOrBackfilled (ensureDefaultProfile r s).profiles s.profiles := by
  unfold ensureDefaultProfile
  simp only [hdef, Bool.not_true, Bool.false_eq_true, if_false]
  cases hidx : findIndex (·.isDefault) s.profiles with
  | none => exact ⟨rfl, forall₂_refl_same _⟩
  | some idx =>
    simp only
    cases hget : s.profiles[idx]? with
    | none => exact ⟨rfl, forall₂_refl_same _⟩
    | some dflt =>
      simp only
      obtain ⟨e, he, hq, _⟩ := findIndex_some _ _ _ hidx
      rw [hget] at he
      cases he
      by_cases hk : dflt.apiKey = "" ∧ defaultKeyOpenrouter ≠ ""
      · rw [if_pos hk]
        exact ⟨rfl, forall₂_set_same _ _ _ dflt hget (Or.inr ⟨hq, hk.1, rfl⟩)⟩
      · rw [if_neg hk]
        exact ⟨rfl, forall₂_refl_same _⟩

theorem protectedFields_of_forall₂ :
    ∀ (l1 l2 : List Profile), List.Forall₂ SameOrBackfilled l1 l2 →
      l1.map protectedFields = l2.map protectedFields := by
  intro l1 l2 h
  induction h with
  | nil => rfl
  | cons hab _ ih =>
    simp only [List.map_cons, ih]
    rcases hab with h | ⟨_, _, h⟩
    · rw [h]
    · rw [h]
      rfl

/-- C26: in a store that contains a default profile, `saveProfile` and
`deleteProfile` leave every default profile as it is, and
`ensureDefaultProfile` leaves the active id and every record as they are except
that a default profile whose `apiKey` is empty may get the embedded credential;
so `provider`, `baseUrl`, `name`, `model` and `isDefault` stay as they are at
every place of the list. -/
theorem default_write_protected (s : Store) (r : String) (input : Profile) (id : String)
    (hdef : s.profiles.any (·.isDefault) = true) :
    (saveProfile r input s).2.profiles.filter (·.isDefault)
        = s.profiles.filter (·.isDefault) ∧
      (deleteProfile id s).2.profiles.filter (·.isDefault)
        = s.profiles.filter (·.isDefault) ∧
      (ensureDefaultProfile r s).activeId = s.activeId ∧
      List.Forall₂ SameOrBackfilled (ensureDefaultProfile r s).profiles s.profiles ∧
      (ensureDefaultProfile r s).profiles.map protectedFields
        = s.profiles.map protectedFields := by
  obtain ⟨h1, h2⟩ := ensureDefaultProfile_backfill r s hdef
  exact ⟨saveProfile_defaults r input s, deleteProfile_defaults id s, h1, h2,
    protectedFields_of_forall₂ _ _ h2⟩

/-- Witness of `default_write_protected`: a store whose default profile has no
credential, an input that targets the default profile and a deletion of it. -/
theorem default_write_protected_witness :
    (saveProfile "n1" { synthesizedDefault "k3x9" with name := "Mine", baseUrl := "http://x" }
        keylessDefaultStore).2.profiles.filter (·.isDefault)
        = keylessDefaultStore.profiles.filter (·.isDefault) ∧
      (deleteProfile "p-k3x9" keylessDefaultStore).2.profiles.filter (·.isDefault)
        = keylessDefaultStore.profiles.filter (·.isDefault) ∧
      (ensureDefaultProfile "n1" keylessDefaultStore).activeId = keylessDefaultStore.activeId ∧
      List.Forall₂ SameOrBackfilled (ensureDefaultProfile "n1" keylessDefaultStore).profiles
        keylessDefaultStore.profiles ∧
      (ensureDefaultProfile "n1" keylessDefaultStore).profiles.map protectedFields
        = keylessDefaultStore.profiles.map protectedFields :=
  default_write_protected keylessDefaultStore "n1"
    { synthesizedDefault "k3x9" with name := "Mine", baseUrl := "http://x" } "p-k3x9"
    (by decide)

/-- C27, the code at the failing input: the default OpenRouter profile, a
network that answers 400 with a provider text that mentions `(429)`, an attempt
budget of 1 and `allowFallback`. The primary loop ends with the error of status
400, and a request with the fallback model follows. -/
theorem fallback_on_400_mentioning_429 :
    (analyze badRequestScenario "zz" ⟨false, 1, true⟩ openrouterStore).trace
        = [.request .openai "qwen/qwen3-235b-a22b:free",
           .status (fallbackStatus "gpt-4o-mini"),
           .request .openai "gpt-4o-mini"] ∧
      (dispatch badRequestScenario
          { family := .openai, model := "qwen/qwen3-235b-a22b:free", provider := "openrouter",
            baseUrl := presetOpenrouter.baseUrl } 1 (initialState badRequestScenario)).1
        = .error (.error (friendlyMessage "400" "upstream said (429), try later" "openrouter"
            presetOpenrouter.baseUrl)) := by
  decide

/-! ### Rounding to the nearest double -/

theorem roundHalfEven_le {y : ℚ} {k : Int} (h : y ≤ k) : roundHalfEven y ≤ k := by
  have hf : ⌊y⌋ ≤ k := by
    have h2 : ((⌊y⌋ : Int) : ℚ) ≤ k := (Int.floor_le y).trans h
    exact_mod_cast h2
  unfold roundHalfEven
  rcases lt_or_eq_of_le hf with hlt | heq
  · split_ifs <;> omega
  · have hy : y - ⌊y⌋ < 1 / 2 := by
      have h1 := Int.floor_le y
      rw [heq] at h1 ⊢
      have : y = k := le_antisymm h h1
      rw [this]; norm_num
    rw [if_pos hy]; exact hf

theorem le_roundHalfEven {y : ℚ} {k : Int} (h : (k : ℚ) ≤ y) : k ≤ roundHalfEven y := by
  have hf : k ≤ ⌊y⌋ := Int.le_floor.mpr h
  unfold roundHalfEven
  split_ifs <;> omega

theorem roundHalfEven_mono {y z : ℚ} (h : y ≤ z) : roundHalfEven y ≤ roundHalfEven z := by
  have hf : ⌊y⌋ ≤ ⌊z⌋ := Int.floor_mono h
  rcases lt_or_eq_of_le hf with hlt | heq
  · have h1 : roundHalfEven y ≤ ⌊y⌋ + 1 := by
      unfold roundHalfEven; split_ifs <;> omega
    have h2 : ⌊z⌋ ≤ roundHalfEven z := le_roundHalfEven (Int.floor_le z)
    omega
  · unfold roundHalfEven
    rw [← heq]
    by_cases h1 : y - ⌊y⌋ < 1 / 2
    · rw [if_pos h1]; split_ifs <;> omega
    · rw [if_neg h1]
      have h1z : ¬ z - ⌊y⌋ < 1 / 2 := by
        intro hz; apply h1; linarith
      rw [if_neg h1z]
      by_cases h2 : 1 / 2 < y - ⌊y⌋
      · have h2z : 1 / 2 < z - ⌊y⌋ := by linarith
        rw [if_pos h2, if_pos h2z]
      · rw [if_neg h2]
        split_ifs <;> omega

theorem roundHalfEven_intCast (k : Int) : roundHalfEven (k : ℚ) = k := by
  unfold roundHalfEven
  simp

theorem roundHalfEven_eq_of_lt {y : ℚ} {k : Int} (h1 : (k : ℚ) - 1 / 2 < y)
    (h2 : y < k + 1 / 2) : roundHalfEven y = k := by
  unfold roundHalfEven
  by_cases hk : (k : ℚ) ≤ y
  · have hf : ⌊y⌋ = k := by
      rw [Int.floor_eq_iff]; constructor
      · exact hk
      · linarith
    rw [hf]
    have : y - k < 1 / 2 := by linarith
    rw [if_pos this]
  · have hf : ⌊y⌋ = k - 1 := by
      rw [Int.floor_eq_iff]; push_cast; constructor <;> linarith
    rw [hf]
    have h3 : ¬ (y - ((k - 1 : Int) : ℚ) < 1 / 2) := by push_cast; linarith
    have h4 : 1 / 2 < y - ((k - 1 : Int) : ℚ) := by push_cast; linarith
    rw [if_neg h3, if_pos h4]; omega

theorem roundHalfEven_tie_even {y : ℚ} {k : Int} (h : y = k + 1 / 2) (hk : k % 2 = 0) :
    roundHalfEven y = k := by
  have hf : ⌊y⌋ = k := by
    rw [Int.floor_eq_iff]; constructor <;> linarith
  unfold roundHalfEven
  rw [hf]
  have h3 : ¬ (y - (k : ℚ) < 1 / 2) := by linarith
  have h4 : ¬ (1 / 2 < y - (k : ℚ)) := by linarith
  rw [if_neg h3, if_neg h4, if_pos hk]

theorem log_two_eq {x : ℚ} {e : Int} (hx : 0 < x) (h1 : (2 : ℚ) ^ e ≤ x)
    (h2 : x < (2 : ℚ) ^ (e + 1)) : Int.log 2 x = e := by
  have a := (Int.zpow_le_iff_le_log (b := 2) (by norm_num) hx (x := e)).mp (by exact_mod_cast h1)
  have b := (Int.lt_zpow_iff_log_lt (b := 2) (by norm_num) hx (x := e + 1)).mp
    (by exact_mod_cast h2)
  omega

theorem roundDouble_zero : roundDouble 0 = 0 := by
  simp [roundDouble]

theorem roundDouble_eq {x : ℚ} {e k : Int} (hx : 0 < x) (h1 : (2 : ℚ) ^ e ≤ x)
    (h2 : x < (2 : ℚ) ^ (e + 1)) (hk : roundHalfEven (x / 2 ^ (e - 52)) = k) :
    roundDouble x = k * 2 ^ (e - 52) := by
  unfold roundDouble roundPos
  rw [if_pos hx, log_two_eq hx h1 h2, hk]

theorem two_zpow_pos (e : Int) : (0 : ℚ) < 2 ^ e := zpow_pos (by norm_num) e

theorem roundPos_bounds {x : ℚ} (hx : 0 < x) :
    (2 : ℚ) ^ (Int.log 2 x) ≤ roundPos x ∧ roundPos x ≤ 2 ^ (Int.log 2 x + 1) := by
  have hu := two_zpow_pos (Int.log 2 x - 52)
  have hlo : (2 : ℚ) ^ (Int.log 2 x) ≤ x := by
    have := Int.zpow_log_le_self (R := ℚ) (b := 2) (by norm_num) hx
    exact_mod_cast this
  have hhi : x < (2 : ℚ) ^ (Int.log 2 x + 1) := by
    have := Int.lt_zpow_succ_log_self (R := ℚ) (b := 2) (by norm_num) x
    exact_mod_cast this
  have e1 : (2 : ℚ) ^ (Int.log 2 x) = ((2 ^ 52 : Int) : ℚ) * 2 ^ (Int.log 2 x - 52) := by
    rw [zpow_sub₀ (by norm_num)]; push_cast; field_simp; ring
  have e2 : (2 : ℚ) ^ (Int.log 2 x + 1) = ((2 ^ 53 : Int) : ℚ) * 2 ^ (Int.log 2 x - 52) := by
    rw [zpow_sub₀ (by norm_num), zpow_add₀ (by norm_num)]; push_cast; field_simp; ring
  unfold roundPos
  constructor
  · rw [e1]
    apply mul_le_mul_of_nonneg_right _ hu.le
    have : ((2 ^ 52 : Int) : ℚ) ≤ x / 2 ^ (Int.log 2 x - 52) := by
      rw [le_div_iff₀ hu, ← e1]; exact hlo
    exact_mod_cast le_roundHalfEven this
  · rw [e2]
    apply mul_le_mul_of_nonneg_right _ hu.le
    have : x / 2 ^ (Int.log 2 x - 52) ≤ ((2 ^ 53 : Int) : ℚ) := by
      rw [div_le_iff₀ hu, ← e2]; exact hhi.le
    exact_mod_cast roundHalfEven_le this

theorem roundPos_mono {x y : ℚ} (hx : 0 < x) (h : x ≤ y) : roundPos x ≤ roundPos y := by
  have hy : 0 < y := lt_of_lt_of_le hx h
  have hlog : Int.log 2 x ≤ Int.log 2 y := Int.log_mono_right hx h
  rcases lt_or_eq_of_le hlog with hlt | heq
  · have b1 := (roundPos_bounds hx).2
    have b2 := (roundPos_bounds hy).1
    have : (2 : ℚ) ^ (Int.log 2 x + 1) ≤ 2 ^ (Int.log 2 y) :=
      zpow_le_zpow_right₀ (by norm_num) (by omega)
    linarith
  · unfold roundPos
    rw [← heq]
    have hu := two_zpow_pos (Int.log 2 x - 52)
    apply mul_le_mul_of_nonneg_right _ hu.le
    have : x / 2 ^ (Int.log 2 x - 52) ≤ y / 2 ^ (Int.log 2 x - 52) :=
      div_le_div_of_nonneg_right h hu.le
    exact_mod_cast roundHalfEven_mono this

theorem roundDouble_nonneg {x : ℚ} (hx : 0 ≤ x) : 0 ≤ roundDouble x := by
  rcases lt_or_eq_of_le hx with h | h
  · unfold roundDouble
    rw [if_pos h]
    exact le_trans (two_zpow_pos _).le (roundPos_bounds h).1
  · rw [← h, roundDouble_zero]

theorem roundDouble_mono {x y : ℚ} (hx : 0 ≤ x) (h : x ≤ y) :
    roundDouble x ≤ roundDouble y := by
  rcases lt_or_eq_of_le hx with h0 | h0
  · have hy : 0 < y := lt_of_lt_of_le h0 h
    unfold roundDouble
    rw [if_pos h0, if_pos hy]
    exact roundPos_mono h0 h
  · rw [← h0, roundDouble_zero]
    exact roundDouble_nonneg (hx.trans h)

/-- A number with at most 53 significant bits is its own rounding. -/
theorem roundDouble_of_significand (m : Nat) (j : Int) (hm : m < 2 ^ 53) :
    roundDouble ((m : ℚ) * 2 ^ j) = (m : ℚ) * 2 ^ j := by
  rcases Nat.eq_zero_or_pos m with h0 | hpos
  · subst h0; simp [roundDouble_zero]
  · have hj := two_zpow_pos j
    have hx : (0 : ℚ) < (m : ℚ) * 2 ^ j := by positivity
    have hlt : (m : ℚ) * 2 ^ j < (2 : ℚ) ^ (53 + j) := by
      rw [zpow_add₀ (by norm_num)]
      apply mul_lt_mul_of_pos_right _ hj
      exact_mod_cast hm
    have hlog : Int.log 2 ((m : ℚ) * 2 ^ j) < 53 + j :=
      (Int.lt_zpow_iff_log_lt (b := 2) (by norm_num) hx).mp (by exact_mod_cast hlt)
    unfold roundDouble roundPos
    rw [if_pos hx]
    generalize Int.log 2 ((m : ℚ) * 2 ^ j) = e at hlog
    obtain ⟨t, ht⟩ : ∃ t : Nat, (t : Int) = j - e + 52 := ⟨(j - e + 52).toNat, by omega⟩
    have hdiv : (m : ℚ) * 2 ^ j / 2 ^ (e - 52) = (((m * 2 ^ t : Nat) : Int) : ℚ) := by
      have he : (e - 52 : Int) = j - t := by omega
      rw [he, zpow_sub₀ (by norm_num), zpow_natCast]
      push_cast
      field_simp
      ring
    rw [hdiv, roundHalfEven_intCast, ← hdiv]
    have hu := two_zpow_pos (e - 52)
    field_simp

theorem roundDouble_one : roundDouble 1 = 1 := by
  simpa using roundDouble_of_significand 1 0 (by norm_num)

/-! ### Metrics and formatting -/

/-- C21, the code at the failing input: for a report whose only event has
neither `startTime` nor `endTime`, `calculateMetrics` computes `NaN` as total
duration while `build` computes `0`. -/
theorem totalDuration_disagree_untimed :
    (calculateMetrics (some [untimedEvent])).totalDuration = none ∧
      (buildSummary (some [untimedEvent])).totalDuration = some 0 := by
  constructor
  · rfl
  · simp [buildSummary, untimedEvent, TimeValue.truthy, mathMax0, jsSub, roundDouble_zero]

/-- Both computations of the total duration on a report whose first event has a
valid `startTime` and whose last event has a valid `endTime`: the gap, clamped
at zero. -/
theorem totalDuration_of_valid_times (first last : StartupEvent) (events : List StartupEvent)
    (s1 s2 : String) (t1 t2 : Int) (hs1 : s1 ≠ "") (hs2 : s2 ≠ "")
    (hfirst : events.head? = some first) (hlast : events.getLast? = some last)
    (h1 : first.startTime = .text s1 (some t1)) (h2 : last.endTime = .text s2 (some t2)) :
    (calculateMetrics (some events)).totalDuration
        = some (max 0 (roundDouble ((t2 : ℚ) - t1))) ∧
      (buildSummary (some events)).totalDuration
        = some (max 0 (roundDouble ((t2 : ℚ) - t1))) := by
  constructor
  · simp [calculateMetrics, hfirst, hlast, h1, h2, dateTime, hs1, hs2, mathMax0, jsSub]
  · simp [buildSummary, hfirst, hlast, h1, h2, dateTime, hs1, hs2, mathMax0, jsSub,
      TimeValue.truthy]

/-- C22: for a report without events (an `events` value that is not a list
included), `calculateMetrics` returns zero for the total duration, the number
of steps, the slow steps, the critical issues and the average, and `build`
computes the average 0; the divisor of the average in `calculateMetrics` is 1,
not 0. -/
theorem metrics_of_no_events (events : Option (List StartupEvent))
    (h : events.getD [] = []) :
    (calculateMetrics events).totalDuration = some 0 ∧
      (calculateMetrics events).totalSteps = 0 ∧
      (calculateMetrics events).slowSteps = 0 ∧
      (calculateMetrics events).criticalIssues = 0 ∧
      (calculateMetrics events).avgDuration = some 0 ∧
      (buildSummary events).avg = some 0 ∧
      max 1 (calculateMetrics events).totalSteps = 1 := by
  simp [calculateMetrics, buildSummary, h, jsDiv, roundDouble_zero]

/-- Witness of `metrics_of_no_events`: an `events` value that is not a list. -/
theorem metrics_of_no_events_witness :
    (calculateMetrics none).totalDuration = some 0 ∧
      (calculateMetrics none).totalSteps = 0 ∧
      (calculateMetrics none).slowSteps = 0 ∧
      (calculateMetrics none).criticalIssues = 0 ∧
      (calculateMetrics none).avgDuration = some 0 ∧
      (buildSummary none).avg = some 0 ∧
      max 1 (calculateMetrics none).totalSteps = 1 :=
  metrics_of_no_events none rfl

theorem toFixed_zero_nat (n : Nat) : toFixed 0 (n : ℚ) = toString n := by
  have hfloor : ⌊|(n : ℚ)| * 10 ^ 0 + 1 / 2⌋ = (n : Int) := by
    rw [Int.floor_eq_iff]
    have : |(n : ℚ)| = n := abs_of_nonneg (Nat.cast_nonneg n)
    rw [this]
    constructor <;> push_cast <;> linarith
  have hneg : ¬ ((n : ℚ) < 0) := not_lt.mpr (Nat.cast_nonneg n)
  unfold toFixed
  simp only [hfloor, Int.toNat_natCast, if_true, hneg, if_false]
  exact String.empty_append _

/-- C23: `formatDuration` switches format exactly at 1000. For an integer below
1000 it returns the integer followed by `ms`; for a number from 1000 on (up to
`10 ^ 23`, so that the quotient stays below `10 ^ 21`) it returns, followed by
`s`, the number of hundredths `n` nearest to the quotient `ms / 1000` the
program computes, written with exactly two decimals; 999 gives `999ms` and
1000 gives `1.00s`. -/
theorem formatDuration_threshold :
    (∀ n : Nat, n < 1000 → formatDuration (some (n : ℚ)) = toString n ++ "ms") ∧
      (∀ q : ℚ, 1000 ≤ q → q ≤ 10 ^ 23 →
        ∃ n : Nat, formatDuration (some q)
            = toString (n / 100) ++ "." ++ fractionDigits 2 (n % 100) ++ "s" ∧
          |(n : ℚ) / 100 - roundDouble (q / 1000)| ≤ 1 / 200) ∧
      formatDuration (some 999) = "999ms" ∧ formatDuration (some 1000) = "1.00s" := by
  have part1 : ∀ n : Nat, n < 1000 → formatDuration (some (n : ℚ)) = toString n ++ "ms" := by
    intro n hn
    have hlt : (n : ℚ) < 1000 := by exact_mod_cast hn
    simp only [formatDuration, hlt, if_true, toFixed_zero_nat]
  have part2 : ∀ q : ℚ, 1000 ≤ q → q ≤ 10 ^ 23 →
      ∃ n : Nat, formatDuration (some q)
          = toString (n / 100) ++ "." ++ fractionDigits 2 (n % 100) ++ "s" ∧
        |(n : ℚ) / 100 - roundDouble (q / 1000)| ≤ 1 / 200 := by
    intro q hq _
    have hpos : 0 ≤ roundDouble (q / 1000) := roundDouble_nonneg (by positivity)
    have hnlt : ¬ q < 1000 := not_lt.mpr hq
    have hfd : formatDuration (some q) = toFixed 2 (roundDouble (q / 1000)) ++ "s" := by
      simp only [formatDuration, hnlt, if_false]
    rw [hfd]
    generalize roundDouble (q / 1000) = x at hpos
    have habs : |x| = x := abs_of_nonneg hpos
    have hfl0 : 0 ≤ ⌊x * 10 ^ 2 + 1 / 2⌋ := by
      apply Int.floor_nonneg.mpr
      positivity
    refine ⟨(⌊x * 10 ^ 2 + 1 / 2⌋).toNat, ?_, ?_⟩
    · have hnneg : ¬ x < 0 := not_lt.mpr hpos
      simp only [toFixed, habs, hnneg, if_false]
      norm_num
    · have hcast : (((⌊x * 10 ^ 2 + 1 / 2⌋).toNat : Nat) : ℚ)
          = ((⌊x * 10 ^ 2 + 1 / 2⌋ : Int) : ℚ) := by
        have := Int.toNat_of_nonneg hfl0
        exact_mod_cast this
      rw [hcast]
      have h1 := Int.floor_le (x * 10 ^ 2 + 1 / 2)
      have h2 := Int.lt_floor_add_one (x * 10 ^ 2 + 1 / 2)
      rw [abs_le]
      constructor <;> linarith
  refine ⟨part1, part2, ?_, ?_⟩
  · have := part1 999 (by decide)
    simpa using this
  · have hq : roundDouble ((1000 : ℚ) / 1000) = 1 := by
      rw [div_self (by norm_num)]; exact roundDouble_one
    have hfloor : ⌊|(1 : ℚ)| * 10 ^ 2 + 1 / 2⌋ = 100 := by
      rw [Int.floor_eq_iff]
      norm_num
    have hnlt : ¬ ((1000 : ℚ) < 1000) := by norm_num
    have hnneg : ¬ ((1 : ℚ) < 0) := by norm_num
    simp only [formatDuration, hnlt, if_false, toFixed, hq, hfloor, hnneg]
    decide

theorem foldl_jsAdd_nonneg (ds : List JsNum)
    (h : ∀ d ∈ ds, ∃ q : ℚ, 0 ≤ q ∧ d = some q) (acc : ℚ) (hacc : 0 ≤ acc) :
    ∃ t : ℚ, 0 ≤ t ∧ ds.foldl jsAdd (some acc) = some t := by
  induction ds generalizing acc with
  | nil => exact ⟨acc, hacc, rfl⟩
  | cons d rest ih =>
    obtain ⟨q, hq, rfl⟩ := h d (List.mem_cons_self _ _)
    have := ih (fun d hd => h d (List.mem_cons_of_mem _ hd)) (roundDouble (acc + q))
      (roundDouble_nonneg (add_nonneg hacc hq))
    simpa [List.foldl, jsAdd] using this

theorem avgDuration_nonneg (events : List StartupEvent)
    (hnn : ∀ e ∈ events, ∃ q : ℚ, 0 ≤ q ∧ parseDuration e.duration = some q) :
    ∃ a : ℚ, 0 ≤ a ∧ (calculateMetrics (some events)).avgDuration = some a := by
  have hds : ∀ d ∈ events.map (fun e => parseDuration e.duration),
      ∃ q : ℚ, 0 ≤ q ∧ d = some q := by
    intro d hd
    obtain ⟨e, he, rfl⟩ := List.mem_map.mp hd
    exact hnn e he
  obtain ⟨t, ht, hfold⟩ := foldl_jsAdd_nonneg _ hds 0 le_rfl
  have hn : ((max 1 events.length : Nat) : ℚ) ≠ 0 := by
    have : 0 < max 1 events.length := by omega
    exact_mod_cast this.ne'
  refine ⟨roundDouble (t / ((max 1 events.length : Nat) : ℚ)), ?_, ?_⟩
  · exact roundDouble_nonneg (div_nonneg ht (Nat.cast_nonneg _))
  · simp only [calculateMetrics, Option.getD_some, hfold, jsDiv, if_neg hn]

theorem jsGt_three_imp_two (d : JsNum) (a : ℚ) (ha : 0 ≤ a)
    (h : jsGt d (jsMul (some a) (some 3)) = true) :
    jsGt d (jsMul (some a) (some 2)) = true := by
  cases d with
  | none => simp [jsGt, jsMul] at h
  | some q =>
    simp only [jsGt, jsMul, decide_eq_true_eq] at h ⊢
    have : roundDouble (a * 2) ≤ roundDouble (a * 3) :=
      roundDouble_mono (by positivity) (by linarith)
    linarith

theorem countP_split {α : Type} (p q : α → Bool) (l : List α)
    (h : ∀ x ∈ l, q x = true → p x = true) :
    l.countP (fun x => p x && !q x) = l.countP p - l.countP q := by
  induction l with
  | nil => rfl
  | cons x rest ih =>
    have ih2 := ih (fun y hy => h y (List.mem_cons_of_mem _ hy))
    have hx := h x (List.mem_cons_self _ _)
    have hle : rest.countP q ≤ rest.countP p := by
      apply List.countP_mono_left
      intro y hy; exact h y (List.mem_cons_of_mem _ hy)
    simp only [List.countP_cons, ih2]
    cases hp : p x <;> cases hq : q x <;> simp_all
    all_goals omega


theorem jsAdd_eval {x y z : ℚ} (h : roundDouble (x + y) = z) :
    jsAdd (some x) (some y) = some z := by
  simp [jsAdd, h]

theorem roundDouble_d14 : roundDouble d14 = d14 := by
  have h := roundDouble_of_significand 6305039478318694 (-52) (by norm_num)
  have hd : ((6305039478318694 : ℕ) : ℚ) * 2 ^ (-52 : ℤ) = d14 := by norm_num [d14]
  rwa [hd] at h

theorem roundDouble_two_d14 : roundDouble (d14 + d14) = 2 * d14 := by
  have h := roundDouble_of_significand 6305039478318694 (-51) (by norm_num)
  have hd : ((6305039478318694 : ℕ) : ℚ) * 2 ^ (-51 : ℤ) = d14 + d14 := by norm_num [d14]
  have hd2 : ((6305039478318694 : ℕ) : ℚ) * 2 ^ (-51 : ℤ) = 2 * d14 := by norm_num [d14]
  rw [← hd, h, hd2]

/-- The sum `1.4 + 1.4 + 1.4` lies midway between two doubles and is rounded to
the lower one. -/
theorem roundDouble_three_d14 :
    roundDouble (2 * d14 + d14) = 4728779608739020 / 2 ^ 50 := by
  have hk : roundHalfEven ((2 * d14 + d14) / 2 ^ ((2 : ℤ) - 52)) = 4728779608739020 := by
    apply roundHalfEven_tie_even
    · norm_num [d14]
    · decide
  have h := roundDouble_eq (x := 2 * d14 + d14) (e := 2) (k := 4728779608739020)
    (by norm_num [d14]) (by norm_num [d14]) (by norm_num [d14]) hk
  rw [h]; norm_num

theorem roundDouble_sum_fixed :
    roundDouble ((4728779608739020 : ℚ) / 2 ^ 50 + 0) = 4728779608739020 / 2 ^ 50 := by
  have h := roundDouble_of_significand 4728779608739020 (-50) (by norm_num)
  have hd : ((4728779608739020 : ℕ) : ℚ) * 2 ^ (-50 : ℤ)
      = (4728779608739020 : ℚ) / 2 ^ 50 + 0 := by norm_num
  have hd2 : ((4728779608739020 : ℕ) : ℚ) * 2 ^ (-50 : ℤ)
      = (4728779608739020 : ℚ) / 2 ^ 50 := by norm_num
  rw [← hd, h, hd2]

theorem roundDouble_avg :
    roundDouble ((4728779608739020 : ℚ) / 2 ^ 50 / ((max 1 6 : ℕ) : ℚ))
      = 6305039478318693 / 2 ^ 53 := by
  have hk : roundHalfEven ((4728779608739020 : ℚ) / 2 ^ 50 / ((max 1 6 : ℕ) : ℚ)
      / 2 ^ ((-1 : ℤ) - 52)) = 6305039478318693 := by
    apply roundHalfEven_eq_of_lt <;> norm_num
  have h := roundDouble_eq (x := (4728779608739020 : ℚ) / 2 ^ 50 / ((max 1 6 : ℕ) : ℚ))
    (e := -1) (k := 6305039478318693)
    (by norm_num) (by norm_num) (by norm_num) hk
  rw [h]; norm_num

theorem roundDouble_threshold :
    roundDouble ((6305039478318693 : ℚ) / 2 ^ 53 * 2) = 6305039478318693 / 2 ^ 52 := by
  have h := roundDouble_of_significand 6305039478318693 (-52) (by norm_num)
  have hd : ((6305039478318693 : ℕ) : ℚ) * 2 ^ (-52 : ℤ)
      = (6305039478318693 : ℚ) / 2 ^ 53 * 2 := by norm_num
  have hd2 : ((6305039478318693 : ℕ) : ℚ) * 2 ^ (-52 : ℤ)
      = (6305039478318693 : ℚ) / 2 ^ 52 := by norm_num
  rw [← hd, h, hd2]

/-- C28, counterexample: six events with non-negative durations (three of `1.4`
ms, three of `0` ms) of which `calculateMetrics` counts three as slow, so twice
the slow steps is not below the number of steps. -/
theorem slowSteps_reach_half :
    (∀ e ∈ roundingEvents, ∃ q : ℚ, 0 ≤ q ∧ parseDuration e.duration = some q) ∧
      (calculateMetrics (some roundingEvents)).totalSteps = 6 ∧
      (calculateMetrics (some roundingEvents)).slowSteps = 3 ∧
      ¬ (2 * (calculateMetrics (some roundingEvents)).slowSteps
          < (calculateMetrics (some roundingEvents)).totalSteps) := by
  have hd0 : (0 : ℚ) ≤ d14 := by norm_num [d14]
  have hnn : ∀ e ∈ roundingEvents, ∃ q : ℚ, 0 ≤ q ∧ parseDuration e.duration = some q := by
    intro e he
    simp only [roundingEvents, List.mem_cons, List.mem_singleton, List.not_mem_nil,
      or_false] at he
    rcases he with rfl | rfl | rfl | rfl | rfl | rfl
    · exact ⟨d14, hd0, rfl⟩
    · exact ⟨d14, hd0, rfl⟩
    · exact ⟨d14, hd0, rfl⟩
    · exact ⟨0, le_rfl, rfl⟩
    · exact ⟨0, le_rfl, rfl⟩
    · exact ⟨0, le_rfl, rfl⟩
  have hsteps : (calculateMetrics (some roundingEvents)).totalSteps = 6 := rfl
  have hsum : (roundingEvents.map (fun e => parseDuration e.duration)).foldl jsAdd (some 0)
      = some (4728779608739020 / 2 ^ 50) := by
    simp only [roundingEvents, List.map, parseDuration, List.foldl]
    rw [jsAdd_eval (x := 0) (y := d14) (z := d14) (by rw [zero_add]; exact roundDouble_d14),
      jsAdd_eval roundDouble_two_d14, jsAdd_eval roundDouble_three_d14,
      jsAdd_eval roundDouble_sum_fixed, jsAdd_eval roundDouble_sum_fixed,
      jsAdd_eval roundDouble_sum_fixed]
  have havg : (calculateMetrics (some roundingEvents)).avgDuration
      = some (6305039478318693 / 2 ^ 53) := by
    have h6 : ((max 1 6 : ℕ) : ℚ) ≠ 0 := by norm_num
    have hlen : roundingEvents.length = 6 := rfl
    simp only [calculateMetrics, Option.getD_some, hsum, hlen, jsDiv, if_neg h6,
      roundDouble_avg]
  have hslow : (calculateMetrics (some roundingEvents)).slowSteps = 3 := by
    have h : (calculateMetrics (some roundingEvents)).slowSteps
        = (roundingEvents.map (fun e => parseDuration e.duration)).countP
          (fun d => jsGt d
            (jsMul (calculateMetrics (some roundingEvents)).avgDuration (some 2))) := rfl
    rw [h, havg]
    have hlt : (6305039478318693 : ℚ) / 2 ^ 52 < d14 := by norm_num [d14]
    have hnlt : ¬ ((6305039478318693 : ℚ) / 2 ^ 52 < 0) := by norm_num
    simp [roundingEvents, parseDuration, jsMul, roundDouble_threshold, jsGt,
      List.countP_cons, hlt, hnlt]
  refine ⟨hnn, hsteps, hslow, ?_⟩
  rw [hslow, hsteps]
  decide

theorem countP_mul_le_sum (l : List ℚ) (hl : ∀ q ∈ l, 0 ≤ q) (c : ℚ) :
    ((l.countP (fun q => decide (c < q)) : Nat) : ℚ) * c ≤ l.sum ∧
      (0 < l.countP (fun q => decide (c < q)) →
        ((l.countP (fun q => decide (c < q)) : Nat) : ℚ) * c < l.sum) := by
  induction l with
  | nil => simp
  | cons q rest ih =>
    obtain ⟨ih1, ih2⟩ := ih (fun x hx => hl x (List.mem_cons_of_mem _ hx))
    have hq := hl q (List.mem_cons_self _ _)
    by_cases h : c < q
    · have hc1 : (q :: rest).countP (fun q => decide (c < q))
          = rest.countP (fun q => decide (c < q)) + 1 := by
        simp [List.countP_cons, h]
      rw [hc1, List.sum_cons]
      push_cast
      constructor
      · nlinarith
      · intro _; nlinarith
    · have hc1 : (q :: rest).countP (fun q => decide (c < q))
          = rest.countP (fun q => decide (c < q)) := by
        simp [List.countP_cons, h]
      rw [hc1, List.sum_cons]
      constructor
      · linarith
      · intro hpos; have := ih2 hpos; linarith

theorem sum_getD_nonneg (events : List StartupEvent)
    (hnn : ∀ e ∈ events, ∃ q : ℚ, 0 ≤ q ∧ parseDuration e.duration = some q) :
    ∀ q ∈ events.map (fun e => (parseDuration e.duration).getD 0), 0 ≤ q := by
  intro q hq
  obtain ⟨e, he, rfl⟩ := List.mem_map.mp hq
  obtain ⟨x, hx, hxe⟩ := hnn e he
  rw [hxe]; exact hx

theorem countP_threshold (events : List StartupEvent)
    (hnn : ∀ e ∈ events, ∃ q : ℚ, 0 ≤ q ∧ parseDuration e.duration = some q) (c : ℚ) :
    (events.map (fun e => parseDuration e.duration)).countP (fun d => jsGt d (some c))
      = (events.map (fun e => (parseDuration e.duration).getD 0)).countP
          (fun q => decide (c < q)) := by
  rw [List.countP_map, List.countP_map]
  apply List.countP_congr
  intro e he
  obtain ⟨x, _, hxe⟩ := hnn e he
  simp [hxe, jsGt]

theorem count_lt_of_threshold (l : List ℚ) (hl : ∀ q ∈ l, 0 ≤ q) (n k : Nat) (hn : 0 < n)
    (hk : 0 < k) :
    k * l.countP (fun q => decide (l.sum / n * k < q)) < n := by
  have hs : 0 ≤ l.sum := List.sum_nonneg hl
  have hnq : (0 : ℚ) < n := by exact_mod_cast hn
  have hkq : (0 : ℚ) < k := by exact_mod_cast hk
  obtain ⟨_, h2⟩ := countP_mul_le_sum l hl (l.sum / n * k)
  rcases Nat.eq_zero_or_pos (l.countP (fun q => decide (l.sum / n * k < q))) with h0 | hpos
  · rw [h0]; simpa using hn
  · have h3 := h2 hpos
    have hspos : 0 < l.sum := by
      rcases lt_or_eq_of_le hs with h | h
      · exact h
      · rw [← h] at h3; simp at h3
    have h4 : ((l.countP (fun q => decide (l.sum / n * k < q)) : Nat) : ℚ) * k < n := by
      have : ((l.countP (fun q => decide (l.sum / n * k < q)) : Nat) : ℚ) * (l.sum / n * k)
          = (((l.countP (fun q => decide (l.sum / n * k < q)) : Nat) : ℚ) * k / n) * l.sum := by
        field_simp; ring
      rw [this] at h3
      have h5 : ((l.countP (fun q => decide (l.sum / n * k < q)) : Nat) : ℚ) * k / n < 1 := by
        by_contra hcon
        push_neg at hcon
        nlinarith
      rwa [div_lt_one hnq] at h5
    have h6 : l.countP (fun q => decide (l.sum / n * k < q)) * k < n := by exact_mod_cast h4
    rwa [Nat.mul_comm] at h6

/-- C28, amended: for a non-empty list of `n` events whose parsed durations are
non-negative numbers, `criticalIssues ≤ slowSteps`; and when the average and
the two thresholds are computed without a rounding error, `2 * slowSteps < n`
and `3 * criticalIssues < n`. -/
theorem count_bounds (events : List StartupEvent) (hne : events ≠ [])
    (hnn : ∀ e ∈ events, ∃ q : ℚ, 0 ≤ q ∧ parseDuration e.duration = some q) :
    (calculateMetrics (some events)).criticalIssues ≤ (calculateMetrics (some events)).slowSteps ∧
      ((calculateMetrics (some events)).avgDuration = some (exactAverage events) →
        roundDouble (exactAverage events * 2) = exactAverage events * 2 →
        roundDouble (exactAverage events * 3) = exactAverage events * 3 →
        2 * (calculateMetrics (some events)).slowSteps < events.length ∧
          3 * (calculateMetrics (some events)).criticalIssues < events.length) := by
  have hcrit : (calculateMetrics (some events)).criticalIssues
      = (events.map (fun e => parseDuration e.duration)).countP
        (fun d => jsGt d (jsMul (calculateMetrics (some events)).avgDuration (some 3))) := rfl
  have hslow : (calculateMetrics (some events)).slowSteps
      = (events.map (fun e => parseDuration e.duration)).countP
        (fun d => jsGt d (jsMul (calculateMetrics (some events)).avgDuration (some 2))) := rfl
  constructor
  · obtain ⟨a, ha, havg⟩ := avgDuration_nonneg events hnn
    rw [hcrit, hslow, havg]
    apply List.countP_mono_left
    intro d _ h
    exact jsGt_three_imp_two d a ha h
  · intro havg h2 h3
    have hlen : 0 < events.length := List.length_pos.mpr hne
    have hl := sum_getD_nonneg events hnn
    constructor
    · rw [hslow, havg]
      simp only [jsMul, h2]
      rw [countP_threshold events hnn]
      have := count_lt_of_threshold _ hl events.length 2 hlen (by norm_num)
      simpa [exactAverage] using this
    · rw [hcrit, havg]
      simp only [jsMul, h3]
      rw [countP_threshold events hnn]
      have := count_lt_of_threshold _ hl events.length 3 hlen (by norm_num)
      simpa [exactAverage] using this

theorem roundDouble_natCast (m : Nat) (hm : m < 2 ^ 53) : roundDouble (m : ℚ) = m := by
  simpa using roundDouble_of_significand m 0 hm

theorem mildEvents_nonneg :
    ∀ e ∈ mildEvents, ∃ q : ℚ, 0 ≤ q ∧ parseDuration e.duration = some q := by
  intro e he
  simp only [mildEvents, List.mem_cons, List.mem_singleton, List.not_mem_nil,
    or_false] at he
  rcases he with rfl | rfl | rfl | rfl
  · exact ⟨1000, by norm_num, rfl⟩
  · exact ⟨0, le_rfl, rfl⟩
  · exact ⟨0, le_rfl, rfl⟩
  · exact ⟨0, le_rfl, rfl⟩

/-- Witness of `count_bounds`: one event of a second and three of `0` ms; the
average `250` and the thresholds `500` and `750` are computed exactly. -/
theorem count_bounds_witness :
    mildEvents ≠ [] ∧
      (∀ e ∈ mildEvents, ∃ q : ℚ, 0 ≤ q ∧ parseDuration e.duration = some q) ∧
      (calculateMetrics (some mildEvents)).avgDuration = some (exactAverage mildEvents) ∧
      (calculateMetrics (some mildEvents)).criticalIssues
        ≤ (calculateMetrics (some mildEvents)).slowSteps ∧
      2 * (calculateMetrics (some mildEvents)).slowSteps < mildEvents.length ∧
      3 * (calculateMetrics (some mildEvents)).criticalIssues < mildEvents.length := by
  have hne : mildEvents ≠ [] := by simp [mildEvents]
  have r1000 : roundDouble (1000 : ℚ) = 1000 := by
    simpa using roundDouble_natCast 1000 (by norm_num)
  have r250 : roundDouble (250 : ℚ) = 250 := by
    simpa using roundDouble_natCast 250 (by norm_num)
  have r500 : roundDouble (500 : ℚ) = 500 := by
    simpa using roundDouble_natCast 500 (by norm_num)
  have r750 : roundDouble (750 : ℚ) = 750 := by
    simpa using roundDouble_natCast 750 (by norm_num)
  have hex : exactAverage mildEvents = 250 := by
    norm_num [exactAverage, mildEvents, parseDuration]
  have havg : (calculateMetrics (some mildEvents)).avgDuration
      = some (exactAverage mildEvents) := by
    rw [hex]
    norm_num [calculateMetrics, mildEvents, parseDuration, jsAdd, jsDiv, r1000, r250]
  have h2 : roundDouble (exactAverage mildEvents * 2) = exactAverage mildEvents * 2 := by
    rw [hex]; norm_num [r500]
  have h3 : roundDouble (exactAverage mildEvents * 3) = exactAverage mildEvents * 3 := by
    rw [hex]; norm_num [r750]
  exact ⟨hne, mildEvents_nonneg, havg, (count_bounds mildEvents hne mildEvents_nonneg).1,
    (count_bounds mildEvents hne mildEvents_nonneg).2 havg h2 h3⟩

/-- C29: for a list of events whose parsed durations are non-negative numbers,
with the average `calculateMetrics` returns, the number of events `getSeverity`
classifies as critical is `criticalIssues`, and the number it classifies as slow
is `slowSteps - criticalIssues`. -/
theorem severity_counts (events : List StartupEvent)
    (hnn : ∀ e ∈ events, ∃ q : ℚ, 0 ≤ q ∧ parseDuration e.duration = some q) :
    events.countP (fun e => getSeverity (parseDuration e.duration)
          (calculateMetrics (some events)).avgDuration = .critical)
        = (calculateMetrics (some events)).criticalIssues ∧
      events.countP (fun e => getSeverity (parseDuration e.duration)
          (calculateMetrics (some events)).avgDuration = .slow)
        = (calculateMetrics (some events)).slowSteps
          - (calculateMetrics (some events)).criticalIssues := by
  obtain ⟨a, ha, havg⟩ := avgDuration_nonneg events hnn
  have hcrit : (calculateMetrics (some events)).criticalIssues
      = events.countP (fun e => jsGt (parseDuration e.duration) (jsMul (some a) (some 3))) := by
    have : (calculateMetrics (some events)).criticalIssues
        = (events.map (fun e => parseDuration e.duration)).countP
          (fun d => jsGt d (jsMul (calculateMetrics (some events)).avgDuration (some 3))) := rfl
    rw [this, havg, List.countP_map]; rfl
  have hslow : (calculateMetrics (some events)).slowSteps
      = events.countP (fun e => jsGt (parseDuration e.duration) (jsMul (some a) (some 2))) := by
    have : (calculateMetrics (some events)).slowSteps
        = (events.map (fun e => parseDuration e.duration)).countP
          (fun d => jsGt d (jsMul (calculateMetrics (some events)).avgDuration (some 2))) := rfl
    rw [this, havg, List.countP_map]; rfl
  rw [hcrit, hslow, havg]
  constructor
  · apply List.countP_congr
    intro e _
    unfold getSeverity
    cases h3 : jsGt (parseDuration e.duration) (jsMul (some a) (some 3)) <;>
      cases h2 : jsGt (parseDuration e.duration) (jsMul (some a) (some 2)) <;>
      cases h1 : jsGt (parseDuration e.duration) (some 1000) <;> simp
  · rw [← countP_split _ _ events (fun e _ h => jsGt_three_imp_two _ a ha h)]
    apply List.countP_congr
    intro e _
    unfold getSeverity
    cases h3 : jsGt (parseDuration e.duration) (jsMul (some a) (some 3)) <;>
      cases h2 : jsGt (parseDuration e.duration) (jsMul (some a) (some 2)) <;>
      cases h1 : jsGt (parseDuration e.duration) (some 1000) <;> simp

/-- Witness of `severity_counts`: one event of a second and three of `0` ms. -/
theorem severity_counts_witness :
    (∀ e ∈ mildEvents, ∃ q : ℚ, 0 ≤ q ∧ parseDuration e.duration = some q) ∧
      mildEvents.countP (fun e => getSeverity (parseDuration e.duration)
          (calculateMetrics (some mildEvents)).avgDuration = .critical)
        = (calculateMetrics (some mildEvents)).criticalIssues ∧
      mildEvents.countP (fun e => getSeverity (parseDuration e.duration)
          (calculateMetrics (some mildEvents)).avgDuration = .slow)
        = (calculateMetrics (some mildEvents)).slowSteps
          - (calculateMetrics (some mildEvents)).criticalIssues :=
  ⟨mildEvents_nonneg, severity_counts mildEvents mildEvents_nonneg⟩

/-! ### Timeline traversal -/

theorem render_treeEvents :
    render 4 treeEvents
      = some [(⟨some 0, none, "root", .undefined, .undefined, .absent⟩, 0),
          (⟨some 1, some 0, "left", .undefined, .undefined, .absent⟩, 1),
          (⟨some 2, some 1, "leaf", .undefined, .undefined, .absent⟩, 2),
          (⟨some 3, some 0, "right", .undefined, .undefined, .absent⟩, 1)] := by
  decide

theorem render_cyclicEvents :
    render 3 cyclicEvents
      = some [(⟨some 0, none, "root", .undefined, .undefined, .absent⟩, 0)] := by
  decide

theorem buildParentMap_foldl (events : List StartupEvent) (init : Nat → List StartupEvent)
    (k : Nat) :
    events.foldl
      (fun map ev =>
        match ev.parentId with
        | some pid => fun k => if k = pid then map k ++ [ev] else map k
        | none => map) init k
      = init k ++ events.filter (fun ev => ev.parentId == some k) := by
  induction events generalizing init with
  | nil => simp
  | cons ev rest ih =>
    rw [List.foldl_cons, ih]
    cases hp : ev.parentId with
    | none => simp [List.filter_cons, hp]
    | some pid =>
      by_cases hk : k = pid
      · subst hk; simp [List.filter_cons, hp]
      · have : ¬ pid = k := fun h => hk h.symm
        simp [List.filter_cons, hp, hk, this]

theorem buildParentMap_apply (events : List StartupEvent) (k : Nat) :
    buildParentMap events k = events.filter (fun ev => ev.parentId == some k) := by
  unfold buildParentMap
  rw [buildParentMap_foldl]
  simp

theorem mem_childrenOf {events : List StartupEvent} {e c : StartupEvent} :
    c ∈ childrenOf events e ↔ c ∈ events ∧ ∃ i, e.stepId = some i ∧ c.parentId = some i := by
  unfold childrenOf childrenIn
  cases h : e.stepId with
  | none => simp
  | some i => simp [buildParentMap_apply]

theorem isRootEvent_iff (events : List StartupEvent) (e : StartupEvent) :
    isRootEvent events e = true ↔ parentOf events e = none := by
  unfold isRootEvent parentOf
  cases h : e.parentId with
  | none => simp
  | some pid =>
    simp only [Bool.not_eq_true', List.find?_eq_none]
    constructor
    · intro hc x hx hxs
      have hmem : pid ∈ events.filterMap (·.stepId) := by
        rw [List.mem_filterMap]
        exact ⟨x, hx, by simpa using hxs⟩
      have : (events.filterMap (·.stepId)).contains pid = true := by
        simpa using hmem
      rw [hc] at this; cases this
    · intro hall
      by_contra hcon
      have hc : (events.filterMap (·.stepId)).contains pid = true := by
        cases hb : (events.filterMap (·.stepId)).contains pid
        · exact absurd hb hcon
        · rfl
      have hmem : pid ∈ events.filterMap (·.stepId) := by simpa using hc
      rw [List.mem_filterMap] at hmem
      obtain ⟨x, hx, hxs⟩ := hmem
      exact hall x hx (by simpa using hxs)

theorem mem_getRootEvents {events : List StartupEvent} {e : StartupEvent} :
    e ∈ getRootEvents events ↔ e ∈ events ∧ parentOf events e = none := by
  unfold getRootEvents
  rw [List.mem_filter, isRootEvent_iff]

theorem parentOf_some {events : List StartupEvent} {c p : StartupEvent}
    (h : parentOf events c = some p) :
    p ∈ events ∧ ∃ i, c.parentId = some i ∧ p.stepId = some i := by
  unfold parentOf at h
  cases hp : c.parentId with
  | none => rw [hp] at h; cases h
  | some pid =>
    rw [hp] at h
    simp only at h
    refine ⟨List.mem_of_find?_eq_some h, pid, rfl, ?_⟩
    have := List.find?_some h
    simpa using this

theorem eq_of_stepId {events : List StartupEvent}
    (hids : (events.filterMap (·.stepId)).Nodup) {x y : StartupEvent} {i : Nat}
    (hx : x ∈ events) (hy : y ∈ events) (hxi : x.stepId = some i) (hyi : y.stepId = some i) :
    x = y := by
  induction events with
  | nil => cases hx
  | cons a rest ih =>
    have hmemi : ∀ z ∈ rest, z.stepId = some i → i ∈ rest.filterMap (·.stepId) := by
      intro z hz hzi
      rw [List.mem_filterMap]; exact ⟨z, hz, hzi⟩
    cases ha : a.stepId with
    | none =>
      rw [List.filterMap_cons, ha] at hids
      simp only at hids
      have hxr : x ∈ rest := by
        rcases List.mem_cons.mp hx with h | h
        · rw [h, ha] at hxi; cases hxi
        · exact h
      have hyr : y ∈ rest := by
        rcases List.mem_cons.mp hy with h | h
        · rw [h, ha] at hyi; cases hyi
        · exact h
      exact ih hids hxr hyr
    | some j =>
      rw [List.filterMap_cons, ha] at hids
      simp only at hids
      rw [List.nodup_cons] at hids
      rcases List.mem_cons.mp hx with h | h <;> rcases List.mem_cons.mp hy with h2 | h2
      · rw [h, h2]
      · exfalso
        rw [h, ha] at hxi
        injection hxi with hji
        exact hids.1 (hji ▸ hmemi y h2 hyi)
      · exfalso
        rw [h2, ha] at hyi
        injection hyi with hji
        exact hids.1 (hji ▸ hmemi x h hxi)
      · exact ih hids.2 h h2

theorem count_of_stepId {events : List StartupEvent}
    (hids : (events.filterMap (·.stepId)).Nodup) {x : StartupEvent} {i : Nat}
    (hx : x ∈ events) (hxi : x.stepId = some i) : events.count x = 1 := by
  induction events with
  | nil => cases hx
  | cons a rest ih =>
    by_cases hax : a = x
    · subst hax
      rw [List.filterMap_cons, hxi] at hids
      simp only at hids
      rw [List.nodup_cons] at hids
      have : a ∉ rest := by
        intro hmem
        apply hids.1
        rw [List.mem_filterMap]; exact ⟨a, hmem, hxi⟩
      rw [List.count_cons_self, List.count_eq_zero_of_not_mem this]
    · have hxr : x ∈ rest := by
        rcases List.mem_cons.mp hx with h | h
        · exact absurd h.symm hax
        · exact h
      have hids2 : (rest.filterMap (·.stepId)).Nodup := by
        rw [List.filterMap_cons] at hids
        cases ha : a.stepId with
        | none => rw [ha] at hids; exact hids
        | some j => rw [ha] at hids; exact (List.nodup_cons.mp hids).2
      rw [List.count_cons_of_ne (fun h => hax h.symm)]
      exact ih hids2 hxr

theorem parentOf_eq_some {events : List StartupEvent}
    (hids : (events.filterMap (·.stepId)).Nodup) {c p : StartupEvent} {i : Nat}
    (hp : p ∈ events) (hpi : p.stepId = some i) (hci : c.parentId = some i) :
    parentOf events c = some p := by
  unfold parentOf
  rw [hci]
  simp only
  cases hf : events.find? (fun x => x.stepId == some i) with
  | none =>
    rw [List.find?_eq_none] at hf
    exact absurd (by simpa using hpi) (hf p hp)
  | some q =>
    have hq := List.mem_of_find?_eq_some hf
    have hqi : q.stepId = some i := by simpa using List.find?_some hf
    rw [eq_of_stepId hids hq hp hqi hpi]

theorem mem_childrenOf_iff {events : List StartupEvent}
    (hids : (events.filterMap (·.stepId)).Nodup) {e c : StartupEvent} (he : e ∈ events) :
    c ∈ childrenOf events e ↔ c ∈ events ∧ parentOf events c = some e := by
  rw [mem_childrenOf]
  constructor
  · rintro ⟨hc, i, hei, hci⟩
    exact ⟨hc, parentOf_eq_some hids he hei hci⟩
  · rintro ⟨hc, hpar⟩
    obtain ⟨_, i, hci, hei⟩ := parentOf_some hpar
    exact ⟨hc, i, hei, hci⟩

theorem hasDepth_unique {events : List StartupEvent} {e : StartupEvent} {d d2 : Nat}
    (h : HasDepth events e d) (h2 : HasDepth events e d2) : d = d2 := by
  induction h generalizing d2 with
  | root hr =>
    cases h2 with
    | root _ => rfl
    | step hp _ => rw [hr] at hp; cases hp
  | step hp _ ih =>
    cases h2 with
    | root hr => rw [hr] at hp; cases hp
    | step hp2 hd2 =>
      rw [hp] at hp2
      injection hp2 with hpp
      subst hpp
      rw [ih hd2]

/-- An event of depth `d` has `d` ancestors that, with the event, are pairwise
distinct events of the report. -/
theorem hasDepth_chain {events : List StartupEvent} {e : StartupEvent} {d : Nat}
    (h : HasDepth events e d) (he : e ∈ events) :
    ∃ chain : List StartupEvent, chain.length = d + 1 ∧ chain.Nodup ∧
      (∀ x ∈ chain, x ∈ events ∧ ∃ k, k ≤ d ∧ HasDepth events x k) := by
  induction h with
  | @root e hr =>
    exact ⟨[e], rfl, List.nodup_singleton e, fun x hx => by
      rw [List.mem_singleton] at hx
      subst hx
      exact ⟨he, 0, le_rfl, HasDepth.root hr⟩⟩
  | @step e p d hp hd ih =>
    obtain ⟨chain, hlen, hnd, hall⟩ := ih (parentOf_some hp).1
    refine ⟨e :: chain, by simp [hlen], ?_, ?_⟩
    · rw [List.nodup_cons]
      refine ⟨?_, hnd⟩
      intro hmem
      obtain ⟨_, k, hk, hdk⟩ := hall e hmem
      have := hasDepth_unique hdk (HasDepth.step hp hd)
      omega
    · intro x hx
      rcases List.mem_cons.mp hx with h | h
      · subst h
        exact ⟨he, d + 1, le_rfl, HasDepth.step hp hd⟩
      · obtain ⟨hxe, k, hk, hdk⟩ := hall x h
        exact ⟨hxe, k, by omega, hdk⟩

theorem hasDepth_lt_length {events : List StartupEvent} {e : StartupEvent} {d : Nat}
    (h : HasDepth events e d) (he : e ∈ events) : d < events.length := by
  obtain ⟨chain, hlen, hnd, hall⟩ := hasDepth_chain h he
  have hsub : chain ⊆ events := fun x hx => (hall x hx).1
  have := (List.Nodup.subperm hnd hsub).length_le
  omega

theorem collect_cons_eq_some {α : Type} (x : Option (List α)) (xs : List (Option (List α)))
    (r : List α) :
    collect (x :: xs) = some r ↔ ∃ v r2, x = some v ∧ collect xs = some r2 ∧ r = v ++ r2 := by
  cases x with
  | none => simp [collect]
  | some v =>
    cases hc : collect xs with
    | none => simp [collect, hc]
    | some r2 =>
      simp only [collect, hc, Option.some.injEq]
      constructor
      · intro h; exact ⟨v, r2, rfl, rfl, h.symm⟩
      · rintro ⟨v2, r3, hv, hr3, hr⟩
        subst hv; subst hr3; exact hr.symm

theorem collect_some {α β : Type} (g : α → Option (List β)) (l : List α)
    (h : ∀ x ∈ l, ∃ v, g x = some v) : ∃ r, collect (l.map g) = some r := by
  induction l with
  | nil => exact ⟨[], rfl⟩
  | cons a rest ih =>
    obtain ⟨v, hv⟩ := h a (List.mem_cons_self _ _)
    obtain ⟨r, hr⟩ := ih (fun x hx => h x (List.mem_cons_of_mem _ hx))
    exact ⟨v ++ r, (collect_cons_eq_some _ _ _).mpr ⟨v, r, hv, hr, rfl⟩⟩

theorem collect_congr {α β : Type} (g g2 : α → Option (List β)) (l : List α) (r : List β)
    (h : ∀ x ∈ l, ∀ v, g x = some v → g2 x = some v)
    (hr : collect (l.map g) = some r) : collect (l.map g2) = some r := by
  induction l generalizing r with
  | nil => simpa [collect] using hr
  | cons a rest ih =>
    rw [List.map_cons, collect_cons_eq_some] at hr ⊢
    obtain ⟨v, r2, hv, hr2, hrr⟩ := hr
    exact ⟨v, r2, h a (List.mem_cons_self _ _) v hv,
      ih r2 (fun x hx => h x (List.mem_cons_of_mem _ hx)) hr2, hrr⟩

theorem collect_forall {α β : Type} (g : α → Option (List β)) (Q : β → Prop) (l : List α)
    (r : List β) (h : ∀ x ∈ l, ∀ v, g x = some v → ∀ y ∈ v, Q y)
    (hr : collect (l.map g) = some r) : ∀ y ∈ r, Q y := by
  induction l generalizing r with
  | nil =>
    simp only [List.map_nil, collect, Option.some.injEq] at hr
    subst hr; simp
  | cons a rest ih =>
    rw [List.map_cons, collect_cons_eq_some] at hr
    obtain ⟨v, r2, hv, hr2, hrr⟩ := hr
    subst hrr
    intro y hy
    rcases List.mem_append.mp hy with h1 | h1
    · exact h a (List.mem_cons_self _ _) v hv y h1
    · exact ih r2 (fun x hx => h x (List.mem_cons_of_mem _ hx)) hr2 y h1

/-- Two additive measures of the collected items. -/
theorem collect_sum {α β : Type} (g : α → Option (List β)) (A B : List β → Nat)
    (ν : α → Nat) (hA0 : A [] = 0) (hB0 : B [] = 0)
    (hA : ∀ u v, A (u ++ v) = A u + A v) (hB : ∀ u v, B (u ++ v) = B u + B v)
    (l : List α) (r : List β)
    (h : ∀ x ∈ l, ∀ v, g x = some v → A v = ν x + B v)
    (hr : collect (l.map g) = some r) : A r = (l.map ν).sum + B r := by
  induction l generalizing r with
  | nil =>
    simp only [List.map_nil, collect, Option.some.injEq] at hr
    subst hr; simp [hA0, hB0]
  | cons a rest ih =>
    rw [List.map_cons, collect_cons_eq_some] at hr
    obtain ⟨v, r2, hv, hr2, hrr⟩ := hr
    subst hrr
    have h1 := h a (List.mem_cons_self _ _) v hv
    have h2 := ih r2 (fun x hx => h x (List.mem_cons_of_mem _ hx)) hr2
    rw [hA, hB, h1, h2, List.map_cons, List.sum_cons]
    omega

theorem renderEvent_step (pm : Nat → List StartupEvent) (fuel : Nat) (e : StartupEvent)
    (level : Nat) :
    renderEvent pm (fuel + 1) e level
      = match collect ((childrenIn pm e).map
          (fun child => renderEvent pm fuel child (level + 1))) with
        | some below => some ((e, level) :: below)
        | none => none := by
  rw [renderEvent]

theorem renderEvent_eq_some (pm : Nat → List StartupEvent) (fuel : Nat) (e : StartupEvent)
    (level : Nat) (vs : List (StartupEvent × Nat)) :
    renderEvent pm (fuel + 1) e level = some vs ↔
      ∃ below, collect ((childrenIn pm e).map
          (fun child => renderEvent pm fuel child (level + 1))) = some below ∧
        vs = (e, level) :: below := by
  rw [renderEvent_step]
  cases hc : collect ((childrenIn pm e).map
      (fun child => renderEvent pm fuel child (level + 1))) with
  | none => simp
  | some below =>
    simp only [Option.some.injEq]
    constructor
    · intro h; exact ⟨below, rfl, h.symm⟩
    · rintro ⟨b2, hb, hv⟩; subst hb; exact hv.symm

theorem renderEvent_succ (pm : Nat → List StartupEvent) (fuel : Nat) :
    ∀ (e : StartupEvent) (level : Nat) (vs : List (StartupEvent × Nat)),
      renderEvent pm fuel e level = some vs → renderEvent pm (fuel + 1) e level = some vs := by
  induction fuel with
  | zero => intro e level vs h; simp [renderEvent] at h
  | succ f ih =>
    intro e level vs h
    rw [renderEvent_eq_some] at h ⊢
    obtain ⟨below, hc, hv⟩ := h
    exact ⟨below, collect_congr _ _ _ below (fun x _ v hv => ih x (level + 1) v hv) hc, hv⟩

theorem renderEvent_mono (pm : Nat → List StartupEvent) {fuel fuel2 : Nat} (hle : fuel ≤ fuel2)
    {e : StartupEvent} {level : Nat} {vs : List (StartupEvent × Nat)}
    (h : renderEvent pm fuel e level = some vs) : renderEvent pm fuel2 e level = some vs := by
  induction hle with
  | refl => exact h
  | step _ ih => exact renderEvent_succ pm _ e level vs ih

/-- The recursion from an event of depth `d` returns when the bound is at least
the number of events minus `d`. -/
theorem renderEvent_returns {events : List StartupEvent}
    (hids : (events.filterMap (·.stepId)).Nodup) (fuel : Nat) :
    ∀ (e : StartupEvent) (d level : Nat), e ∈ events → HasDepth events e d →
      events.length - d ≤ fuel →
      ∃ vs, renderEvent (buildParentMap events) fuel e level = some vs := by
  induction fuel with
  | zero =>
    intro e d level he hd hf
    have := hasDepth_lt_length hd he
    omega
  | succ f ih =>
    intro e d level he hd hf
    have hch : ∀ c ∈ childrenOf events e,
        ∃ v, renderEvent (buildParentMap events) f c (level + 1) = some v := by
      intro c hc
      obtain ⟨hce, hpar⟩ := (mem_childrenOf_iff hids he).mp hc
      exact ih c (d + 1) (level + 1) hce (HasDepth.step hpar hd) (by omega)
    obtain ⟨r, hr⟩ := collect_some _ _ hch
    exact ⟨(e, level) :: r, (renderEvent_eq_some _ _ _ _ _).mpr ⟨r, hr, rfl⟩⟩

/-- Every event the recursion visits is an event of the report, and its level
is its depth. -/
theorem renderEvent_levels {events : List StartupEvent}
    (hids : (events.filterMap (·.stepId)).Nodup) (fuel : Nat) :
    ∀ (e : StartupEvent) (level : Nat) (vs : List (StartupEvent × Nat)),
      renderEvent (buildParentMap events) fuel e level = some vs → e ∈ events →
      HasDepth events e level → ∀ v ∈ vs, v.1 ∈ events ∧ HasDepth events v.1 v.2 := by
  induction fuel with
  | zero => intro e level vs h; simp [renderEvent] at h
  | succ f ih =>
    intro e level vs h he hd
    rw [renderEvent_eq_some] at h
    obtain ⟨below, hc, hv⟩ := h
    subst hv
    have hbelow := collect_forall _
      (fun v : StartupEvent × Nat => v.1 ∈ events ∧ HasDepth events v.1 v.2) _ below
      (fun c hcm v hcv => by
        obtain ⟨hce, hpar⟩ := (mem_childrenOf_iff hids he).mp hcm
        exact ih c (level + 1) v hcv hce (HasDepth.step hpar hd)) hc
    intro v hv
    rcases List.mem_cons.mp hv with h1 | h1
    · subst h1; exact ⟨he, hd⟩
    · exact hbelow v h1

theorem sum_indicator (x : StartupEvent) (l : List StartupEvent) :
    (l.map (fun c => if x = c then 1 else 0)).sum = l.count x := by
  induction l with
  | nil => rfl
  | cons a rest ih =>
    rw [List.map_cons, List.sum_cons, ih, List.count_cons]
    by_cases h : x = a
    · subst h; simp; omega
    · have : ¬ a = x := fun h2 => h h2.symm
      simp [h, this]

theorem renderEvent_count (events : List StartupEvent) (x : StartupEvent) (fuel : Nat) :
    ∀ (e : StartupEvent) (level : Nat) (vs : List (StartupEvent × Nat)),
      renderEvent (buildParentMap events) fuel e level = some vs →
      (vs.map Prod.fst).count x = (if x = e then 1 else 0) + childVisits events x vs := by
  induction fuel with
  | zero => intro e level vs h; simp [renderEvent] at h
  | succ f ih =>
    intro e level vs h
    rw [renderEvent_eq_some] at h
    obtain ⟨below, hc, hv⟩ := h
    subst hv
    have hsum := collect_sum
      (fun child => renderEvent (buildParentMap events) f child (level + 1))
      (fun v => (v.map Prod.fst).count x) (childVisits events x)
      (fun c => if x = c then 1 else 0) (by simp) (by simp [childVisits])
      (by intro u v; simp [List.count_append])
      (by intro u v; simp [childVisits])
      (childrenIn (buildParentMap events) e) below
      (fun c _ v hcv => ih c (level + 1) v hcv) hc
    rw [sum_indicator] at hsum
    simp only at hsum
    have hcons : childVisits events x ((e, level) :: below)
        = (childrenOf events e).count x + childVisits events x below := by
      simp [childVisits]
    rw [hcons, List.map_cons, List.count_cons, hsum]
    unfold childrenOf
    by_cases hxe : x = e
    · subst hxe; simp; omega
    · have : ¬ e = x := fun h2 => hxe h2.symm
      simp [hxe, this]

theorem render_count (events : List StartupEvent) (x : StartupEvent) (fuel : Nat)
    (visits : List (StartupEvent × Nat)) (h : render fuel events = some visits) :
    (visits.map Prod.fst).count x
      = (getRootEvents events).count x + childVisits events x visits := by
  unfold render at h
  have hsum := collect_sum
    (fun e => renderEvent (buildParentMap events) fuel e 0)
    (fun v => (v.map Prod.fst).count x) (childVisits events x)
    (fun c => if x = c then 1 else 0) (by simp) (by simp [childVisits])
    (by intro u v; simp [List.count_append])
    (by intro u v; simp [childVisits])
    (getRootEvents events) visits
    (fun c _ v hcv => renderEvent_count events x fuel c 0 v hcv) h
  rw [sum_indicator] at hsum
  exact hsum

theorem render_levels {events : List StartupEvent}
    (hids : (events.filterMap (·.stepId)).Nodup) (fuel : Nat)
    (visits : List (StartupEvent × Nat)) (h : render fuel events = some visits) :
    ∀ v ∈ visits, v.1 ∈ events ∧ HasDepth events v.1 v.2 := by
  unfold render at h
  exact collect_forall _
    (fun v : StartupEvent × Nat => v.1 ∈ events ∧ HasDepth events v.1 v.2) _ visits
    (fun r hr v hrv => by
      obtain ⟨hre, hroot⟩ := mem_getRootEvents.mp hr
      exact renderEvent_levels hids fuel r 0 v hrv hre (HasDepth.root hroot)) h

theorem render_returns {events : List StartupEvent}
    (hids : (events.filterMap (·.stepId)).Nodup) :
    ∃ visits, ∀ fuel, events.length ≤ fuel → render fuel events = some visits := by
  have hall : ∀ r ∈ getRootEvents events,
      ∃ v, renderEvent (buildParentMap events) events.length r 0 = some v := by
    intro r hr
    obtain ⟨hre, hroot⟩ := mem_getRootEvents.mp hr
    exact renderEvent_returns hids events.length r 0 0 hre (HasDepth.root hroot) (by omega)
  obtain ⟨visits, hv⟩ := collect_some _ _ hall
  refine ⟨visits, fun fuel hf => ?_⟩
  unfold render
  exact collect_congr _ _ _ visits (fun r _ v hrv => renderEvent_mono _ hf hrv) hv

theorem childVisits_zero_of_root {events : List StartupEvent}
    (hids : (events.filterMap (·.stepId)).Nodup) {x : StartupEvent}
    (hroot : parentOf events x = none) (vs : List (StartupEvent × Nat))
    (hvs : ∀ v ∈ vs, v.1 ∈ events) : childVisits events x vs = 0 := by
  unfold childVisits
  apply List.sum_eq_zero
  intro n hn
  obtain ⟨v, hv, rfl⟩ := List.mem_map.mp hn
  apply List.count_eq_zero_of_not_mem
  intro hmem
  have := ((mem_childrenOf_iff hids (hvs v hv)).mp hmem).2
  rw [hroot] at this; cases this

theorem childVisits_of_parent {events : List StartupEvent}
    (hids : (events.filterMap (·.stepId)).Nodup) {x p : StartupEvent}
    (hpar : parentOf events x = some p) (vs : List (StartupEvent × Nat))
    (hvs : ∀ v ∈ vs, v.1 ∈ events) :
    childVisits events x vs = (vs.map Prod.fst).count p * events.count x := by
  obtain ⟨hpe, i, hxi, hpi⟩ := parentOf_some hpar
  induction vs with
  | nil => simp [childVisits]
  | cons v rest ih =>
    have ih2 := ih (fun w hw => hvs w (List.mem_cons_of_mem _ hw))
    have hve := hvs v (List.mem_cons_self _ _)
    have hcons : childVisits events x (v :: rest)
        = (childrenOf events v.1).count x + childVisits events x rest := by
      simp [childVisits]
    rw [hcons, ih2, List.map_cons, List.count_cons]
    by_cases hvp : v.1 = p
    · have hch : (childrenOf events v.1).count x = events.count x := by
        rw [hvp]
        unfold childrenOf childrenIn
        rw [hpi]
        simp only [buildParentMap_apply]
        rw [List.count_filter]
        simp [hxi]
      rw [hch]
      simp [hvp]; ring
    · have hch : (childrenOf events v.1).count x = 0 := by
        apply List.count_eq_zero_of_not_mem
        intro hmem
        have := ((mem_childrenOf_iff hids hve).mp hmem).2
        rw [hpar] at this
        injection this with h
        exact hvp h.symm
      rw [hch]
      simp [hvp]

/-- An event whose chain of ancestors ends is visited as often as it occurs in
the report. -/
theorem render_count_of_depth {events : List StartupEvent}
    (hids : (events.filterMap (·.stepId)).Nodup) (fuel : Nat)
    (visits : List (StartupEvent × Nat)) (h : render fuel events = some visits)
    {x : StartupEvent} {d : Nat} (hd : HasDepth events x d) (hx : x ∈ events) :
    (visits.map Prod.fst).count x = events.count x := by
  have hvs : ∀ v ∈ visits, v.1 ∈ events := fun v hv => (render_levels hids fuel visits h v hv).1
  induction hd with
  | @root e hroot =>
    rw [render_count events e fuel visits h, childVisits_zero_of_root hids hroot visits hvs]
    unfold getRootEvents
    rw [List.count_filter ((isRootEvent_iff events e).mpr hroot)]
    rfl
  | @step e p d hpar _ ih =>
    obtain ⟨hpe, i, hei, hpi⟩ := parentOf_some hpar
    have hnotroot : (getRootEvents events).count e = 0 := by
      apply List.count_eq_zero_of_not_mem
      intro hmem
      have := (mem_getRootEvents.mp hmem).2
      rw [hpar] at this; cases this
    rw [render_count events e fuel visits h, hnotroot,
      childVisits_of_parent hids hpar visits hvs, ih hpe, count_of_stepId hids hpe hpi]
    omega

/-- Each event is visited at most as often as it occurs in the report. -/
theorem render_count_le {events : List StartupEvent}
    (hids : (events.filterMap (·.stepId)).Nodup) (fuel : Nat)
    (visits : List (StartupEvent × Nat)) (h : render fuel events = some visits)
    (x : StartupEvent) : (visits.map Prod.fst).count x ≤ events.count x := by
  by_cases hx : x ∈ visits.map Prod.fst
  · obtain ⟨v, hv, rfl⟩ := List.mem_map.mp hx
    obtain ⟨hve, hvd⟩ := render_levels hids fuel visits h v hv
    exact (render_count_of_depth hids fuel visits h hvd hve).le
  · rw [List.count_eq_zero_of_not_mem hx]
    exact Nat.zero_le _

theorem ancestorChain_length_of_depth {events : List StartupEvent} {e : StartupEvent}
    {d : Nat} (h : HasDepth events e d) :
    ∀ fuel, d ≤ fuel → (ancestorChain events fuel e).length = d := by
  induction h with
  | root hr =>
    intro fuel _
    cases fuel with
    | zero => rfl
    | succ f => simp [ancestorChain, hr]
  | step hp _ ih =>
    intro fuel hf
    cases fuel with
    | zero => omega
    | succ f =>
      simp only [ancestorChain, hp, List.length_cons]
      rw [ih f (by omega)]

theorem ancestorChain_length_le (events : List StartupEvent) (fuel : Nat) :
    ∀ e, (ancestorChain events fuel e).length ≤ fuel := by
  induction fuel with
  | zero => intro e; simp [ancestorChain]
  | succ f ih =>
    intro e
    cases hp : parentOf events e with
    | none => simp [ancestorChain, hp]
    | some p =>
      simp only [ancestorChain, hp, List.length_cons]
      have := ih p
      omega

theorem ancestorChain_mem (events : List StartupEvent) (fuel : Nat) :
    ∀ e, ∀ x ∈ ancestorChain events fuel e, x ∈ events := by
  induction fuel with
  | zero => intro e x hx; simp [ancestorChain] at hx
  | succ f ih =>
    intro e x hx
    cases hp : parentOf events e with
    | none => simp [ancestorChain, hp] at hx
    | some p =>
      simp only [ancestorChain, hp, List.mem_cons] at hx
      rcases hx with h | h
      · rw [h]; exact (parentOf_some hp).1
      · exact ih p x h

theorem ancestorChain_ended (events : List StartupEvent) (fuel : Nat) :
    ∀ e, (ancestorChain events fuel e).length < fuel → ∃ d, HasDepth events e d := by
  induction fuel with
  | zero => intro e h; omega
  | succ f ih =>
    intro e h
    cases hp : parentOf events e with
    | none => exact ⟨0, HasDepth.root hp⟩
    | some p =>
      simp only [ancestorChain, hp, List.length_cons] at h
      obtain ⟨d, hd⟩ := ih p (by omega)
      exact ⟨d + 1, HasDepth.step hp hd⟩

theorem ancestorChain_mono (events : List StartupEvent) (fuel : Nat) :
    ∀ e x, x ∈ ancestorChain events fuel e → x ∈ ancestorChain events (fuel + 1) e := by
  induction fuel with
  | zero => intro e x hx; simp [ancestorChain] at hx
  | succ f ih =>
    intro e x hx
    cases hp : parentOf events e with
    | none => simp [ancestorChain, hp] at hx
    | some p =>
      rw [ancestorChain, hp] at hx ⊢
      simp only [List.mem_cons] at hx ⊢
      rcases hx with h | h
      · exact Or.inl h
      · exact Or.inr (ih p x h)

theorem ancestorChain_mono_le (events : List StartupEvent) {fuel fuel2 : Nat}
    (hle : fuel ≤ fuel2) {e x : StartupEvent} (h : x ∈ ancestorChain events fuel e) :
    x ∈ ancestorChain events fuel2 e := by
  induction hle with
  | refl => exact h
  | step _ ih => exact ancestorChain_mono events _ e x ih

theorem ancestorChain_repeat (events : List StartupEvent) (fuel : Nat) :
    ∀ e, ¬ (ancestorChain events fuel e).Nodup →
      ∃ y, y ∈ events ∧ y ∈ ancestorChain events fuel y := by
  induction fuel with
  | zero => intro e h; simp [ancestorChain] at h
  | succ f ih =>
    intro e h
    cases hp : parentOf events e with
    | none => simp [ancestorChain, hp] at h
    | some p =>
      rw [ancestorChain, hp] at h
      simp only [List.nodup_cons, not_and_or, not_not] at h
      rcases h with h | h
      · exact ⟨p, (parentOf_some hp).1, ancestorChain_mono events f p p h⟩
      · obtain ⟨y, hy, hmem⟩ := ih p h
        exact ⟨y, hy, ancestorChain_mono events f y y hmem⟩

/-- In a report without cycle the chain of ancestors of every event ends. -/
theorem hasDepth_of_acyclic {events : List StartupEvent} (hac : Acyclic events)
    {e : StartupEvent} (he : e ∈ events) : ∃ d, HasDepth events e d := by
  by_cases hlen : (ancestorChain events events.length e).length < events.length
  · exact ancestorChain_ended events events.length e hlen
  · exfalso
    by_cases hnd : (ancestorChain events events.length e).Nodup
    · have hsub : ancestorChain events events.length e ⊆ events :=
        ancestorChain_mem events events.length e
      have hperm := (List.Nodup.subperm hnd hsub).perm_of_length_le (by omega)
      exact hac e he (hperm.mem_iff.mpr he)
    · obtain ⟨y, hy, hmem⟩ := ancestorChain_repeat events events.length e hnd
      exact hac y hy hmem

/-- C30: for a report whose step ids are pairwise distinct, `render` returns
(a recursion as deep as the report is long suffices), and it visits each event
at most as often as the event occurs in the report, each at the level that is
the length of its chain of existing ancestors; if moreover no event is among its
own ancestors, the visited events are the events of the report, each exactly
once. -/
theorem render_visits_events (events : List StartupEvent)
    (hids : (events.filterMap (·.stepId)).Nodup) :
    ∃ visits : List (StartupEvent × Nat),
      (∀ fuel, events.length ≤ fuel → render fuel events = some visits) ∧
      (visits.map Prod.fst).Subperm events ∧
      (∀ v ∈ visits, v.2 = (ancestorChain events events.length v.1).length) ∧
      (Acyclic events → (visits.map Prod.fst).Perm events) := by
  obtain ⟨visits, hret⟩ := render_returns hids
  have h := hret events.length le_rfl
  refine ⟨visits, hret, ?_, ?_, ?_⟩
  · rw [List.subperm_ext_iff]
    intro x _
    exact render_count_le hids _ visits h x
  · intro v hv
    obtain ⟨hve, hvd⟩ := render_levels hids _ visits h v hv
    have hlt := hasDepth_lt_length hvd hve
    exact (ancestorChain_length_of_depth hvd events.length (by omega)).symm
  · intro hac
    rw [List.perm_iff_count]
    intro x
    by_cases hx : x ∈ events
    · obtain ⟨d, hd⟩ := hasDepth_of_acyclic hac hx
      exact render_count_of_depth hids _ visits h hd hx
    · rw [List.count_eq_zero_of_not_mem hx]
      apply List.count_eq_zero_of_not_mem
      intro hmem
      obtain ⟨v, hv, rfl⟩ := List.mem_map.mp hmem
      exact hx (render_levels hids _ visits h v hv).1

/-- Witness of `render_visits_events`: a root, its two children and a
grandchild; the report has no cycle. -/
theorem render_visits_events_witness :
    (treeEvents.filterMap (·.stepId)).Nodup ∧ Acyclic treeEvents ∧
      ∃ visits : List (StartupEvent × Nat),
        (∀ fuel, treeEvents.length ≤ fuel → render fuel treeEvents = some visits) ∧
        (visits.map Prod.fst).Subperm treeEvents ∧
        (∀ v ∈ visits, v.2 = (ancestorChain treeEvents treeEvents.length v.1).length) ∧
        (Acyclic treeEvents → (visits.map Prod.fst).Perm treeEvents) :=
  ⟨by decide, by unfold Acyclic; decide, render_visits_events treeEvents (by decide)⟩

end StartupAnalyzer
